import Mathlib

/-!
# Maintenance-order lifecycle, reports and persistence of the asset tracker

Shallow embedding of `src/src/ordem.c`, of the lookups it relies on
(`ativos.c`, `tecnicos.c`, `materiais.c`, `input.c`), of the reports of
`relatorios.c`, of the binary save and load routines, and of the functions of
`ativos.c` and `departamentos.c` that create, update and retire records.

Conventions of the embedding

* C `int` is `Int`.  Signed overflow is undefined behaviour in C, so the model
  speaks about runs in which no `int` computation overflows.
* C enumerations are `Int` with the enumerators as named constants, because the
  program stores arbitrary integers in them (`obterIntIntervalado` results, file
  contents).
* A store is the list of its first `contador` records; `contador` is the length
  of that list.  `capacidade` is kept as a field.
* `char *` is `Option String` (`none` is `NULL`).  A character of the string
  stands for one C `char`, so `strlen` is `String.length`; strings hold no NUL.
* C `float` is `CFloat`: finite binary32 values with round-to-nearest-even on
  a 24 bit significand.  Infinities, NaN and the exponent range are outside
  the model.
* Standard input is a list of lines (`Linha`).  A line records what each
  `scanf` conversion extracts from it.  An exhausted input makes the blocking
  readers return `none`: the C loop never returns at end of file.
* `realloc` results come from `Mundo.heap`, one Boolean per call.
* `printf`, `puts` and `registar_log` only write to the terminal or the log
  file and are left out.
* A binary file is the list of its bytes.  `int`, the enumerations and `float`
  take four bytes, least significant first; a `char` takes one.  `fwrite` is
  taken to succeed; `fread` fails only at the end of the file.
* `mktime` is a parameter of the functions that call it; `mktimeUTC` is its
  instance for the time zone UTC.
* Functions that can index outside their array or dereference `NULL` return a
  `Saida`, which tells these outcomes apart from a return and from a wait for
  input.
-/

namespace GestaoAtivos

/-! ## The C `float` type -/

/-- Finite binary32 value `mant * 2 ^ expo`, kept in canonical form: `mant` is
odd, or `mant = 0` and `expo = 0`. -/
structure CFloat where
  mant : Int
  expo : Int
deriving DecidableEq

namespace CFloat

/-- Number of binary digits of `n`, by repeated halving (`fuel` bounds the depth). -/
def numBits : Nat → Nat → Nat
  | 0, _ => 0
  | fuel + 1, n => if n = 0 then 0 else numBits fuel (n / 2) + 1

/-- Canonical form: trailing zero bits of the significand move to the exponent. -/
def reduzir : Nat → Int → Int → CFloat
  | 0, m, e => ⟨m, e⟩
  | fuel + 1, m, e =>
    if m = 0 then ⟨0, 0⟩
    else if m % 2 = 0 then reduzir fuel (m / 2) (e + 1)
    else ⟨m, e⟩

/-- Round `m * 2 ^ e` to a 24 bit significand, ties to even. -/
def arredondar (m e : Int) : CFloat :=
  let a := m.natAbs
  let bits := numBits (a + 1) a
  if bits ≤ 24 then reduzir (bits + 1) m e
  else
    let s := bits - 24
    let q := a / 2 ^ s
    let r := a % 2 ^ s
    let meio := 2 ^ (s - 1)
    let q1 := if r > meio ∨ (r = meio ∧ q % 2 = 1) then q + 1 else q
    reduzir 26 (if m < 0 then -(q1 : Int) else (q1 : Int)) (e + s)

/-- The value `0.0f`. -/
def zero : CFloat := ⟨0, 0⟩

/-- Conversion `(float) n` of an `int`. -/
def ofInt (n : Int) : CFloat := arredondar n 0

/-- Single precision addition. -/
def add (a b : CFloat) : CFloat :=
  let e := min a.expo b.expo
  arredondar (a.mant * 2 ^ (a.expo - e).toNat + b.mant * 2 ^ (b.expo - e).toNat) e

/-- Single precision multiplication. -/
def mul (a b : CFloat) : CFloat :=
  arredondar (a.mant * b.mant) (a.expo + b.expo)

/-- The comparison `a < 0`. -/
def negativo (a : CFloat) : Bool := decide (a.mant < 0)

/-- The value `num / den` when it is a binary fraction with at most 24
significant bits, as `scanf` reads it; used for concrete inputs only. -/
def decimal (num den : Nat) : CFloat :=
  arredondar ((num : Int) * 2 ^ 40 / (den : Int)) (-40)

end CFloat

/-! ## Enumerations (`ordem.h`, `ativos.h`, `tecnicos.h`) -/

/-- Enumerator of `EstadoOrdem`. -/
abbrev PENDENTE : Int := 0
/-- Enumerator of `EstadoOrdem`. -/
abbrev EXECUCAO : Int := 1
/-- Enumerator of `EstadoOrdem`. -/
abbrev CONCLUIDA : Int := 2
/-- Enumerator of `EstadoOrdem`. -/
abbrev CANCELADA : Int := 3

/-- Enumerator of `Prioridade`. -/
abbrev BAIXA : Int := 1
/-- Enumerator of `Prioridade`. -/
abbrev MEDIA : Int := 2
/-- Enumerator of `Prioridade`. -/
abbrev ALTA : Int := 3

/-- Enumerator of `TipoManutencao`. -/
abbrev PREVENTIVA : Int := 1
/-- Enumerator of `TipoManutencao`. -/
abbrev CORRETIVA : Int := 2

/-- Enumerator of `EstadoAtivo`. -/
abbrev OPERACIONAL : Int := 0
/-- Enumerator of `EstadoAtivo`. -/
abbrev EM_MANUTENCAO : Int := 1
/-- Enumerator of `EstadoAtivo`. -/
abbrev ABATIDO : Int := 2
/-- Enumerator of `EstadoAtivo`. -/
abbrev INATIVO2 : Int := 3

/-- Enumerator of `EstadoTecnico`. -/
abbrev ATIVO1 : Int := 0
/-- Enumerator of `EstadoTecnico`. -/
abbrev OCUPADO : Int := 1
/-- Enumerator of `EstadoTecnico`. -/
abbrev INATIVO1 : Int := 2

/-! ## Records and stores -/

/-- The record `Ordem` of `ordem.h`. -/
structure Ordem where
  idOrdem : Int
  idAtivo : Int
  idDepartamento : Int
  idTecnico : Int
  estado : Int
  prioridade : Int
  tipo_manutencao : Int
  diaInicio : Int
  mesInicio : Int
  anoInicio : Int
  horaInicio : Int
  minInicio : Int
  segInicio : Int
  diaFim : Int
  mesFim : Int
  anoFim : Int
  horaFim : Int
  minFim : Int
  segFim : Int
deriving DecidableEq

/-- The store `Ordens`: `ordem` holds the first `contador` records. -/
structure Ordens where
  ordem : List Ordem
  ordensAtivas : Int
  capacidade : Int
deriving DecidableEq

/-- The field `contador` of `Ordens`. -/
def Ordens.contador (ordens : Ordens) : Int := ordens.ordem.length

/-- The record `Ativo` of `ativos.h`. -/
structure Ativo where
  id : Int
  designacao : Option String
  categoria : Int
  localizacao : Option String
  diaAquisicao : Int
  mesAquisicao : Int
  anoAquisicao : Int
  diaAbate : Int
  mesAbate : Int
  anoAbate : Int
  estado : Int
  contagemManutencoesCorretivas : Int
  custoTotalAcumulado : CFloat
  custo : CFloat
  idDepartamentoAssociado : Int
deriving DecidableEq

/-- The store `Ativos`. -/
structure Ativos where
  ativo : List Ativo
  ativosDisponiveis : Int
  capacidade : Int
deriving DecidableEq

/-- The field `contador` of `Ativos`. -/
def Ativos.contador (ativos : Ativos) : Int := ativos.ativo.length

/-- The record `Tecnico` of `tecnicos.h`. -/
structure Tecnico where
  idTecnico : Int
  nome : Option String
  especialidade : Int
  estado_tecnico : Int
  idManutencaoAssociado : Int
deriving DecidableEq

/-- The store `Tecnicos`. -/
structure Tecnicos where
  tecnico : List Tecnico
  tecnicosAtivos : Int
  capacidade : Int
deriving DecidableEq

/-- The record `Material` of `materiais.h` (`custoUnitario` is the field
written with an accent in the header). -/
structure Material where
  nomeMaterial : Option String
  quantidade : Int
  custoUnitario : CFloat
  OrdemAssociada : Int
deriving DecidableEq

/-- The store `Materiais`. -/
structure Materiais where
  material : List Material
  capacidade : Int
deriving DecidableEq

/-- The field `contador` of `Materiais`. -/
def Materiais.contador (materiais : Materiais) : Int := materiais.material.length

/-! ## Environment: standard input, heap, clock -/

/-- One line of standard input, described by what each reader extracts from it:
`comoInt` is the result of `scanf("%d")`, `comoFloat` of `scanf("%f")`, and
`texto` the characters before the newline. -/
structure Linha where
  comoInt : Option Int
  comoFloat : Option CFloat
  texto : String
deriving DecidableEq

/-- A line holding the integer `v`. -/
def Linha.inteiro (v : Int) : Linha := ⟨some v, some (CFloat.ofInt v), toString v⟩

/-- A line holding a real number that `%d` does not read. -/
def Linha.real (x : CFloat) (texto : String) : Linha := ⟨none, some x, texto⟩

/-- A line of text that is not a number. -/
def Linha.palavras (texto : String) : Linha := ⟨none, none, texto⟩

/-- What the program still receives from outside: the remaining input lines
and the results of the coming `realloc` calls (an exhausted list means that
the allocation succeeds). -/
structure Mundo where
  entrada : List Linha
  heap : List Bool
deriving DecidableEq

/-- The fields of `struct tm` that the program reads. -/
structure Tm where
  tm_mday : Int
  tm_mon : Int
  tm_year : Int
  tm_hour : Int
  tm_min : Int
  tm_sec : Int
deriving DecidableEq


/-- The captured clock value: the six fields stored from `localtime`, with
the fallback `1/1/1970 00:00:00` that the program uses when `localtime`
returns `NULL`. -/
structure Carimbo where
  dia : Int
  mes : Int
  ano : Int
  hora : Int
  min : Int
  seg : Int
deriving DecidableEq

/-- The values written to the timestamp fields from `tmLocal`. -/
def carimbo (tmLocal : Option Tm) : Carimbo :=
  match tmLocal with
  | some t => ⟨t.tm_mday, t.tm_mon + 1, t.tm_year + 1900, t.tm_hour, t.tm_min, t.tm_sec⟩
  | none => ⟨1, 1, 1970, 0, 0, 0⟩

/-! ## `input.c` -/

/-- `obterIntIntervalado`: lines are discarded until one holds an integer in
`[minValor, maxValor]`. -/
def obterIntIntervalado (minValor maxValor : Int) : List Linha → Option (Int × List Linha)
  | [] => none
  | l :: resto =>
    match l.comoInt with
    | some valor =>
      if valor < minValor ∨ valor > maxValor then obterIntIntervalado minValor maxValor resto
      else some (valor, resto)
    | none => obterIntIntervalado minValor maxValor resto

/-- `obterIntPositivo`: lines are discarded until one holds an integer `≥ 0`. -/
def obterIntPositivo : List Linha → Option (Int × List Linha)
  | [] => none
  | l :: resto =>
    match l.comoInt with
    | some valor => if valor < 0 then obterIntPositivo resto else some (valor, resto)
    | none => obterIntPositivo resto

/-- `obterFloatPositivo`: lines are discarded until one holds a real `≥ 0`. -/
def obterFloatPositivo : List Linha → Option (CFloat × List Linha)
  | [] => none
  | l :: resto =>
    match l.comoFloat with
    | some valor => if valor.negativo then obterFloatPositivo resto else some (valor, resto)
    | none => obterFloatPositivo resto

/-- `lerStringDinamica`: the characters up to the next newline; at end of
file the empty string.  Its own allocations are taken to succeed. -/
def lerStringDinamica : List Linha → Option String × List Linha
  | [] => (some "", [])
  | l :: resto => (some l.texto, resto)

/-- `pausar_ecra`: reads up to and including the next newline; never returns
at end of file. -/
def pausar_ecra : List Linha → Option (List Linha)
  | [] => none
  | _ :: resto => some resto

/-! ## Store growth -/

/-- The loop `while (novaCap < minCap) novaCap += CRESCIMENTO_5`. -/
def crescer : Nat → Int → Int → Int
  | 0, novaCap, _ => novaCap
  | fuel + 1, novaCap, minCap =>
    if novaCap < minCap then crescer fuel (novaCap + 5) minCap else novaCap

/-- The capacity computed by the `garantir_capacidade_*` functions. -/
def novaCapacidade (capacidade minCap : Int) : Int :=
  let novaCap := if capacidade ≤ 0 then 0 else capacidade
  crescer (minCap - novaCap).toNat novaCap minCap

/-- `garantir_capacidade_ordens` of ordem.c: result flag, store, remaining heap results. -/
def garantir_capacidade_ordens (ordens : Ordens) (minCap : Int) (heap : List Bool) :
    Bool × Ordens × List Bool :=
  if ordens.capacidade ≥ minCap then (true, ordens, heap)
  else
    match heap with
    | false :: heap1 => (false, ordens, heap1)
    | true :: heap1 =>
      (true, { ordens with capacidade := novaCapacidade ordens.capacidade minCap }, heap1)
    | [] => (true, { ordens with capacidade := novaCapacidade ordens.capacidade minCap }, [])

/-- `garantirCapacidadeMateriais` of materiais.c. -/
def garantirCapacidadeMateriais (materiais : Materiais) (minCap : Int) (heap : List Bool) :
    Bool × Materiais × List Bool :=
  if materiais.capacidade ≥ minCap then (true, materiais, heap)
  else
    match heap with
    | false :: heap1 => (false, materiais, heap1)
    | true :: heap1 =>
      (true, { materiais with capacidade := novaCapacidade materiais.capacidade minCap }, heap1)
    | [] => (true, { materiais with capacidade := novaCapacidade materiais.capacidade minCap }, [])

/-! ## Lookups and counters -/

/-- `obterMaiorIDOrdens` of ordem.c. -/
def obterMaiorIDOrdens (ordens : Ordens) : Int :=
  ordens.ordem.foldl (fun maxID o => if o.idOrdem > maxID then o.idOrdem else maxID) 0

/-- `obterMaiorIDTecnicos` of tecnicos.c. -/
def obterMaiorIDTecnicos (tecnicos : Tecnicos) : Int :=
  tecnicos.tecnico.foldl (fun maxID t => if t.idTecnico > maxID then t.idTecnico else maxID) 0

/-- `gerarProximoID` of ordem.c. -/
def gerarProximoID (ordens : Ordens) : Int :=
  if ordens.contador = 0 then 10
  else ordens.ordem.foldl (fun maxID o => if o.idOrdem > maxID then o.idOrdem else maxID) 0 + 1

/-- `numeroManutencoesTecnico` of ordem.c. -/
def numeroManutencoesTecnico (tecnico : Tecnico) (ordens : Ordens) : Int :=
  ordens.ordem.foldl
    (fun numero o =>
      if o.estado = EXECUCAO then
        if o.idTecnico = tecnico.idTecnico then numero + 1 else numero
      else numero) 0

/-- `mostrarTaxaOcupacaoTecnico` of ordem.c; `Int.tdiv` is the C division. -/
def mostrarTaxaOcupacaoTecnico (tecnico : Tecnico) (ordens : Ordens) : Int :=
  let limite_maximo : Int := 5
  let ordens_ativas := numeroManutencoesTecnico tecnico ordens
  (ordens_ativas.tdiv limite_maximo) * 100

/-- `calcularCustos` of ordem.c; `none` stands for a `NULL` argument. -/
def calcularCustos (ordem : Option Ordem) (materiais : Option Materiais) : CFloat :=
  match ordem, materiais with
  | some o, some ms =>
    if ms.contador = 0 then CFloat.zero
    else
      ms.material.foldl
        (fun total m =>
          if m.OrdemAssociada = o.idOrdem then
            CFloat.add total (CFloat.mul m.custoUnitario (CFloat.ofInt m.quantidade))
          else total) CFloat.zero
  | _, _ => CFloat.zero

/-- The scan of `procurar_ordens_id`, `i` being the loop index. -/
def procurar_ordens_id_desde (idProcurado : Int) : List Ordem → Int → Int
  | [], _ => -1
  | o :: resto, i =>
    if o.idOrdem = idProcurado ∧ (o.estado = PENDENTE ∨ o.estado = EXECUCAO) then i
    else procurar_ordens_id_desde idProcurado resto (i + 1)

/-- `procurar_ordens_id` of ordem.c. -/
def procurar_ordens_id (ordens : Ordens) (idProcurado : Int) : Int :=
  procurar_ordens_id_desde idProcurado ordens.ordem 0

/-- The scan of `procurar_ativo_id`, `i` being the loop index. -/
def procurar_ativo_id_desde (idProcurado : Int) : List Ativo → Int → Int
  | [], _ => -1
  | a :: resto, i =>
    if a.id = idProcurado ∧ a.estado ≠ ABATIDO then i
    else procurar_ativo_id_desde idProcurado resto (i + 1)

/-- `procurar_ativo_id` of ativos.c. -/
def procurar_ativo_id (ativos : Ativos) (idProcurado : Int) : Int :=
  procurar_ativo_id_desde idProcurado ativos.ativo 0

/-- The scan of `procurar_tecnico_id`, `i` being the loop index. -/
def procurar_tecnico_id_desde (idProcurado : Int) : List Tecnico → Int → Int
  | [], _ => -1
  | t :: resto, i =>
    if t.idTecnico = idProcurado then i
    else procurar_tecnico_id_desde idProcurado resto (i + 1)

/-- `procurar_tecnico_id` of tecnicos.c. -/
def procurar_tecnico_id (tecnicos : Tecnicos) (idProcurado : Int) : Int :=
  procurar_tecnico_id_desde idProcurado tecnicos.tecnico 0

/-- The assignment `v[i] = f(v[i])` on an array; an index outside the list
leaves it as it is. -/
def alterar {α : Type} (v : List α) (i : Int) (f : α → α) : List α :=
  match v[i.toNat]? with
  | some x => v.set i.toNat (f x)
  | none => v

/-! ## `materiais.c` -/

/-- `adicionar_materiais` of materiais.c. -/
def adicionar_materiais (materiais : Materiais) (idx : Int) (w : Mundo) :
    Option (Materiais × Mundo) :=
  match garantirCapacidadeMateriais materiais (materiais.contador + 1) w.heap with
  | (false, _, heap1) =>
    match pausar_ecra w.entrada with
    | none => none
    | some e1 => some (materiais, ⟨e1, heap1⟩)
  | (true, materiais1, heap1) =>
    match lerStringDinamica w.entrada with
    | (nome, e1) =>
      match obterFloatPositivo e1 with
      | none => none
      | some (custo, e2) =>
        match obterIntPositivo e2 with
        | none => none
        | some (quantidade, e3) =>
          some ({ materiais1 with
                  material := materiais1.material ++ [⟨nome, quantidade, custo, idx⟩] },
                ⟨e3, heap1⟩)

/-! ## `criar_ordem` -/

/-- The `do ... while (idEncontrado == -1)` loop of `criar_ordem`: the index of
the accepted asset and the remaining input.  `fuel` bounds the number of
prompts; every prompt consumes a line, so the number of lines is enough. -/
def criar_ordem_laco (ativos : Ativos) : Nat → List Linha → Option (Int × List Linha)
  | 0, _ => none
  | fuel + 1, entrada =>
    match obterIntIntervalado 0 999999 entrada with
    | none => none
    | some (idProcurado, resto) =>
      let idEncontrado := procurar_ativo_id ativos idProcurado
      if idEncontrado = -1 then criar_ordem_laco ativos fuel resto
      else
        match ativos.ativo[idEncontrado.toNat]? with
        | none => none
        | some a =>
          if a.estado ≠ OPERACIONAL then criar_ordem_laco ativos fuel resto
          else some (idEncontrado, resto)

/-- `criar_ordem` of ordem.c.  `residuo` is the content of the array slot
`ordem[contador]` before the function writes to it: the function assigns only
seven of its fields, and `realloc` does not initialise the memory it returns. -/
def criar_ordem (residuo : Ordem) (ativos : Ativos) (ordens : Ordens) (w : Mundo) :
    Option (Ativos × Ordens × Mundo) :=
  match garantir_capacidade_ordens ordens (ordens.contador + 1) w.heap with
  | (false, _, heap1) =>
    match pausar_ecra w.entrada with
    | none => none
    | some e1 => some (ativos, ordens, ⟨e1, heap1⟩)
  | (true, ordens1, heap1) =>
    if ativos.ativosDisponiveis = 0 then
      match pausar_ecra w.entrada with
      | none => none
      | some e1 => some (ativos, ordens1, ⟨e1, heap1⟩)
    else
      match criar_ordem_laco ativos w.entrada.length w.entrada with
      | none => none
      | some (idEncontrado, e1) =>
        match ativos.ativo[idEncontrado.toNat]? with
        | none => none
        | some a =>
          match obterIntIntervalado 1 3 e1 with
          | none => none
          | some (prioridade, e2) =>
            match obterIntIntervalado 1 2 e2 with
            | none => none
            | some (tipo, e3) =>
              let nova : Ordem :=
                { residuo with
                  idOrdem := gerarProximoID ordens1
                  idAtivo := a.id
                  idDepartamento := a.idDepartamentoAssociado
                  estado := PENDENTE
                  prioridade := prioridade
                  tipo_manutencao := tipo }
              let ativos1 : Ativos :=
                { ativos with
                  ativo := alterar ativos.ativo idEncontrado
                    (fun x => { x with estado := EM_MANUTENCAO })
                  ativosDisponiveis := ativos.ativosDisponiveis - 1 }
              let ordens2 : Ordens :=
                { ordens1 with
                  ordem := ordens1.ordem ++ [nova]
                  ordensAtivas := ordens1.ordensAtivas + 1 }
              match pausar_ecra e3 with
              | none => none
              | some e4 => some (ativos1, ordens2, ⟨e4, heap1⟩)

/-! ## `gerir_ordem` -/

/-- The four stores that `gerir_ordem` receives by pointer. -/
structure Sistema where
  ordens : Ordens
  tecnicos : Tecnicos
  ativos : Ativos
  materiais : Materiais
deriving DecidableEq

/-- The assignments to the six `...Inicio` fields. -/
def Ordem.comInicio (o : Ordem) (c : Carimbo) : Ordem :=
  { o with diaInicio := c.dia, mesInicio := c.mes, anoInicio := c.ano,
           horaInicio := c.hora, minInicio := c.min, segInicio := c.seg }

/-- The assignments to the six `...Fim` fields. -/
def Ordem.comFim (o : Ordem) (c : Carimbo) : Ordem :=
  { o with diaFim := c.dia, mesFim := c.mes, anoFim := c.ano,
           horaFim := c.hora, minFim := c.min, segFim := c.seg }

/-- The first `do ... while (1)` loop of the `PENDENTE` case: every entered
identifier is written to `ordem[idEncontrado].idTecnico` and then checked. -/
def gerir_ordem_laco_tecnico (tecnicos : Tecnicos) (maxIdTecnicos idEncontrado : Int) :
    Nat → Ordens → List Linha → Option (Ordens × List Linha)
  | 0, _, _ => none
  | fuel + 1, ordens, entrada =>
    match obterIntIntervalado 0 maxIdTecnicos entrada with
    | none => none
    | some (valor, resto) =>
      let ordens1 : Ordens :=
        { ordens with
          ordem := alterar ordens.ordem idEncontrado (fun o => { o with idTecnico := valor }) }
      let idxTec := procurar_tecnico_id tecnicos valor
      if idxTec = -1 then
        gerir_ordem_laco_tecnico tecnicos maxIdTecnicos idEncontrado fuel ordens1 resto
      else
        match tecnicos.tecnico[idxTec.toNat]? with
        | none => none
        | some t =>
          if t.estado_tecnico = INATIVO1 then
            gerir_ordem_laco_tecnico tecnicos maxIdTecnicos idEncontrado fuel ordens1 resto
          else if numeroManutencoesTecnico t ordens1 ≥ 5 then
            gerir_ordem_laco_tecnico tecnicos maxIdTecnicos idEncontrado fuel ordens1 resto
          else some (ordens1, resto)

/-- The second loop of the `PENDENTE` case:
`do { adicionar_materiais(...); sair = obterIntIntervalado(1, 2, ...); } while (sair == 2)`. -/
def gerir_ordem_laco_materiais (idOrdem : Int) :
    Nat → Materiais → Mundo → Option (Materiais × Mundo)
  | 0, _, _ => none
  | fuel + 1, materiais, w =>
    match adicionar_materiais materiais idOrdem w with
    | none => none
    | some (materiais1, w1) =>
      match obterIntIntervalado 1 2 w1.entrada with
      | none => none
      | some (sair, resto) =>
        if sair = 2 then gerir_ordem_laco_materiais idOrdem fuel materiais1 ⟨resto, w1.heap⟩
        else some (materiais1, ⟨resto, w1.heap⟩)

/-- `gerir_ordem` of ordem.c.  `tmLocal` is the result of
`localtime(&agora)` in this call. -/
def gerir_ordem (tmLocal : Option Tm) (s : Sistema) (w : Mundo) : Option (Sistema × Mundo) :=
  let maxIdOrdens := obterMaiorIDOrdens s.ordens
  match obterIntIntervalado 0 maxIdOrdens w.entrada with
  | none => none
  | some (idProcurado, e1) =>
    let idEncontrado := procurar_ordens_id s.ordens idProcurado
    if idEncontrado = -1 then
      match pausar_ecra e1 with
      | none => none
      | some e2 => some (s, ⟨e2, w.heap⟩)
    else
      let maxIdTecnicos := obterMaiorIDTecnicos s.tecnicos
      match s.ordens.ordem[idEncontrado.toNat]? with
      | none => none
      | some atual =>
        if atual.estado = PENDENTE then
          match gerir_ordem_laco_tecnico s.tecnicos maxIdTecnicos idEncontrado
              e1.length s.ordens e1 with
          | none => none
          | some (ordens1, e2) =>
            match gerir_ordem_laco_materiais atual.idOrdem e2.length s.materiais
                ⟨e2, w.heap⟩ with
            | none => none
            | some (materiais1, w3) =>
              let ordens2 : Ordens :=
                { ordens1 with
                  ordem := alterar ordens1.ordem idEncontrado
                    (fun o => ({ o with estado := EXECUCAO }).comInicio (carimbo tmLocal)) }
              match pausar_ecra w3.entrada with
              | none => none
              | some e4 =>
                some ({ s with ordens := ordens2, materiais := materiais1 }, ⟨e4, w3.heap⟩)
        else if atual.estado = EXECUCAO then
          match obterIntIntervalado 1 2 e1 with
          | none => none
          | some (escolha, e2) =>
            if escolha = 1 then
              let ordens1 : Ordens :=
                { s.ordens with
                  ordem := alterar s.ordens.ordem idEncontrado
                    (fun o => ({ o with estado := CANCELADA }).comFim (carimbo tmLocal)) }
              let idxAtivo := procurar_ativo_id s.ativos atual.idAtivo
              let ativos1 : Ativos :=
                if idxAtivo ≠ -1 then
                  { s.ativos with
                    ativo := alterar s.ativos.ativo idxAtivo
                      (fun a => { a with estado := OPERACIONAL })
                    ativosDisponiveis := s.ativos.ativosDisponiveis + 1 }
                else s.ativos
              match pausar_ecra e2 with
              | none => none
              | some e3 => some ({ s with ordens := ordens1, ativos := ativos1 }, ⟨e3, w.heap⟩)
            else if escolha = 2 then
              let ordens1 : Ordens :=
                { s.ordens with
                  ordem := alterar s.ordens.ordem idEncontrado
                    (fun o => ({ o with estado := CONCLUIDA }).comFim (carimbo tmLocal)) }
              let idxTec := procurar_tecnico_id s.tecnicos atual.idTecnico
              let tecnicos1 : Tecnicos :=
                if idxTec ≠ -1 then
                  { s.tecnicos with
                    tecnico := alterar s.tecnicos.tecnico idxTec
                      (fun t => { t with estado_tecnico := ATIVO1 }) }
                else s.tecnicos
              let idxAtivo := procurar_ativo_id s.ativos atual.idAtivo
              let ativos1 : Ativos :=
                if idxAtivo ≠ -1 then
                  { s.ativos with
                    ativo := alterar s.ativos.ativo idxAtivo
                      (fun a => { a with estado := OPERACIONAL })
                    ativosDisponiveis := s.ativos.ativosDisponiveis + 1 }
                else s.ativos
              match pausar_ecra e2 with
              | none => none
              | some e3 =>
                some ({ s with ordens := ordens1, tecnicos := tecnicos1, ativos := ativos1 },
                      ⟨e3, w.heap⟩)
            else
              match pausar_ecra e2 with
              | none => none
              | some e3 => some (s, ⟨e3, w.heap⟩)
        else
          match pausar_ecra e1 with
          | none => none
          | some e2 => some (s, ⟨e2, w.heap⟩)

/-! ## Identifier generation in `ativos.c` and `tecnicos.c` -/

/-- The field `contador` of `Tecnicos`. -/
def Tecnicos.contador (tecnicos : Tecnicos) : Int := tecnicos.tecnico.length

/-- `gerarProximoID` of ativos.c (the function is `static` in each file; the
one of ordem.c is `gerarProximoID`). -/
def Ativos.gerarProximoID (ativos : Ativos) : Int :=
  if ativos.contador = 0 then 10
  else ativos.ativo.foldl (fun maxID a => if a.id > maxID then a.id else maxID) 0 + 1

/-- `gerarProximoID` of tecnicos.c. -/
def Tecnicos.gerarProximoID (tecnicos : Tecnicos) : Int :=
  if tecnicos.contador = 0 then 10
  else
    tecnicos.tecnico.foldl (fun maxID t => if t.idTecnico > maxID then t.idTecnico else maxID) 0
      + 1

/-! ## `departamentos.h` -/

/-- Enumerator of `Atividade`. -/
abbrev ATIVO : Int := 1
/-- Enumerator of `Atividade`. -/
abbrev INATIVO : Int := 2

/-- The record `Departamento` of `departamentos.h`. -/
structure Departamento where
  idDepartamento : Int
  nomeDepartamento : Option String
  responsavel : Option String
  contacto : Option String
  atividade : Int
deriving DecidableEq

/-- The store `Departamentos`. -/
structure Departamentos where
  departamento : List Departamento
  departamentosAtivos : Int
  capacidade : Int
deriving DecidableEq

/-- The field `contador` of `Departamentos`. -/
def Departamentos.contador (departamentos : Departamentos) : Int :=
  departamentos.departamento.length

/-! ## `relatorios.c` -/

/-- The loop over the departments in `departamentosMaisUrgentes`: `i` is the
loop index, the result is the final `indice_maior`. -/
def departamentosMaisUrgentes_laco (ordens : Ordens) :
    List Departamento → Int → Int → Int → Int
  | [], _, indice_maior, _ => indice_maior
  | d :: resto, i, indice_maior, total =>
    let soma := ordens.ordem.foldl
      (fun soma o =>
        if d.idDepartamento = o.idDepartamento then
          if o.prioridade = BAIXA then soma + 1
          else if o.prioridade = MEDIA then soma + 3
          else if o.prioridade = ALTA then soma + 5
          else soma
        else soma) 0
    if soma > total then departamentosMaisUrgentes_laco ordens resto (i + 1) i soma
    else departamentosMaisUrgentes_laco ordens resto (i + 1) indice_maior total

/-- `departamentosMaisUrgentes` of relatorios.c.  The inner option is the
returned `char *`; the outer `none` stands for a read outside the department
array (an empty department store). -/
def departamentosMaisUrgentes (departamentos : Departamentos) (ordens : Ordens) :
    Option (Option String) :=
  if ordens.contador = 0 then some (some "n/a")
  else
    let indice_maior := departamentosMaisUrgentes_laco ordens departamentos.departamento 0 0 0
    match departamentos.departamento[indice_maior.toNat]? with
    | some d => some d.nomeDepartamento
    | none => none

/-- `relatorioAtivosInstaveis` of relatorios.c: the lines printed for the
flagged assets, each with the designation shown, the identifier and the
number of orders. -/
def relatorioAtivosInstaveis (ativos : Ativos) (ordens : Ordens) : List (String × Int × Int) :=
  if ativos.contador = 0 then []
  else if ordens.contador = 0 then []
  else
    ativos.ativo.foldl
      (fun saida a =>
        let contagem := ordens.ordem.foldl
          (fun contagem o => if o.idAtivo = a.id then contagem + 1 else contagem) (0 : Int)
        if contagem ≥ 5 then
          saida ++ [(match a.designacao with
                     | some s => s
                     | none => "(sem designação)", a.id, contagem)]
        else saida) []

/-- The search loop over `locais` in `relatorioProblemasPorLocal`, `k` being the
loop index: the index of the bucket whose string equals `local`, or `-1`. -/
def relatorioProblemasPorLocal_procurar (local_ : String) : List (String × Int) → Int → Int
  | [], _ => -1
  | b :: resto, k =>
    if b.1 = local_ then k else relatorioProblemasPorLocal_procurar local_ resto (k + 1)

/-- The body of the loop over the assets in `relatorioProblemasPorLocal`; the
arrays `locais` and `contagens` are kept as one list of pairs. -/
def relatorioProblemasPorLocal_corpo (ordens : Ordens) (baldes : List (String × Int))
    (a : Ativo) : List (String × Int) :=
  let contagemAtivo := ordens.ordem.foldl
    (fun contagem o => if o.idAtivo = a.id then contagem + 1 else contagem) (0 : Int)
  if contagemAtivo = 0 then baldes
  else
    let local_ : String :=
      match a.localizacao with
      | none => "(sem local)"
      | some s => if s = "" then "(sem local)" else s
    let indice := relatorioProblemasPorLocal_procurar local_ baldes 0
    if indice = -1 then baldes ++ [(local_, contagemAtivo)]
    else alterar baldes indice (fun b => (b.1, b.2 + contagemAtivo))

/-- `relatorioProblemasPorLocal` of relatorios.c: the buckets printed, in order. -/
def relatorioProblemasPorLocal (ativos : Ativos) (ordens : Ordens) : List (String × Int) :=
  if ativos.contador = 0 then []
  else if ordens.contador = 0 then []
  else ativos.ativo.foldl (relatorioProblemasPorLocal_corpo ordens) []

/-- `passar_int_string_estado_tecnicos` of ordem.c. -/
def passar_int_string_estado_tecnicos (est : Int) : String :=
  if est = PENDENTE then "Pendente"
  else if est = EXECUCAO then "Em execução"
  else if est = CONCLUIDA then "Concluída"
  else if est = CANCELADA then "Cancelada"
  else "Desconhecido"

/-- The local type `AuxRanking` of `mostrarRankingDesempenho`. -/
structure AuxRanking where
  id : Int
  nome : String
  totalConcluidas : Int
deriving DecidableEq

/-- The first loop of `mostrarRankingDesempenho`: one entry per technician.
`none` stands for undefined behaviour of `strcpy`: a `NULL` name, or a name
that does not fit in `char nome[50]`. -/
def mostrarRankingDesempenho_preencher (ordens : Ordens) :
    List Tecnico → Option (List AuxRanking)
  | [] => some []
  | t :: resto =>
    match t.nome with
    | none => none
    | some nome =>
      if nome.length ≥ 50 then none
      else
        let concluidas := ordens.ordem.foldl
          (fun concluidas o =>
            if o.idTecnico = t.idTecnico ∧
                passar_int_string_estado_tecnicos o.estado = "Concluída" then concluidas + 1
            else concluidas) (0 : Int)
        match mostrarRankingDesempenho_preencher ordens resto with
        | none => none
        | some ranking => some (⟨t.idTecnico, nome, concluidas⟩ :: ranking)

/-- The body of the inner sorting loop: `ranking[j]` and `ranking[j + 1]` are
exchanged when the first has fewer concluded orders.  `none` stands for an
access outside the array, which has `tecnicos.contador` entries. -/
def mostrarRankingDesempenho_trocar (ranking : List AuxRanking) (j : Nat) :
    Option (List AuxRanking) :=
  match ranking[j]?, ranking[j + 1]? with
  | some a, some b =>
    if a.totalConcluidas < b.totalConcluidas then some ((ranking.set j b).set (j + 1) a)
    else some ranking
  | _, _ => none

/-- The two sorting loops of `mostrarRankingDesempenho`,
`for (i = 0; i < n - 1; i++) for (j = 0; j < n - i - 1; j++)`, where the source
takes `n` to be `ordens.contador`. -/
def mostrarRankingDesempenho_ordenar (n : Nat) (ranking : List AuxRanking) :
    Option (List AuxRanking) :=
  (List.range (n - 1)).foldlM
    (fun ranking i =>
      (List.range (n - i - 1)).foldlM mostrarRankingDesempenho_trocar ranking) ranking

/-- `mostrarRankingDesempenho` of relatorios.c: the entries printed, rank 1 first. -/
def mostrarRankingDesempenho (tecnicos : Tecnicos) (ordens : Ordens) :
    Option (List AuxRanking) :=
  match mostrarRankingDesempenho_preencher ordens tecnicos.tecnico with
  | none => none
  | some ranking => mostrarRankingDesempenho_ordenar ordens.ordem.length ranking

/-! ## Resolution time (`relatorios.c`) -/

/-- Single precision division `a / b` for `b` other than zero: the quotient of
the significands is taken with at least 27 bits and a sticky bit, then rounded.
A zero divisor gives an infinity or a NaN in C, which are outside the model;
the program divides by a positive count only. -/
def CFloat.div (a b : CFloat) : CFloat :=
  let bn := b.mant.natAbs
  if bn = 0 then CFloat.zero
  else
    let k := CFloat.numBits (bn + 1) bn + 26
    let n := a.mant.natAbs * 2 ^ k
    let q := 2 * (n / bn) + (if n % bn = 0 then 0 else 1)
    let negativo := decide (a.mant < 0) != decide (b.mant < 0)
    CFloat.arredondar (if negativo then -(q : Int) else (q : Int)) (a.expo - b.expo - k - 1)

/-- The `struct tm inicio` that `tempoMedioResolucaoOrdens` builds from an order. -/
def Ordem.tmInicio (o : Ordem) : Tm :=
  ⟨o.diaInicio, o.mesInicio - 1, o.anoInicio - 1900, o.horaInicio, o.minInicio, o.segInicio⟩

/-- The `struct tm fim` that `tempoMedioResolucaoOrdens` builds from an order. -/
def Ordem.tmFim (o : Ordem) : Tm :=
  ⟨o.diaFim, o.mesFim - 1, o.anoFim - 1900, o.horaFim, o.minFim, o.segFim⟩

/-- The loop of `tempoMedioResolucaoOrdens` over the remaining records, with the
accumulators `soma` and `total`.  `mktime` is the C library function, as a map
from the six fields (the others are zero) to seconds; `difftime` is the
difference of its two arguments. -/
def tempoMedioResolucaoOrdens_laco (mktime : Tm → Int) :
    List Ordem → CFloat → Int → CFloat × Int
  | [], soma, total => (soma, total)
  | o :: resto, soma, total =>
    if o.estado = CONCLUIDA then
      if o.anoInicio = 0 ∨ o.anoFim = 0 then
        tempoMedioResolucaoOrdens_laco mktime resto soma total
      else
        let tInicio := mktime o.tmInicio
        let tFim := mktime o.tmFim
        if tInicio = -1 ∨ tFim = -1 then
          tempoMedioResolucaoOrdens_laco mktime resto soma total
        else
          let diferenca := CFloat.ofInt (tFim - tInicio)
          if diferenca.negativo then
            tempoMedioResolucaoOrdens_laco mktime resto soma total
          else
            tempoMedioResolucaoOrdens_laco mktime resto (soma.add diferenca) (total + 1)
    else tempoMedioResolucaoOrdens_laco mktime resto soma total

/-- `tempoMedioResolucaoOrdens` of relatorios.c (`none` is the `NULL` pointer). -/
def tempoMedioResolucaoOrdens (mktime : Tm → Int) (ordens : Option Ordens) : CFloat :=
  match ordens with
  | none => CFloat.zero
  | some ordens =>
    if ordens.contador = 0 then CFloat.zero
    else
      let r := tempoMedioResolucaoOrdens_laco mktime ordens.ordem CFloat.zero 0
      if r.2 = 0 then CFloat.zero
      else r.1.div (CFloat.ofInt r.2)

/-- Days from 1970-01-01 to the given day of the proleptic Gregorian calendar
(`mes` in `1 .. 12`; `dia` may lie outside the month). -/
def diasDesdeEpoca (ano mes dia : Int) : Int :=
  let y := if mes ≤ 2 then ano - 1 else ano
  let era := y / 400
  let yoe := y - era * 400
  let doy := (153 * (if mes > 2 then mes - 3 else mes + 9) + 2) / 5 + dia - 1
  let doe := yoe * 365 + yoe / 4 - yoe / 100 + doy
  era * 146097 + doe - 719468

/-- The C library function `mktime` when the time zone is UTC and `time_t` has
64 bits: months outside `0 .. 11` carry into the year, the other fields count
linearly.  It is the instance of `mktime` used in the concrete runs. -/
def mktimeUTC (t : Tm) : Int :=
  diasDesdeEpoca (t.tm_year + 1900 + t.tm_mon / 12) (t.tm_mon % 12 + 1) t.tm_mday * 86400
    + t.tm_hour * 3600 + t.tm_min * 60 + t.tm_sec

/-! ## Binary files (`fwrite`, `fread`, `input.c`) -/

/-- `fwrite(&x, sizeof(int), 1, fp)`: the four bytes of an `int`, two's
complement, least significant byte first.  Enumerations have the size of `int`. -/
def escreverInt (x : Int) : List Nat :=
  let u := (x % 4294967296).toNat
  [u % 256, u / 256 % 256, u / 65536 % 256, u / 16777216 % 256]

/-- The next four bytes of a stream as an unsigned number, and the rest of the
stream.  With fewer than four bytes left nothing is read and the stream is at
its end. -/
def lerBits : List Nat → Option Nat × List Nat
  | b0 :: b1 :: b2 :: b3 :: resto => (some (b0 + 256 * b1 + 65536 * b2 + 16777216 * b3), resto)
  | _ => (none, [])

/-- The `int` with the given 32 bit pattern. -/
def intDeBits (u : Nat) : Int :=
  if u < 2147483648 then (u : Int) else (u : Int) - 4294967296

/-- `fread(&x, sizeof(int), 1, fp)`: the value read (`none` when `fread` returns
0 and leaves `x` as it was) and the rest of the stream. -/
def lerInt (ficheiro : List Nat) : Option Int × List Nat :=
  match lerBits ficheiro with
  | (some u, resto) => (some (intDeBits u), resto)
  | (none, resto) => (none, resto)

/-- An `fread` of an `int` field whose result is not tested: the field keeps
`anterior` when nothing is read. -/
def lerCampo (anterior : Int) (ficheiro : List Nat) : Int × List Nat :=
  match lerInt ficheiro with
  | (some v, resto) => (v, resto)
  | (none, resto) => (anterior, resto)

/-- The binary32 pattern of a `float` of the model (significand of at most 24
bits).  Values above the binary32 range have the pattern of an infinity. -/
def CFloat.bits (x : CFloat) : Nat :=
  let a := x.mant.natAbs
  if a = 0 then 0
  else
    let b := CFloat.numBits (a + 1) a
    let sinal := if x.mant < 0 then 2147483648 else 0
    let e := x.expo + b - 1 + 127
    if e ≥ 255 then sinal + 2139095040
    else if e ≥ 1 then sinal + e.toNat * 8388608 + (a * 2 ^ (24 - b) - 8388608)
    else sinal + a * 2 ^ (x.expo + 149).toNat

/-- The `float` with the given binary32 pattern; `none` for an infinity or a
NaN, which are outside the model. -/
def CFloat.ofBits (u : Nat) : Option CFloat :=
  let frac := u % 8388608
  let e := u / 8388608 % 256
  if e = 255 then none
  else
    let m : Int := if e = 0 then (frac : Int) else 8388608 + (frac : Int)
    let ex : Int := if e = 0 then -149 else (e : Int) - 150
    some (CFloat.arredondar (if u / 2147483648 % 2 = 1 then -m else m) ex)

/-- `fwrite(&x, sizeof(float), 1, fp)`. -/
def escreverFloat (x : CFloat) : List Nat :=
  escreverInt (x.bits : Int)

/-- `escreverStringBinario` of input.c: the length with the terminator (0 for
`NULL`), then the characters and the terminator. -/
def escreverStringBinario (str : Option String) : List Nat :=
  match str with
  | none => escreverInt 0
  | some s => escreverInt ((s.length : Int) + 1) ++ (s.toList.map Char.toNat ++ [0])

/-- `lerStringBinario` of input.c: the pointer returned, the remaining `malloc`
results and the rest of the stream.  `none` stands for a result that is not a C
string: `tam` was not read, fewer than `tam` characters were left, or there is
no terminator among them.  A negative `tam` is a request that `malloc` cannot
satisfy. -/
def lerStringBinario (heap : List Bool) (ficheiro : List Nat) :
    Option (Option String × List Bool × List Nat) :=
  match lerInt ficheiro with
  | (none, _) => none
  | (some tam, f1) =>
    if tam = 0 then some (none, heap, f1)
    else if tam < 0 then some (none, heap, f1)
    else
      match heap with
      | false :: heap1 => some (none, heap1, f1)
      | heap0 =>
        if f1.length < tam.toNat then none
        else if 0 ∈ f1.take tam.toNat then
          some (some (String.mk (((f1.take tam.toNat).takeWhile (fun c => c ≠ 0)).map Char.ofNat)),
            heap0.tail, f1.drop tam.toNat)
        else none

/-! ## Persistence of the orders (`ordem.c`) -/

/-- The bytes that the loop body of `guardarOrdens` writes for one record. -/
def guardarOrdens_registo (o : Ordem) : List Nat :=
  escreverInt o.idTecnico ++ escreverInt o.idOrdem ++ escreverInt o.idDepartamento ++
  escreverInt o.idAtivo ++ escreverInt o.tipo_manutencao ++ escreverInt o.prioridade ++
  escreverInt o.estado ++
  escreverInt o.diaInicio ++ escreverInt o.mesInicio ++ escreverInt o.anoInicio ++
  escreverInt o.horaInicio ++ escreverInt o.minInicio ++ escreverInt o.segInicio ++
  escreverInt o.diaFim ++ escreverInt o.mesFim ++ escreverInt o.anoFim ++
  escreverInt o.horaFim ++ escreverInt o.minFim ++ escreverInt o.segFim

/-- `guardarOrdens` of ordem.c: the content of `ordens.bin` after the call, or
`none` when `fopen` fails and nothing is written (`abriu` is the result of
`fopen`). -/
def guardarOrdens (abriu : Bool) (ordens : Ordens) : Option (List Nat) :=
  if abriu then
    some (escreverInt ordens.contador ++ escreverInt ordens.ordensAtivas ++
      (ordens.ordem.map guardarOrdens_registo).flatten)
  else none

/-- The loop body of `carregarOrdens`: the record stored in a slot whose content
after `malloc` is `residuo`, and the rest of the stream. -/
def carregarOrdens_registo (residuo : Ordem) (ficheiro : List Nat) : Ordem × List Nat :=
  let (tipo_manutencao, f1) := lerCampo residuo.tipo_manutencao ficheiro
  let (idTecnico, f2) := lerCampo residuo.idTecnico f1
  let (idOrdem, f3) := lerCampo residuo.idOrdem f2
  let (idDepartamento, f4) := lerCampo residuo.idDepartamento f3
  let (idAtivo, f5) := lerCampo residuo.idAtivo f4
  let (prioridade, f6) := lerCampo residuo.prioridade f5
  let (estado, f7) := lerCampo residuo.estado f6
  match lerInt f7 with
  | (some diaInicio, f8) =>
    let (mesInicio, f9) := lerCampo residuo.mesInicio f8
    let (anoInicio, f10) := lerCampo residuo.anoInicio f9
    let (horaInicio, f11) := lerCampo residuo.horaInicio f10
    let (minInicio, f12) := lerCampo residuo.minInicio f11
    let (segInicio, f13) := lerCampo residuo.segInicio f12
    let (diaFim, f14) := lerCampo residuo.diaFim f13
    let (mesFim, f15) := lerCampo residuo.mesFim f14
    let (anoFim, f16) := lerCampo residuo.anoFim f15
    let (horaFim, f17) := lerCampo residuo.horaFim f16
    let (minFim, f18) := lerCampo residuo.minFim f17
    let (segFim, f19) := lerCampo residuo.segFim f18
    (⟨idOrdem, idAtivo, idDepartamento, idTecnico, estado, prioridade, tipo_manutencao,
      diaInicio, mesInicio, anoInicio, horaInicio, minInicio, segInicio,
      diaFim, mesFim, anoFim, horaFim, minFim, segFim⟩, f19)
  | (none, f8) =>
    (⟨idOrdem, idAtivo, idDepartamento, idTecnico, estado, prioridade, tipo_manutencao,
      0, 0, 0, 0, 0, 0, 0, 0, 0, 0, 0, 0⟩, f8)

/-- The loop of `carregarOrdens` from index `i` on, `n` records to go. -/
def carregarOrdens_laco (residuo : Nat → Ordem) : Nat → Nat → List Nat → List Ordem
  | 0, _, _ => []
  | n + 1, i, ficheiro =>
    let r := carregarOrdens_registo (residuo i) ficheiro
    r.1 :: carregarOrdens_laco residuo n (i + 1) r.2

/-- `carregarOrdens` of ordem.c.  `ficheiro` is the content of `ordens.bin`
(`none` when `fopen` fails), `mallocOk` the result of `malloc`, `residuo i` the
content of slot `i` of the new array before it is assigned.  The result is
`none` when the store is left with a count that is not the length of its
array: a negative count, or a positive one next to the `NULL` array. -/
def carregarOrdens (residuo : Nat → Ordem) (mallocOk : Bool) (ordens : Ordens)
    (ficheiro : Option (List Nat)) : Option Ordens :=
  match ficheiro with
  | none => some ordens
  | some f =>
    let (contador, f1) := lerCampo ordens.contador f
    if contador < 0 then none
    else if !mallocOk && contador > 0 then none
    else
      let (ordensAtivas, f2) := lerCampo ordens.ordensAtivas f1
      some ⟨carregarOrdens_laco residuo contador.toNat 0 f2, ordensAtivas, contador⟩

/-! ## Persistence of the materials (`materiais.c`) -/

/-- The bytes that the loop body of `guardarMateriais` writes for one record. -/
def guardarMateriais_registo (m : Material) : List Nat :=
  escreverInt m.quantidade ++ escreverFloat m.custoUnitario ++ escreverInt m.OrdemAssociada ++
  escreverStringBinario m.nomeMaterial

/-- `guardarMateriais` of materiais.c: the bytes written to `materiais.bin`, or
`none` when `fopen` fails.  The function does not close the stream; the bytes
reach the file when the program ends. -/
def guardarMateriais (abriu : Bool) (materiais : Materiais) : Option (List Nat) :=
  if abriu then
    some (escreverInt materiais.contador ++
      (materiais.material.map guardarMateriais_registo).flatten)
  else none

/-- The loop body of `carregarMateriais`: the record stored in a slot whose
content after `malloc` is `residuo`, the remaining `malloc` results and the rest
of the stream.  `none` stands for a record outside the model: a unit cost that
is an infinity or a NaN, or a name that is not a C string. -/
def carregarMateriais_registo (residuo : Material) (heap : List Bool) (ficheiro : List Nat) :
    Option (Material × List Bool × List Nat) :=
  let (custo, f1) := lerBits ficheiro
  let (quantidade, f2) := lerCampo residuo.quantidade f1
  let (OrdemAssociada, f3) := lerCampo residuo.OrdemAssociada f2
  let custoUnitario :=
    match custo with
    | some u => CFloat.ofBits u
    | none => some residuo.custoUnitario
  match custoUnitario, lerStringBinario heap f3 with
  | some c, some (nomeMaterial, heap1, f4) =>
    some (⟨nomeMaterial, quantidade, c, OrdemAssociada⟩, heap1, f4)
  | _, _ => none

/-- The loop of `carregarMateriais` from index `i` on, `n` records to go. -/
def carregarMateriais_laco (residuo : Nat → Material) :
    Nat → Nat → List Bool → List Nat → Option (List Material)
  | 0, _, _, _ => some []
  | n + 1, i, heap, ficheiro =>
    match carregarMateriais_registo (residuo i) heap ficheiro with
    | none => none
    | some (m, heap1, f1) =>
      match carregarMateriais_laco residuo n (i + 1) heap1 f1 with
      | none => none
      | some resto => some (m :: resto)

/-- `carregarMateriais` of materiais.c.  `ficheiro` is the content of
`materiais.bin` (`none` when `fopen` fails), `heap` the results of the `malloc`
calls (an exhausted list means success), `residuo i` the content of slot `i`
of the new array before it is assigned.  The result is `none` when the store is
left with a count that is not the length of its array, or holds a record
outside the model. -/
def carregarMateriais (residuo : Nat → Material) (heap : List Bool) (materiais : Materiais)
    (ficheiro : Option (List Nat)) : Option Materiais :=
  match ficheiro with
  | none => some materiais
  | some f =>
    let (contador, f1) := lerCampo materiais.contador f
    if contador < 0 then none
    else
      match heap with
      | false :: _ =>
        if contador > 0 then none
        else some ⟨[], contador⟩
      | heap0 =>
        match carregarMateriais_laco residuo contador.toNat 0 heap0.tail f1 with
        | none => none
        | some l => some ⟨l, contador⟩

/-! ## Outcome of a call that may not return -/

/-- How a call ends: it returns a value, it waits for input that never comes,
it reads or writes an array element outside `0 .. contador - 1`, or it
dereferences `NULL`.  The last two are undefined behaviour in C. -/
inductive Saida (α : Type) where
  | devolve (valor : α)
  | semEntrada
  | foraDoArray (indice : Int)
  | ponteiroNulo
deriving DecidableEq

/-! ## `ativos.c`: creating and decommissioning assets -/

/-- `obterMaiorIDDepartamento` of departamentos.c. -/
def obterMaiorIDDepartamento (departamentos : Departamentos) : Int :=
  departamentos.departamento.foldl
    (fun maxID d => if d.idDepartamento > maxID then d.idDepartamento else maxID) 0

/-- `validar_departamento_associado` of ativos.c. -/
def validar_departamento_associado (departamentos : Departamentos) (idAssociado : Int) : Int :=
  if departamentos.departamento.any
      (fun d => decide (d.idDepartamento = idAssociado ∧ d.atividade = ATIVO)) then 1
  else 0

/-- `garantir_capacidade_ativos` of ativos.c: result flag, store, remaining heap results. -/
def garantir_capacidade_ativos (ativos : Ativos) (minCap : Int) (heap : List Bool) :
    Bool × Ativos × List Bool :=
  if ativos.capacidade ≥ minCap then (true, ativos, heap)
  else
    match heap with
    | false :: heap1 => (false, ativos, heap1)
    | true :: heap1 =>
      (true, { ativos with capacidade := novaCapacidade ativos.capacidade minCap }, heap1)
    | [] => (true, { ativos with capacidade := novaCapacidade ativos.capacidade minCap }, [])

/-- The `do ... while (validar == 0)` loop of `criar_ativo`. -/
def criar_ativo_laco (departamentos : Departamentos) (maxIdDepartamentos : Int) :
    Nat → List Linha → Option (Int × List Linha)
  | 0, _ => none
  | fuel + 1, entrada =>
    match obterIntIntervalado 0 maxIdDepartamentos entrada with
    | none => none
    | some (idAssociado, resto) =>
      if validar_departamento_associado departamentos idAssociado = 0 then
        criar_ativo_laco departamentos maxIdDepartamentos fuel resto
      else some (idAssociado, resto)

/-- `criar_ativo` of ativos.c.  `residuo` is the content of the slot
`ativo[contador]` before the function writes to it, `tmLocal` the result of
`localtime`.  `none` stands for a call that waits for input that never comes. -/
def criar_ativo (residuo : Ativo) (tmLocal : Option Tm) (ativos : Ativos)
    (departamentos : Departamentos) (w : Mundo) : Option (Ativos × Mundo) :=
  let maxIdDepartamentos := obterMaiorIDDepartamento departamentos
  if departamentos.contador ≤ 0 ∨ departamentos.departamentosAtivos ≤ 0 then
    match pausar_ecra w.entrada with
    | none => none
    | some e1 => some (ativos, ⟨e1, w.heap⟩)
  else
    match garantir_capacidade_ativos ativos (ativos.contador + 1) w.heap with
    | (false, _, heap1) =>
      match pausar_ecra w.entrada with
      | none => none
      | some e1 => some (ativos, ⟨e1, heap1⟩)
    | (true, ativos1, heap1) =>
      match lerStringDinamica w.entrada with
      | (designacao, e1) =>
        match obterIntIntervalado 1 5 e1 with
        | none => none
        | some (categoria, e2) =>
          match obterFloatPositivo e2 with
          | none => none
          | some (custo, e3) =>
            match criar_ativo_laco departamentos maxIdDepartamentos e3.length e3 with
            | none => none
            | some (idAssociado, e4) =>
              match lerStringDinamica e4 with
              | (localizacao, e5) =>
                let c := carimbo tmLocal
                let novo : Ativo :=
                  { residuo with
                    designacao := designacao
                    categoria := categoria
                    custo := custo
                    idDepartamentoAssociado := idAssociado
                    localizacao := localizacao
                    diaAquisicao := c.dia
                    mesAquisicao := c.mes
                    anoAquisicao := c.ano
                    estado := OPERACIONAL
                    id := ativos1.gerarProximoID }
                match pausar_ecra e5 with
                | none => none
                | some e6 =>
                  some ({ ativos1 with
                          ativo := ativos1.ativo ++ [novo]
                          ativosDisponiveis := ativos1.ativosDisponiveis + 1 }, ⟨e6, heap1⟩)

/-- `abater_ativo` of ativos.c.  The index returned by `procurar_ativo_id` is
used without a test, and so is the pointer returned by `localtime`. -/
def abater_ativo (tmLocal : Option Tm) (ativos : Ativos) (entrada : List Linha) :
    Saida (Ativos × List Linha) :=
  match obterIntPositivo entrada with
  | none => Saida.semEntrada
  | some (idProcurado, e1) =>
    let idEncontrado := procurar_ativo_id ativos idProcurado
    if idEncontrado < 0 then Saida.foraDoArray idEncontrado
    else
      match ativos.ativo[idEncontrado.toNat]? with
      | none => Saida.foraDoArray idEncontrado
      | some a =>
        if a.estado = EM_MANUTENCAO ∨ a.estado = ABATIDO then Saida.devolve (ativos, e1)
        else
          match tmLocal with
          | none => Saida.ponteiroNulo
          | some t =>
            Saida.devolve
              ({ ativos with
                 ativo := alterar ativos.ativo idEncontrado
                   (fun x => { x with
                     estado := ABATIDO
                     diaAbate := t.tm_mday
                     mesAbate := t.tm_mon + 1
                     anoAbate := t.tm_year + 1900 }) }, e1)

/-! ## Persistence of the assets (`ativos.c`) -/

/-- The bytes that the loop body of `guardarAtivos` writes for one record. -/
def guardarAtivos_registo (a : Ativo) : List Nat :=
  escreverInt a.id ++ escreverInt a.categoria ++ escreverInt a.estado ++
  escreverFloat a.custo ++ escreverFloat a.custoTotalAcumulado ++
  escreverInt a.idDepartamentoAssociado ++
  escreverInt a.diaAquisicao ++ escreverInt a.mesAquisicao ++ escreverInt a.anoAquisicao ++
  escreverStringBinario a.designacao ++ escreverStringBinario a.localizacao

/-- `guardarAtivos` of ativos.c: the content of `ativos.bin` after the call, or
`none` when `fopen` fails and nothing is written. -/
def guardarAtivos (abriu : Bool) (ativos : Ativos) : Option (List Nat) :=
  if abriu then
    some (escreverInt ativos.contador ++ escreverInt ativos.ativosDisponiveis ++
      (ativos.ativo.map guardarAtivos_registo).flatten)
  else none

/-- An `fread` of a `float` field whose result is not tested; `none` for an
infinity or a NaN. -/
def lerCampoFloat (anterior : CFloat) (ficheiro : List Nat) : Option CFloat × List Nat :=
  match lerBits ficheiro with
  | (some u, resto) => (CFloat.ofBits u, resto)
  | (none, resto) => (some anterior, resto)

/-- The loop body of `carregarAtivos`: the record stored in a slot whose content
after `malloc` is `residuo`, the remaining `malloc` results and the rest of the
stream.  `none` stands for a record outside the model: a cost that is an
infinity or a NaN, or a text that is not a C string. -/
def carregarAtivos_registo (residuo : Ativo) (heap : List Bool) (ficheiro : List Nat) :
    Option (Ativo × List Bool × List Nat) :=
  let (id, f1) := lerCampo residuo.id ficheiro
  let (categoria, f2) := lerCampo residuo.categoria f1
  let (estado, f3) := lerCampo residuo.estado f2
  let (custo, f4) := lerCampoFloat residuo.custo f3
  let (custoTotalAcumulado, f5) := lerCampoFloat residuo.custoTotalAcumulado f4
  let (idDepartamentoAssociado, f6) := lerCampo residuo.idDepartamentoAssociado f5
  let (diaAquisicao, f7) := lerCampo residuo.diaAquisicao f6
  let (mesAquisicao, f8) := lerCampo residuo.mesAquisicao f7
  let (anoAquisicao, f9) := lerCampo residuo.anoAquisicao f8
  match custo, custoTotalAcumulado, lerStringBinario heap f9 with
  | some c, some ct, some (designacao, heap1, f10) =>
    match lerStringBinario heap1 f10 with
    | some (localizacao, heap2, f11) =>
      some ({ residuo with
              id := id
              categoria := categoria
              estado := estado
              custo := c
              custoTotalAcumulado := ct
              idDepartamentoAssociado := idDepartamentoAssociado
              diaAquisicao := diaAquisicao
              mesAquisicao := mesAquisicao
              anoAquisicao := anoAquisicao
              designacao := designacao
              localizacao := localizacao }, heap2, f11)
    | none => none
  | _, _, _ => none

/-- The loop of `carregarAtivos` from index `i` on, `n` records to go. -/
def carregarAtivos_laco (residuo : Nat → Ativo) :
    Nat → Nat → List Bool → List Nat → Option (List Ativo)
  | 0, _, _, _ => some []
  | n + 1, i, heap, ficheiro =>
    match carregarAtivos_registo (residuo i) heap ficheiro with
    | none => none
    | some (a, heap1, f1) =>
      match carregarAtivos_laco residuo n (i + 1) heap1 f1 with
      | none => none
      | some resto => some (a :: resto)

/-- `carregarAtivos` of ativos.c.  `ficheiro` is the content of `ativos.bin`
(`none` when `fopen` fails), `heap` the results of the `malloc` calls (an
exhausted list means success), `residuo i` the content of slot `i` of the new
array before it is assigned.  The result is `none` when the store is left with
a count that is not the length of its array, or holds a record outside the
model. -/
def carregarAtivos (residuo : Nat → Ativo) (heap : List Bool) (ativos : Ativos)
    (ficheiro : Option (List Nat)) : Option Ativos :=
  match ficheiro with
  | none => some ativos
  | some f =>
    let (contador, f1) := lerCampo ativos.contador f
    let (ativosDisponiveis, f2) := lerCampo ativos.ativosDisponiveis f1
    if contador < 0 then none
    else
      match heap with
      | false :: _ =>
        if contador > 0 then none
        else some ⟨[], ativosDisponiveis, contador⟩
      | heap0 =>
        match carregarAtivos_laco residuo contador.toNat 0 heap0.tail f2 with
        | none => none
        | some l => some ⟨l, ativosDisponiveis, contador⟩

/-! ## Persistence of the technicians (`tecnicos.c`) -/

/-- The bytes that the loop body of `guardarTecnicos` writes for one record. -/
def guardarTecnicos_registo (t : Tecnico) : List Nat :=
  escreverInt t.idTecnico ++ escreverInt t.idManutencaoAssociado ++
  escreverInt t.especialidade ++ escreverInt t.estado_tecnico ++
  escreverStringBinario t.nome

/-- The loop `for (int i = 0; tecnicos->contador; i++)` of `guardarTecnicos`,
`i` being the loop index, the list the records from index `i` on, and `escrito`
the bytes written so far.  The condition is the count itself. -/
def guardarTecnicos_laco (contador : Int) : List Tecnico → Int → List Nat → Saida (List Nat)
  | [], i, escrito =>
    if contador ≠ 0 then Saida.foraDoArray i else Saida.devolve escrito
  | t :: resto, i, escrito =>
    if contador ≠ 0 then
      guardarTecnicos_laco contador resto (i + 1) (escrito ++ guardarTecnicos_registo t)
    else Saida.devolve escrito

/-- `guardarTecnicos` of tecnicos.c: the content of `tecnicos.bin` after the
call (`none` when `fopen` fails and nothing is written). -/
def guardarTecnicos (abriu : Bool) (tecnicos : Tecnicos) : Saida (Option (List Nat)) :=
  if abriu then
    match guardarTecnicos_laco tecnicos.contador tecnicos.tecnico 0
        (escreverInt tecnicos.contador ++ escreverInt tecnicos.tecnicosAtivos) with
    | Saida.devolve ficheiro => Saida.devolve (some ficheiro)
    | Saida.semEntrada => Saida.semEntrada
    | Saida.foraDoArray i => Saida.foraDoArray i
    | Saida.ponteiroNulo => Saida.ponteiroNulo
  else Saida.devolve none

/-! ## Persistence of the departments (`departamentos.c`) -/

/-- The bytes that the loop body of `guardarDepartamentos` writes for one record. -/
def guardarDepartamentos_registo (d : Departamento) : List Nat :=
  escreverInt d.idDepartamento ++ escreverInt d.atividade ++
  escreverStringBinario d.nomeDepartamento ++ escreverStringBinario d.responsavel ++
  escreverStringBinario d.contacto

/-- `guardarDepartamentos` of departamentos.c: the bytes written to
`departamentos.bin`, or `none` when `fopen` fails.  The function does not close
the stream; the bytes reach the file when the program ends. -/
def guardarDepartamentos (abriu : Bool) (departamentos : Departamentos) : Option (List Nat) :=
  if abriu then
    some (escreverInt departamentos.contador ++
      (departamentos.departamento.map guardarDepartamentos_registo).flatten)
  else none

/-- The loop body of `carregarDepartamentos`: the record stored in a slot whose
content after `malloc` is `residuo`, the remaining `malloc` results and the rest
of the stream.  `none` stands for a text that is not a C string. -/
def carregarDepartamentos_registo (residuo : Departamento) (heap : List Bool)
    (ficheiro : List Nat) : Option (Departamento × List Bool × List Nat) :=
  let (idDepartamento, f1) := lerCampo residuo.idDepartamento ficheiro
  let (atividade, f2) := lerCampo residuo.atividade f1
  match lerStringBinario heap f2 with
  | none => none
  | some (nomeDepartamento, heap1, f3) =>
    match lerStringBinario heap1 f3 with
    | none => none
    | some (responsavel, heap2, f4) =>
      match lerStringBinario heap2 f4 with
      | none => none
      | some (contacto, heap3, f5) =>
        some (⟨idDepartamento, nomeDepartamento, responsavel, contacto, atividade⟩, heap3, f5)

/-- The loop of `carregarDepartamentos` from index `i` on, `n` records to go. -/
def carregarDepartamentos_laco (residuo : Nat → Departamento) :
    Nat → Nat → List Bool → List Nat → Option (List Departamento)
  | 0, _, _, _ => some []
  | n + 1, i, heap, ficheiro =>
    match carregarDepartamentos_registo (residuo i) heap ficheiro with
    | none => none
    | some (d, heap1, f1) =>
      match carregarDepartamentos_laco residuo n (i + 1) heap1 f1 with
      | none => none
      | some resto => some (d :: resto)

/-- `carregarDepartamentos` of departamentos.c.  `ficheiro` is the content of
`departamentos.bin` (`none` when `fopen` fails), `heap` the results of the
`malloc` calls (an exhausted list means success), `residuo i` the content of
slot `i` of the new array before it is assigned.  The field
`departamentosAtivos` is not assigned.  The result is `none` when the store is
left with a count that is not the length of its array, or holds a text that is
not a C string. -/
def carregarDepartamentos (residuo : Nat → Departamento) (heap : List Bool)
    (departamentos : Departamentos) (ficheiro : Option (List Nat)) : Option Departamentos :=
  match ficheiro with
  | none => some departamentos
  | some f =>
    let (contador, f1) := lerCampo departamentos.contador f
    if contador < 0 then none
    else
      match heap with
      | false :: _ =>
        if contador > 0 then none
        else some ⟨[], departamentos.departamentosAtivos, contador⟩
      | heap0 =>
        match carregarDepartamentos_laco residuo contador.toNat 0 heap0.tail f1 with
        | none => none
        | some l => some ⟨l, departamentos.departamentosAtivos, contador⟩

/-! ## `departamentos.c`: creating, updating and deactivating departments -/

/-- `gerarProximoID` of departamentos.c. -/
def Departamentos.gerarProximoID (departamentos : Departamentos) : Int :=
  if departamentos.contador = 0 then 10
  else departamentos.departamento.foldl
    (fun maxID d => if d.idDepartamento > maxID then d.idDepartamento else maxID) 0 + 1

/-- `garantir_capacidade_departamentos` of departamentos.c. -/
def garantir_capacidade_departamentos (departamentos : Departamentos) (minCap : Int)
    (heap : List Bool) : Bool × Departamentos × List Bool :=
  if departamentos.capacidade ≥ minCap then (true, departamentos, heap)
  else
    match heap with
    | false :: heap1 => (false, departamentos, heap1)
    | true :: heap1 =>
      (true, { departamentos with
               capacidade := novaCapacidade departamentos.capacidade minCap }, heap1)
    | [] =>
      (true, { departamentos with
               capacidade := novaCapacidade departamentos.capacidade minCap }, [])

/-- `validar_nome_departamento` of departamentos.c: the name examined is the one
of the last record, `departamento[contador - 1]`. -/
def validar_nome_departamento (departamentos : Departamentos) : Int :=
  if departamentos.contador ≤ 0 then 0
  else
    match departamentos.departamento[(departamentos.contador - 1).toNat]? with
    | none => 0
    | some d =>
      match d.nomeDepartamento with
      | none => 0
      | some nome => if (nome.length : Int) < 3 then 0 else 1

/-- The scan of `procurarIdDepartamento`, `i` being the loop index. -/
def procurarIdDepartamento_desde (idPretendido : Int) : List Departamento → Int → Int
  | [], _ => -1
  | d :: resto, i =>
    if d.idDepartamento = idPretendido then i
    else procurarIdDepartamento_desde idPretendido resto (i + 1)

/-- `procurarIdDepartamento` of departamentos.c. -/
def procurarIdDepartamento (departamentos : Departamentos) (idPretendido : Int) : Int :=
  procurarIdDepartamento_desde idPretendido departamentos.departamento 0

/-- The C function `isspace` in the "C" locale. -/
def espaco (c : Char) : Bool :=
  c.toNat = 32 || (9 ≤ c.toNat && c.toNat ≤ 13)

/-- The conversion `scanf("%Ns", ...)` with `N = n`: white space is skipped, line
ends included, then at most `n` characters other than white space are taken.
The result holds the word and the input that remains; its first line is what is
left of the line of the word, of which only the text is kept (every caller
discards it).  `none` when the input ends before a word. -/
def lerPalavra (n : Nat) : List Linha → Option (String × List Linha)
  | [] => none
  | l :: resto =>
    match l.texto.toList.dropWhile espaco with
    | [] => lerPalavra n resto
    | c :: cs =>
      let palavra := ((c :: cs).takeWhile (fun x => !espaco x)).take n
      some (String.mk palavra, ⟨none, none, String.mk ((c :: cs).drop palavra.length)⟩ :: resto)

/-- The loop of `obterNumeroTelemovel`: a word of 9 digits is returned, any
other word is refused and the rest of its line discarded. -/
def obterNumeroTelemovel_laco : Nat → List Linha → Option (String × List Linha)
  | 0, _ => none
  | fuel + 1, entrada =>
    match lerPalavra 9 entrada with
    | none => none
    | some (numero, e1) =>
      if numero.length = 9 ∧ numero.toList.all (fun c => decide ('0' ≤ c ∧ c ≤ '9')) then
        some (numero, e1)
      else obterNumeroTelemovel_laco fuel e1.tail

/-- `obterNumeroTelemovel` of departamentos.c: the pointer returned (`NULL` when
`malloc` fails), the remaining `malloc` results and the remaining input. -/
def obterNumeroTelemovel (w : Mundo) : Option (Option String × Mundo) :=
  match w.heap with
  | false :: heap1 => some (none, ⟨w.entrada, heap1⟩)
  | heap0 =>
    match obterNumeroTelemovel_laco w.entrada.length w.entrada with
    | none => none
    | some (numero, e1) => some (some numero, ⟨e1, heap0.tail⟩)

/-- The loop of `obterEmail`: a word with exactly one `@` and at least one `.`
is returned; after any other word the next word is read, from the same line
if it has one. -/
def obterEmail_laco : Nat → List Linha → Option (String × List Linha)
  | 0, _ => none
  | fuel + 1, entrada =>
    match lerPalavra 99 entrada with
    | none => none
    | some (email, e1) =>
      if email.toList.count '@' ≠ 1 ∨ email.toList.count '.' < 1 then obterEmail_laco fuel e1
      else some (email, e1)

/-- `obterEmail` of departamentos.c. -/
def obterEmail (w : Mundo) : Option (Option String × Mundo) :=
  match w.heap with
  | false :: heap1 => some (none, ⟨w.entrada, heap1⟩)
  | heap0 =>
    match obterEmail_laco ((w.entrada.map (fun l => l.texto.length + 1)).sum) w.entrada with
    | none => none
    | some (email, e1) => some (some email, ⟨e1, heap0.tail⟩)

/-- A name loop of departamentos.c,
`do { departamento[idx].nomeDepartamento = lerStringDinamica(...);
validar = validar_nome_departamento(*departamentos); } while (validar == 0)`.
At the end of the input `lerStringDinamica` returns the empty string again and
again, so one more round than there are lines is enough fuel. -/
def laco_nome (idx : Int) : Nat → Departamentos → List Linha →
    Option (Departamentos × List Linha)
  | 0, _, _ => none
  | fuel + 1, departamentos, entrada =>
    match lerStringDinamica entrada with
    | (nome, resto) =>
      let departamentos1 : Departamentos :=
        { departamentos with
          departamento := alterar departamentos.departamento idx
            (fun d => { d with nomeDepartamento := nome }) }
      if validar_nome_departamento departamentos1 = 0 then laco_nome idx fuel departamentos1 resto
      else some (departamentos1, resto)

/-- The contact prompt shared by `criarDepartamento` and
`atualizar_departamento`: the choice between a phone number and an e-mail
address, the reader chosen, and `pausar_ecra`. -/
def lerContacto (anterior : Option String) (w : Mundo) : Option (Option String × Mundo) :=
  match obterIntIntervalado 1 2 w.entrada with
  | none => none
  | some (escolha, e1) =>
    if escolha = 1 then
      match obterNumeroTelemovel ⟨e1, w.heap⟩ with
      | none => none
      | some (contacto, w1) =>
        match pausar_ecra w1.entrada with
        | none => none
        | some e2 => some (contacto, ⟨e2, w1.heap⟩)
    else if escolha = 2 then
      match obterEmail ⟨e1, w.heap⟩ with
      | none => none
      | some (contacto, w1) =>
        match pausar_ecra w1.entrada with
        | none => none
        | some e2 => some (contacto, ⟨e2, w1.heap⟩)
    else
      match pausar_ecra e1 with
      | none => none
      | some e2 => some (anterior, ⟨e2, w.heap⟩)

/-- `criarDepartamento` of departamentos.c.  `residuo` is the content of the slot
`departamento[contador]` before the function writes to it.  The count is
incremented before the prompts, so `gerarProximoID` scans the new slot too. -/
def criarDepartamento (residuo : Departamento) (departamentos : Departamentos) (w : Mundo) :
    Option (Departamentos × Mundo) :=
  match garantir_capacidade_departamentos departamentos (departamentos.contador + 1) w.heap with
  | (false, _, heap1) =>
    match pausar_ecra w.entrada with
    | none => none
    | some e1 => some (departamentos, ⟨e1, heap1⟩)
  | (true, departamentos1, heap1) =>
    let idx := departamentos1.contador
    let departamentos2 : Departamentos :=
      { departamentos1 with departamento := departamentos1.departamento ++ [residuo] }
    match laco_nome idx (w.entrada.length + 1) departamentos2 w.entrada with
    | none => none
    | some (departamentos3, e1) =>
      match lerStringDinamica e1 with
      | (responsavel, e2) =>
        match lerContacto residuo.contacto ⟨e2, heap1⟩ with
        | none => none
        | some (contacto, w3) =>
          let departamentos4 : Departamentos :=
            { departamentos3 with
              departamento := alterar departamentos3.departamento idx
                (fun d => { d with responsavel := responsavel, contacto := contacto,
                                   atividade := ATIVO }) }
          some ({ departamentos4 with
                  departamento := alterar departamentos4.departamento idx
                    (fun d => { d with idDepartamento := departamentos4.gerarProximoID })
                  departamentosAtivos := departamentos4.departamentosAtivos + 1 }, w3)

/-- The loop of `atualizar_departamento` and of `inativar_Departamento` that
asks for an identifier until `procurarIdDepartamento` finds it. -/
def laco_id_departamento (departamentos : Departamentos) (maxIdDepartamento : Int) :
    Nat → List Linha → Option (Int × List Linha)
  | 0, _ => none
  | fuel + 1, entrada =>
    match obterIntIntervalado 0 maxIdDepartamento entrada with
    | none => none
    | some (idPretendido, resto) =>
      let idProcurado := procurarIdDepartamento departamentos idPretendido
      if idProcurado = -1 then laco_id_departamento departamentos maxIdDepartamento fuel resto
      else some (idProcurado, resto)

/-- `atualizar_departamento` of departamentos.c. -/
def atualizar_departamento (departamentos : Departamentos) (w : Mundo) :
    Option (Departamentos × Mundo) :=
  let maxIdDepartamento := obterMaiorIDDepartamento departamentos
  if departamentos.departamentosAtivos = 0 then
    match pausar_ecra w.entrada with
    | none => none
    | some e1 => some (departamentos, ⟨e1, w.heap⟩)
  else
    match laco_id_departamento departamentos maxIdDepartamento w.entrada.length w.entrada with
    | none => none
    | some (idProcurado, e1) =>
      match obterIntIntervalado 0 3 e1 with
      | none => none
      | some (escolha, e2) =>
        if escolha = 1 then
          match laco_nome idProcurado (e2.length + 1) departamentos e2 with
          | none => none
          | some (departamentos1, e3) =>
            match pausar_ecra e3 with
            | none => none
            | some e4 => some (departamentos1, ⟨e4, w.heap⟩)
        else if escolha = 2 then
          match lerStringDinamica e2 with
          | (responsavel, e3) =>
            match pausar_ecra e3 with
            | none => none
            | some e4 =>
              some ({ departamentos with
                      departamento := alterar departamentos.departamento idProcurado
                        (fun d => { d with responsavel := responsavel }) }, ⟨e4, w.heap⟩)
        else if escolha = 3 then
          match departamentos.departamento[idProcurado.toNat]? with
          | none => none
          | some atual =>
            match lerContacto atual.contacto ⟨e2, w.heap⟩ with
            | none => none
            | some (contacto, w3) =>
              some ({ departamentos with
                      departamento := alterar departamentos.departamento idProcurado
                        (fun d => { d with contacto := contacto }) }, w3)
        else
          match pausar_ecra e2 with
          | none => none
          | some e3 => some (departamentos, ⟨e3, w.heap⟩)

/-- `inativar_Departamento` of departamentos.c. -/
def inativar_Departamento (departamentos : Departamentos) (w : Mundo) :
    Option (Departamentos × Mundo) :=
  if departamentos.contador ≤ 0 then
    match pausar_ecra w.entrada with
    | none => none
    | some e1 => some (departamentos, ⟨e1, w.heap⟩)
  else if departamentos.departamentosAtivos = 0 then
    match pausar_ecra w.entrada with
    | none => none
    | some e1 => some (departamentos, ⟨e1, w.heap⟩)
  else
    let maxIdDepartamentos := obterMaiorIDDepartamento departamentos
    match laco_id_departamento departamentos maxIdDepartamentos w.entrada.length w.entrada with
    | none => none
    | some (idProcurado, e1) =>
      match departamentos.departamento[idProcurado.toNat]? with
      | none => none
      | some atual =>
        if atual.atividade = INATIVO then
          match pausar_ecra e1 with
          | none => none
          | some e2 => some (departamentos, ⟨e2, w.heap⟩)
        else
          match pausar_ecra e1 with
          | none => none
          | some e2 =>
            some ({ departamentos with
                    departamento := alterar departamentos.departamento idProcurado
                      (fun d => { d with atividade := INATIVO })
                    departamentosAtivos :=
                      if departamentos.departamentosAtivos > 0 then
                        departamentos.departamentosAtivos - 1
                      else departamentos.departamentosAtivos }, ⟨e2, w.heap⟩)

/-! ## Auxiliary notions used in the statements -/

/-- Generic form of the three `procurar_*_id` scans: the index, counted from
`i`, of the first element satisfying `p`, or `-1`. -/
def indiceDesde {α : Type} (p : α → Bool) : List α → Int → Int
  | [], _ => -1
  | x :: resto, i => if p x then i else indiceDesde p resto (i + 1)

/-- Number of orders in state `EXECUCAO` that carry the technician identifier `idTecnico`. -/
def emExecucaoDe (idTecnico : Int) (ordens : List Ordem) : Nat :=
  ordens.countP (fun o => decide (o.estado = EXECUCAO ∧ o.idTecnico = idTecnico))

/-- The order is in a terminal state. -/
def Ordem.terminal (o : Ordem) : Prop := o.estado = CONCLUIDA ∨ o.estado = CANCELADA

instance (o : Ordem) : Decidable o.terminal := by
  unfold Ordem.terminal
  exact inferInstance

/-- One step of the order engine: a call of `criar_ordem` or of `gerir_ordem`
that returns, whatever the caller's input; `R` restricts the heap residue that
`criar_ordem` may find in the new slot and `C` the result of `localtime` in
`gerir_ordem`. -/
inductive PassoCom (R : Ordem → Prop) (C : Option Tm → Prop) : Sistema → Sistema → Prop
  | criar (s : Sistema) (residuo : Ordem) (w w1 : Mundo) (ativos1 : Ativos) (ordens1 : Ordens) :
      R residuo →
      criar_ordem residuo s.ativos s.ordens w = some (ativos1, ordens1, w1) →
      PassoCom R C s { s with ativos := ativos1, ordens := ordens1 }
  | gerir (s s1 : Sistema) (tmLocal : Option Tm) (w w1 : Mundo) :
      C tmLocal →
      gerir_ordem tmLocal s w = some (s1, w1) → PassoCom R C s s1

/-- A step of the order engine with any heap residue and any clock. -/
def Passo (s s1 : Sistema) : Prop := PassoCom (fun _ => True) (fun _ => True) s s1

/-- The stores reachable from an empty order store by steps of the order engine. -/
inductive AlcancavelCom (R : Ordem → Prop) (C : Option Tm → Prop) : Sistema → Prop
  | vazio (tecnicos : Tecnicos) (ativos : Ativos) (materiais : Materiais) :
      AlcancavelCom R C ⟨⟨[], 0, 0⟩, tecnicos, ativos, materiais⟩
  | passo (s s1 : Sistema) : AlcancavelCom R C s → PassoCom R C s s1 → AlcancavelCom R C s1

/-- The timestamp invariant of an order: it is pending exactly when its start
year is 0, and in a terminal state exactly when its end year is not 0. -/
def Ordem.carimbosCoerentes (o : Ordem) : Prop :=
  (o.estado = PENDENTE ↔ o.anoInicio = 0) ∧ (o.terminal ↔ o.anoFim ≠ 0)

/-- Number of orders, in any state, whose asset identifier is `idAtivo`. -/
def ordensDoAtivo (idAtivo : Int) (ordens : List Ordem) : Nat :=
  ordens.countP (fun o => decide (o.idAtivo = idAtivo))

/-- The weight of a priority in the urgency score. -/
def pesoPrioridade (prioridade : Int) : Int :=
  if prioridade = BAIXA then 1
  else if prioridade = MEDIA then 3
  else if prioridade = ALTA then 5
  else 0

/-- Urgency score of a department identifier: the sum of the weights of the
orders that carry it. -/
def urgencia (idDepartamento : Int) (ordens : List Ordem) : Int :=
  ((ordens.filter (fun o => decide (o.idDepartamento = idDepartamento))).map
    (fun o => pesoPrioridade o.prioridade)).sum

/-- The location under which an asset is counted: the placeholder when the
location is absent or empty. -/
def localMapeado (a : Ativo) : String :=
  match a.localizacao with
  | none => "(sem local)"
  | some s => if s = "" then "(sem local)" else s

/-- Number of orders of the assets counted under the location `local_`. -/
def incidencias (local_ : String) (ativos : List Ativo) (ordens : List Ordem) : Int :=
  ((ativos.filter (fun a => decide (localMapeado a = local_))).map
    (fun a => (ordensDoAtivo a.id ordens : Int))).sum

/-- The buckets agree with the assets `pre` processed so far: distinct
strings, each count positive and equal to the number of orders of the assets
counted under the string, one bucket for every asset that has orders, and no
bucket without such an asset. -/
def baldesCoerentes (ordens : List Ordem) (pre : List Ativo) (baldes : List (String × Int)) :
    Prop :=
  (baldes.map Prod.fst).Nodup ∧
  (∀ (j : Nat) (b : String × Int), baldes[j]? = some b →
    0 < b.2 ∧ b.2 = incidencias b.1 pre ordens) ∧
  (∀ a ∈ pre, 0 < ordensDoAtivo a.id ordens → localMapeado a ∈ baldes.map Prod.fst) ∧
  (∀ b ∈ baldes, ∃ a ∈ pre, localMapeado a = b.1 ∧ 0 < ordensDoAtivo a.id ordens)

/-- The rational number that a `CFloat` stands for. -/
def CFloat.valor (x : CFloat) : ℚ := (x.mant : ℚ) * (2 : ℚ) ^ x.expo

/-- End minus start of an order in seconds, by calendar-to-epoch conversion. -/
def deltaSegundos (mktime : Tm → Int) (o : Ordem) : Int :=
  mktime o.tmFim - mktime o.tmInicio

/-- The orders that the resolution-time statistic is stated to count: Concluded,
both years non-zero, delta non-negative. -/
def contadaEspecificada (mktime : Tm → Int) (o : Ordem) : Bool :=
  decide (o.estado = CONCLUIDA ∧ o.anoInicio ≠ 0 ∧ o.anoFim ≠ 0 ∧ 0 ≤ deltaSegundos mktime o)

/-- The resolution-time statistic as stated: the arithmetic mean of the delta
over the counted orders, and `0` when no order is counted. -/
def tempoMedioEspecificado (mktime : Tm → Int) (ordens : Ordens) : ℚ :=
  let contadas := ordens.ordem.filter (contadaEspecificada mktime)
  if contadas.length = 0 then 0
  else (((contadas.map (deltaSegundos mktime)).sum : Int) : ℚ) / (contadas.length : ℚ)

/-- The orders that `tempoMedioResolucaoOrdens` counts: those of
`contadaEspecificada` for which `mktime` returns a value other than `-1` for
both timestamps. -/
def contada (mktime : Tm → Int) (o : Ordem) : Bool :=
  decide (o.estado = CONCLUIDA ∧ o.anoInicio ≠ 0 ∧ o.anoFim ≠ 0 ∧
    mktime o.tmInicio ≠ -1 ∧ mktime o.tmFim ≠ -1 ∧ 0 ≤ deltaSegundos mktime o)

/-- The value fits in a C `int`. -/
def cabeInt (x : Int) : Prop := -2147483648 ≤ x ∧ x < 2147483648

instance (x : Int) : Decidable (cabeInt x) := by
  unfold cabeInt
  exact inferInstance

/-- The pointer is `NULL` or points to a C string: no NUL among its characters,
and a length that `escreverStringBinario` can hold in its `int tam`. -/
def textoC (str : Option String) : Prop :=
  match str with
  | none => True
  | some s => (∀ c ∈ s.toList, c.toNat ≠ 0) ∧ (s.length : Int) + 1 < 2147483648

instance (str : Option String) : Decidable (textoC str) := by
  unfold textoC
  cases str <;> exact inferInstance

/-- A department record as a C program can hold it. -/
def Departamento.representavel (d : Departamento) : Prop :=
  cabeInt d.idDepartamento ∧ cabeInt d.atividade ∧ textoC d.nomeDepartamento ∧
  textoC d.responsavel ∧ textoC d.contacto

instance (d : Departamento) : Decidable d.representavel := by
  unfold Departamento.representavel
  exact inferInstance

/-! ## Concrete data used to exercise the statements -/

/-- An order record whose fields are all zero. -/
def ordemZero : Ordem := ⟨0, 0, 0, 0, 0, 0, 0, 0, 0, 0, 0, 0, 0, 0, 0, 0, 0, 0, 0⟩

/-- Technician 10, active. -/
def tecnicoDez : Tecnico := ⟨10, some "Ana", 1, ATIVO1, 0⟩

/-- An order in execution held by technician 10. -/
def ordemExec (idOrdem : Int) : Ordem :=
  { ordemZero with idOrdem := idOrdem, idAtivo := 10, idTecnico := 10, estado := EXECUCAO,
                   anoInicio := 2024 }

/-- Four orders in execution held by technician 10 and a pending one. -/
def quatroEmExecucao : Ordens :=
  ⟨[ordemExec 10, ordemExec 11, { ordemZero with idOrdem := 12, idTecnico := 10 },
    ordemExec 13, ordemExec 14], 5, 5⟩

/-- Five orders in execution held by technician 10. -/
def cincoEmExecucao : Ordens :=
  ⟨[ordemExec 10, ordemExec 11, ordemExec 12, ordemExec 13, ordemExec 14], 5, 5⟩

/-- An asset record with the given identifier, state and department. -/
def ativoDe (id estado idDepartamento : Int) : Ativo :=
  ⟨id, some "Portatil", 2, some "Sala 1", 5, 1, 2024, 0, 0, 0, estado, 0, CFloat.zero,
   CFloat.ofInt 900, idDepartamento⟩

/-- Asset 10 is in maintenance, asset 11 is operational, asset 12 was decommissioned. -/
def ativosExemplo : Ativos :=
  ⟨[ativoDe 10 EM_MANUTENCAO 3, ativoDe 11 OPERACIONAL 4, ativoDe 12 ABATIDO 4], 1, 5⟩

/-- One order, in execution, on asset 10. -/
def ordensExemplo : Ordens := ⟨[ordemExec 10], 1, 5⟩

/-- A slot of released heap memory that held other data. -/
def residuoExemplo : Ordem :=
  { ordemZero with idTecnico := 77, anoInicio := 2023, anoFim := 1999 }

/-- The caller enters asset 10 (refused: in maintenance), text, asset 11,
priority 7 (refused), priority 3, type 2, and presses Enter. -/
def entradaCriar : List Linha :=
  [Linha.inteiro 10, Linha.palavras "onze", Linha.inteiro 11, Linha.inteiro 7,
   Linha.inteiro 3, Linha.inteiro 2, Linha.palavras ""]

/-- Technician 10 holds five orders in execution, technician 11 is inactive,
technician 12 is busy with one order. -/
def tecnicosExemplo : Tecnicos :=
  ⟨[tecnicoDez, ⟨11, some "Rui", 2, INATIVO1, 0⟩, ⟨12, some "Eva", 3, OCUPADO, 16⟩], 2, 5⟩

/-- Orders 10 to 14 in execution (technician 10), order 15 pending on asset 11,
order 16 in execution (technician 12, asset 11), order 17 concluded. -/
def ordensSistema : Ordens :=
  ⟨cincoEmExecucao.ordem ++
    [{ ordemZero with idOrdem := 15, idAtivo := 11, idDepartamento := 4, prioridade := 3,
                      tipo_manutencao := 2 },
     { ordemExec 16 with idAtivo := 11, idTecnico := 12 },
     { ordemExec 17 with estado := CONCLUIDA, anoFim := 2024 }], 8, 10⟩

/-- Assets 10 and 11 in maintenance, asset 12 decommissioned. -/
def ativosSistema : Ativos :=
  ⟨[ativoDe 10 EM_MANUTENCAO 3, ativoDe 11 EM_MANUTENCAO 4, ativoDe 12 ABATIDO 4], 0, 5⟩

/-- The four stores of the running example. -/
def sistemaExemplo : Sistema := ⟨ordensSistema, tecnicosExemplo, ativosSistema, ⟨[], 0⟩⟩

/-- A clock reading: 5 March 2024, 14:30:05. -/
def tmExemplo : Tm := ⟨5, 2, 124, 14, 30, 5⟩

/-- The caller selects order 15, then enters technician 99 (out of range), 5
(unknown), 11 (inactive), 10 (five orders in execution), 12 (accepted), one
material (name, unit cost 5.5, quantity 2), answers 1, and presses Enter. -/
def entradaPendente : List Linha :=
  [Linha.inteiro 15, Linha.inteiro 99, Linha.inteiro 5, Linha.inteiro 11, Linha.inteiro 10,
   Linha.inteiro 12, Linha.palavras "Cabo", Linha.real (CFloat.decimal 55 10) "5.5",
   Linha.inteiro 2, Linha.inteiro 1, Linha.palavras ""]

/-- The caller selects order 16, chooses 2 (conclude) and presses Enter. -/
def entradaConcluir : List Linha := [Linha.inteiro 16, Linha.inteiro 2, Linha.palavras ""]

/-- The caller selects order 16, chooses 1 (cancel) and presses Enter. -/
def entradaCancelar : List Linha := [Linha.inteiro 16, Linha.inteiro 1, Linha.palavras ""]

/-- The caller selects order 17, which is concluded, and presses Enter. -/
def entradaTerminal : List Linha := [Linha.inteiro 17, Linha.palavras ""]

/-- Order 15 of the running example once technician 12 has taken it at the
clock reading `tmExemplo`. -/
def ordemQuinzeEmExecucao : Ordem :=
  { ordemZero with
    idOrdem := 15, idAtivo := 11, idDepartamento := 4, prioridade := 3, tipo_manutencao := 2,
    idTecnico := 12, estado := EXECUCAO,
    diaInicio := 5, mesInicio := 3, anoInicio := 2024, horaInicio := 14, minInicio := 30,
    segInicio := 5 }

/-- The running example after `gerir_ordem` on `entradaPendente`. -/
def sistemaAposPendente : Sistema :=
  { sistemaExemplo with
    ordens := { ordensSistema with ordem := ordensSistema.ordem.set 5 ordemQuinzeEmExecucao }
    materiais := ⟨[⟨some "Cabo", 2, CFloat.decimal 55 10, 15⟩], 5⟩ }

/-- The order that `criar_ordem` appends to `ordensExemplo` on `entradaCriar`. -/
def ordemOnze : Ordem :=
  { residuoExemplo with
    idOrdem := 11, idAtivo := 11, idDepartamento := 4, estado := PENDENTE, prioridade := 3,
    tipo_manutencao := 2 }

/-- The asset store `ativosExemplo` after that call. -/
def ativosAposCriar : Ativos :=
  ⟨[ativoDe 10 EM_MANUTENCAO 3, ativoDe 11 EM_MANUTENCAO 4, ativoDe 12 ABATIDO 4], 0, 5⟩

/-- The order store `ordensExemplo` after that call. -/
def ordensAposCriar : Ordens := ⟨[ordemExec 10, ordemOnze], 2, 5⟩

/-- The caller selects order 11, enters technician 12, one material, answers 1
and presses Enter. -/
def entradaAvancar : List Linha :=
  [Linha.inteiro 11, Linha.inteiro 12, Linha.palavras "Cabo",
   Linha.real (CFloat.decimal 55 10) "5.5", Linha.inteiro 2, Linha.inteiro 1, Linha.palavras ""]

/-- The stores once order 11 is in execution. -/
def sistemaDois : Sistema :=
  ⟨⟨[ordemExec 10,
      ({ ordemOnze with idTecnico := 12, estado := EXECUCAO }).comInicio
        (carimbo (some tmExemplo))], 2, 5⟩,
   tecnicosExemplo, ativosAposCriar, ⟨[⟨some "Cabo", 2, CFloat.decimal 55 10, 11⟩], 5⟩⟩

/-- The caller selects order 11, chooses 1 (cancel) and presses Enter. -/
def entradaDesistir : List Linha := [Linha.inteiro 11, Linha.inteiro 1, Linha.palavras ""]

/-- The stores once order 11 is cancelled (`localtime` returned `NULL`). -/
def sistemaTres : Sistema :=
  ⟨⟨[ordemExec 10,
      ({ ({ ordemOnze with idTecnico := 12, estado := EXECUCAO }).comInicio
          (carimbo (some tmExemplo)) with estado := CANCELADA }).comFim (carimbo none)], 2, 5⟩,
   tecnicosExemplo, ativosExemplo, ⟨[⟨some "Cabo", 2, CFloat.decimal 55 10, 11⟩], 5⟩⟩

/-- Departments 3 and 4 of the running example and a department without orders. -/
def departamentosExemplo : Departamentos :=
  ⟨[⟨3, some "Obras", some "Ana Sousa", some "912345678", ATIVO⟩,
    ⟨4, some "Informatica", some "Rui Lopes", some "rui@cm.pt", ATIVO⟩,
    ⟨5, none, none, none, INATIVO⟩], 2, 5⟩

/-- Two orders of low priority for department 3 and one of high priority for
department 4. -/
def ordensUrgencia : Ordens :=
  ⟨[{ ordemZero with idOrdem := 10, idDepartamento := 3, prioridade := BAIXA },
    { ordemZero with idOrdem := 11, idDepartamento := 4, prioridade := ALTA },
    { ordemZero with idOrdem := 12, idDepartamento := 3, prioridade := BAIXA }], 3, 5⟩

/-- Asset 10 twice in "Sala 1", asset 11 without location and with an empty
location, and asset 12, which has no orders, in "Armazem". -/
def ativosLocais : Ativos :=
  ⟨[ativoDe 10 EM_MANUTENCAO 3, { ativoDe 11 EM_MANUTENCAO 4 with localizacao := none },
    { ativoDe 12 ABATIDO 4 with localizacao := some "Armazem" },
    { ativoDe 11 OPERACIONAL 4 with localizacao := some "" }, ativoDe 10 OPERACIONAL 3], 2, 5⟩

/-- Two orders, both concluded by technician 12. -/
def ordensRanking : Ordens :=
  ⟨[{ ordemExec 20 with idTecnico := 12, estado := CONCLUIDA, anoFim := 2024 },
    { ordemExec 21 with idTecnico := 12, estado := CONCLUIDA, anoFim := 2024 }], 2, 5⟩

/-- One Concluded order, started 2024-01-01 10:00:00 and ended 10:05:30. -/
def ordensCincoMinutos : Ordens :=
  ⟨[⟨20, 10, 1, 10, CONCLUIDA, MEDIA, CORRETIVA, 1, 1, 2024, 10, 0, 0, 1, 1, 2024, 10, 5, 30⟩],
   0, 5⟩

/-- One Concluded order, started 1969-12-31 23:59:59 and ended 1970-01-01 00:00:09. -/
def ordensVespera : Ordens :=
  ⟨[⟨20, 10, 1, 10, CONCLUIDA, MEDIA, CORRETIVA, 31, 12, 1969, 23, 59, 59, 1, 1, 1970, 0, 0, 9⟩],
   0, 5⟩

/-- A store with one order: asset 11 of department 4, technician 12, corrective. -/
def ordensGravadas : Ordens :=
  ⟨[⟨15, 11, 4, 12, EXECUCAO, ALTA, CORRETIVA, 3, 5, 2024, 9, 30, 0, 0, 0, 0, 0, 0, 0⟩], 1, 5⟩

/-- A store with one material: 3 units of "cabo" at 10.0 each, for order 15. -/
def materiaisGravados : Materiais :=
  ⟨[⟨some "cabo", 3, CFloat.decimal 100 10, 15⟩], 5⟩

/-- A slot of zeroed heap memory for an asset. -/
def residuoAtivo : Ativo :=
  ⟨0, none, 0, none, 0, 0, 0, 0, 0, 0, 0, 0, CFloat.zero, CFloat.zero, 0⟩

/-- The caller enters a designation, category 2, cost 900, department 4, a
location, and presses Enter. -/
def entradaCriarAtivo : List Linha :=
  [Linha.palavras "Portatil", Linha.inteiro 2, Linha.inteiro 900, Linha.inteiro 4,
   Linha.palavras "Sala 1", Linha.palavras ""]

/-- The asset that `criar_ativo` creates on `entradaCriarAtivo` at `tmExemplo`. -/
def ativoCriado : Ativo :=
  ⟨10, some "Portatil", 2, some "Sala 1", 5, 3, 2024, 0, 0, 0, OPERACIONAL, 0, CFloat.zero,
   CFloat.ofInt 900, 4⟩

/-- A store with one asset, decommissioned on 5/3/2024 after two corrective
maintenances. -/
def ativosGravados : Ativos :=
  ⟨[{ ativoCriado with estado := ABATIDO, diaAbate := 5, mesAbate := 3, anoAbate := 2024,
                       contagemManutencoesCorretivas := 2 }], 0, 5⟩

/-- A slot of zeroed heap memory for a department. -/
def residuoDepartamento : Departamento := ⟨0, none, none, none, 0⟩

/-- Two departments: the first with an empty responsible name and no contact,
the second inactive. -/
def departamentosGravados : Departamentos :=
  ⟨[⟨10, some "Obras", some "", none, ATIVO⟩,
    ⟨11, some "Cultura", some "Rui Lopes", some "rui@cm.pt", INATIVO⟩], 1, 5⟩

/-- The caller enters a name, a responsible, chooses a phone number and enters
nine digits. -/
def entradaCriarDepartamento : List Linha :=
  [Linha.palavras "Obras", Linha.palavras "Ana Sousa", Linha.inteiro 1,
   Linha.inteiro 912345678]

/-- The caller selects department 10, the field 1 (name), enters "ab" and
presses Enter. -/
def entradaNomeCurto : List Linha :=
  [Linha.inteiro 10, Linha.inteiro 1, Linha.palavras "ab", Linha.palavras ""]

/-- The caller selects department 11, the field 1 (name), enters "ab", then
"Turismo", and presses Enter. -/
def entradaNomeUltimo : List Linha :=
  [Linha.inteiro 11, Linha.inteiro 1, Linha.palavras "ab", Linha.palavras "Turismo",
   Linha.palavras ""]

/-- The caller selects order 15, technician 12, enters a first material, answers
1 (yes) to "add another material?", and goes on with a second material and the
answer 2 (no). -/
def entradaSimNao : List Linha :=
  [Linha.inteiro 15, Linha.inteiro 12,
   Linha.palavras "Cabo", Linha.real (CFloat.decimal 55 10) "5.5", Linha.inteiro 2,
   Linha.inteiro 1,
   Linha.palavras "Fita", Linha.real (CFloat.decimal 25 10) "2.5", Linha.inteiro 1,
   Linha.inteiro 2, Linha.palavras ""]

/-- The caller selects order 15, technician 12, enters a first material, answers
2 (no) to "add another material?", is asked for a second material, answers 1
(yes), and presses Enter. -/
def entradaNaoSim : List Linha :=
  [Linha.inteiro 15, Linha.inteiro 12,
   Linha.palavras "Cabo", Linha.real (CFloat.decimal 55 10) "5.5", Linha.inteiro 2,
   Linha.inteiro 2,
   Linha.palavras "Fita", Linha.real (CFloat.decimal 25 10) "2.5", Linha.inteiro 1,
   Linha.inteiro 1, Linha.palavras ""]

/-- The running example with technician 12, who holds order 16, deactivated. -/
def sistemaInativo : Sistema :=
  { sistemaExemplo with
    tecnicos := ⟨[tecnicoDez, ⟨11, some "Rui", 2, INATIVO1, 0⟩,
                  ⟨12, some "Eva", 3, INATIVO1, 16⟩], 2, 5⟩ }

/-- The stores `sistemaInativo` once order 16 is concluded at `tmExemplo`. -/
def sistemaReativado : Sistema :=
  { ordens := { ordensSistema with
      ordem := ordensSistema.ordem.set 6
        { ordemExec 16 with
          idAtivo := 11, idTecnico := 12, estado := CONCLUIDA,
          diaFim := 5, mesFim := 3, anoFim := 2024, horaFim := 14, minFim := 30,
          segFim := 5 } }
    tecnicos := ⟨[tecnicoDez, ⟨11, some "Rui", 2, INATIVO1, 0⟩,
                  ⟨12, some "Eva", 3, ATIVO1, 16⟩], 2, 5⟩
    ativos := { ativosSistema with
      ativo := ativosSistema.ativo.set 1 (ativoDe 11 OPERACIONAL 4)
      ativosDisponiveis := 1 }
    materiais := ⟨[], 0⟩ }

/-! ## Lookups: what the scans return -/

theorem procurar_ordens_id_desde_eq (idProcurado : Int) (l : List Ordem) (i : Int) :
    procurar_ordens_id_desde idProcurado l i =
      indiceDesde (fun o => decide (o.idOrdem = idProcurado ∧
        (o.estado = PENDENTE ∨ o.estado = EXECUCAO))) l i := by
  induction l generalizing i with
  | nil => rfl
  | cons o resto ih => simp [procurar_ordens_id_desde, indiceDesde, ih]

theorem procurar_ativo_id_desde_eq (idProcurado : Int) (l : List Ativo) (i : Int) :
    procurar_ativo_id_desde idProcurado l i =
      indiceDesde (fun a => decide (a.id = idProcurado ∧ a.estado ≠ ABATIDO)) l i := by
  induction l generalizing i with
  | nil => rfl
  | cons a resto ih => simp [procurar_ativo_id_desde, indiceDesde, ih]

theorem procurar_tecnico_id_desde_eq (idProcurado : Int) (l : List Tecnico) (i : Int) :
    procurar_tecnico_id_desde idProcurado l i =
      indiceDesde (fun t => decide (t.idTecnico = idProcurado)) l i := by
  induction l generalizing i with
  | nil => rfl
  | cons t resto ih => simp [procurar_tecnico_id_desde, indiceDesde, ih]

/-- A scan started at a non-negative index misses exactly when no element satisfies `p`. -/
theorem indiceDesde_eq_neg_one {α : Type} (p : α → Bool) (l : List α) (i : Int) (hi : 0 ≤ i) :
    indiceDesde p l i = -1 ↔ ∀ x ∈ l, p x = false := by
  induction l generalizing i with
  | nil => simp [indiceDesde]
  | cons x resto ih =>
    by_cases hx : p x = true
    · simp [indiceDesde, hx]; omega
    · have hx1 : p x = false := by simpa using hx
      simp [indiceDesde, hx1, ih (i + 1) (by omega)]

/-- A hit of the scan is the first element satisfying `p`. -/
theorem indiceDesde_hit {α : Type} (p : α → Bool) (l : List α) (i : Int) (hi : 0 ≤ i)
    (h : indiceDesde p l i ≠ -1) :
    i ≤ indiceDesde p l i ∧
    ∃ x, l[(indiceDesde p l i - i).toNat]? = some x ∧ p x = true ∧
      ∀ j, j < (indiceDesde p l i - i).toNat → ∀ y, l[j]? = some y → p y = false := by
  induction l generalizing i with
  | nil => simp [indiceDesde] at h
  | cons x resto ih =>
    by_cases hx : p x = true
    · simp [indiceDesde, hx]
    · have hx1 : p x = false := by simpa using hx
      simp only [indiceDesde, hx1] at h ⊢
      obtain ⟨h1, y, h2, h3, h4⟩ := ih (i + 1) (by omega) (by simpa using h)
      have e : (indiceDesde p resto (i + 1) - i).toNat
          = (indiceDesde p resto (i + 1) - (i + 1)).toNat + 1 := by omega
      refine ⟨by simp; omega, y, ?_, h3, ?_⟩
      · simp only [Bool.false_eq_true, if_false]
        rw [e]; simpa using h2
      · simp only [Bool.false_eq_true, if_false]
        rw [e]
        intro j hj z hz
        cases j with
        | zero => simp at hz; subst hz; exact hx1
        | succ k => exact h4 k (by omega) z (by simpa using hz)

/-! ## Counting the orders in execution of a technician -/

theorem numeroManutencoes_foldl (idTecnico : Int) (l : List Ordem) (numero : Int) :
    l.foldl
      (fun numero o =>
        if o.estado = EXECUCAO then
          if o.idTecnico = idTecnico then numero + 1 else numero
        else numero) numero = numero + (emExecucaoDe idTecnico l : Int) := by
  induction l generalizing numero with
  | nil => simp [emExecucaoDe]
  | cons o resto ih =>
    simp only [List.foldl_cons, ih]
    by_cases h1 : o.estado = EXECUCAO <;> by_cases h2 : o.idTecnico = idTecnico <;>
      simp [emExecucaoDe, List.countP_cons, h1, h2, add_assoc, add_comm]

theorem numeroManutencoesTecnico_eq (tecnico : Tecnico) (ordens : Ordens) :
    numeroManutencoesTecnico tecnico ordens = (emExecucaoDe tecnico.idTecnico ordens.ordem : Int) := by
  simp [numeroManutencoesTecnico, numeroManutencoes_foldl]

/-- C10: `mostrarTaxaOcupacaoTecnico` returns `100 * (n div 5)`, where `n` is the
number of orders in state `EXECUCAO` whose technician identifier is the
technician's and `div` is the division of natural numbers (which is the
truncating division there); the result is `0` when `n = 4` and `100` when
`n = 5`. -/
theorem mostrarTaxaOcupacaoTecnico_spec (tecnico : Tecnico) (ordens : Ordens) :
    mostrarTaxaOcupacaoTecnico tecnico ordens
        = 100 * ((emExecucaoDe tecnico.idTecnico ordens.ordem / 5 : Nat) : Int) ∧
    (emExecucaoDe tecnico.idTecnico ordens.ordem = 4 →
        mostrarTaxaOcupacaoTecnico tecnico ordens = 0) ∧
    (emExecucaoDe tecnico.idTecnico ordens.ordem = 5 →
        mostrarTaxaOcupacaoTecnico tecnico ordens = 100) := by
  have h : mostrarTaxaOcupacaoTecnico tecnico ordens
      = 100 * ((emExecucaoDe tecnico.idTecnico ordens.ordem / 5 : Nat) : Int) := by
    simp only [mostrarTaxaOcupacaoTecnico, numeroManutencoesTecnico_eq]
    rw [Int.tdiv_eq_ediv (Int.ofNat_nonneg _) (by decide)]
    push_cast
    ring
  refine ⟨h, ?_, ?_⟩
  · intro h4; rw [h, h4]; decide
  · intro h5; rw [h, h5]; decide

/-- Witness of C10: four orders in execution give rate `0`, five give `100`. -/
theorem mostrarTaxaOcupacaoTecnico_spec_witness :
    emExecucaoDe tecnicoDez.idTecnico quatroEmExecucao.ordem = 4 ∧
    mostrarTaxaOcupacaoTecnico tecnicoDez quatroEmExecucao = 0 ∧
    emExecucaoDe tecnicoDez.idTecnico cincoEmExecucao.ordem = 5 ∧
    mostrarTaxaOcupacaoTecnico tecnicoDez cincoEmExecucao = 100 :=
  ⟨by decide,
   (mostrarTaxaOcupacaoTecnico_spec tecnicoDez quatroEmExecucao).2.1 (by decide),
   by decide,
   (mostrarTaxaOcupacaoTecnico_spec tecnicoDez cincoEmExecucao).2.2 (by decide)⟩

/-! ## Cost of an order -/

theorem calcularCustos_foldl (idOrdem : Int) (l : List Material) (total : CFloat) :
    l.foldl
      (fun total m =>
        if m.OrdemAssociada = idOrdem then
          CFloat.add total (CFloat.mul m.custoUnitario (CFloat.ofInt m.quantidade))
        else total) total
      = ((l.filter (fun m => decide (m.OrdemAssociada = idOrdem))).map
          (fun m => CFloat.mul m.custoUnitario (CFloat.ofInt m.quantidade))).foldl
            CFloat.add total := by
  induction l generalizing total with
  | nil => rfl
  | cons m resto ih =>
    by_cases h : m.OrdemAssociada = idOrdem <;> simp [List.filter_cons, h, ih]

/-- C9: `calcularCustos` returns the single precision sum, taken in store
order from `0`, of unit cost times quantity over exactly the materials whose
associated-order identifier is the order's identifier; it is `0` when no material
matches; and for an order whose materials are (unit 10.0, quantity 3) and
(unit 5.5, quantity 2) the result is `41.0`, also with a material of another
order stored between them. -/
theorem calcularCustos_spec (o : Ordem) (ms : Materiais) :
    calcularCustos (some o) (some ms)
      = ((ms.material.filter (fun m => decide (m.OrdemAssociada = o.idOrdem))).map
          (fun m => CFloat.mul m.custoUnitario (CFloat.ofInt m.quantidade))).foldl
            CFloat.add CFloat.zero ∧
    ((∀ m ∈ ms.material, m.OrdemAssociada ≠ o.idOrdem) →
      calcularCustos (some o) (some ms) = CFloat.zero) ∧
    (∀ (n1 n2 : Option String) (capacidade : Int),
      calcularCustos (some o)
        (some ⟨[⟨n1, 3, CFloat.decimal 100 10, o.idOrdem⟩,
                ⟨n2, 2, CFloat.decimal 55 10, o.idOrdem⟩], capacidade⟩)
        = CFloat.decimal 410 10) ∧
    (∀ (n1 n2 n3 : Option String) (outra capacidade : Int), outra ≠ o.idOrdem →
      calcularCustos (some o)
        (some ⟨[⟨n1, 3, CFloat.decimal 100 10, o.idOrdem⟩,
                ⟨n3, 7, CFloat.decimal 25 10, outra⟩,
                ⟨n2, 2, CFloat.decimal 55 10, o.idOrdem⟩], capacidade⟩)
        = CFloat.decimal 410 10) := by
  have h : calcularCustos (some o) (some ms)
      = ((ms.material.filter (fun m => decide (m.OrdemAssociada = o.idOrdem))).map
          (fun m => CFloat.mul m.custoUnitario (CFloat.ofInt m.quantidade))).foldl
            CFloat.add CFloat.zero := by
    unfold calcularCustos
    simp only [calcularCustos_foldl]
    split
    · rename_i h0
      have : ms.material = [] := by
        simpa [Materiais.contador] using h0
      simp [this]
    · rfl
  refine ⟨h, ?_, ?_, ?_⟩
  · intro hn
    rw [h]
    have : ms.material.filter (fun m => decide (m.OrdemAssociada = o.idOrdem)) = [] := by
      simp only [List.filter_eq_nil_iff]
      intro m hm
      simpa using hn m hm
    simp [this]
  · intro n1 n2 capacidade
    simp only [calcularCustos, calcularCustos_foldl, Materiais.contador]
    simp [List.filter_cons]
    decide
  · intro n1 n2 n3 outra capacidade hne
    simp only [calcularCustos, calcularCustos_foldl, Materiais.contador]
    simp [List.filter_cons, hne]
    decide

/-- Witness of C9: the order of the example with a material of order 11 in between. -/
theorem calcularCustos_spec_witness :
    calcularCustos (some (ordemExec 10))
        (some ⟨[⟨some "cabo", 3, CFloat.decimal 100 10, 10⟩,
                ⟨some "tinta", 7, CFloat.decimal 25 10, 11⟩,
                ⟨some "fita", 2, CFloat.decimal 55 10, 10⟩], 5⟩)
      = CFloat.decimal 410 10 ∧
    calcularCustos (some (ordemExec 12))
        (some ⟨[⟨some "cabo", 3, CFloat.decimal 100 10, 10⟩], 5⟩) = CFloat.zero :=
  ⟨(calcularCustos_spec (ordemExec 10) ⟨[], 0⟩).2.2.2 (some "cabo") (some "fita") (some "tinta")
      11 5 (by decide),
   (calcularCustos_spec (ordemExec 12) ⟨[⟨some "cabo", 3, CFloat.decimal 100 10, 10⟩], 5⟩).2.1
      (by decide)⟩

/-! ## Input readers -/

theorem obterIntIntervalado_some (minValor maxValor : Int) (l : List Linha) (valor : Int)
    (resto : List Linha) (h : obterIntIntervalado minValor maxValor l = some (valor, resto)) :
    minValor ≤ valor ∧ valor ≤ maxValor ∧ resto.length < l.length := by
  induction l with
  | nil => simp [obterIntIntervalado] at h
  | cons x xs ih =>
    unfold obterIntIntervalado at h
    split at h
    · split at h
      · obtain ⟨h1, h2, h3⟩ := ih h
        exact ⟨h1, h2, by simp; omega⟩
      · rename_i hr
        simp only [Option.some.injEq, Prod.mk.injEq] at h
        obtain ⟨rfl, rfl⟩ := h
        exact ⟨by omega, by omega, by simp⟩
    · obtain ⟨h1, h2, h3⟩ := ih h
      exact ⟨h1, h2, by simp; omega⟩

/-- A line holding an integer in range at the head of the input is what
`obterIntIntervalado` delivers. -/
theorem obterIntIntervalado_head (minValor maxValor valor : Int) (l : Linha) (resto : List Linha)
    (hl : l.comoInt = some valor) (h1 : minValor ≤ valor) (h2 : valor ≤ maxValor) :
    obterIntIntervalado minValor maxValor (l :: resto) = some (valor, resto) := by
  have : ¬ (valor < minValor ∨ valor > maxValor) := by omega
  simp [obterIntIntervalado, hl, this]

/-! ## `criar_ordem` -/

theorem alterar_some {α : Type} (v : List α) (i : Int) (f : α → α) (x : α)
    (h : v[i.toNat]? = some x) : alterar v i f = v.set i.toNat (f x) := by
  simp [alterar, h]

/-- The array assignment changes the slot `i` and no other slot. -/
theorem alterar_getElem? {α : Type} (v : List α) (i : Int) (f : α → α) (j : Nat) :
    (alterar v i f)[j]? = if j = i.toNat then (v[j]?).map f else v[j]? := by
  unfold alterar
  cases h : v[i.toNat]? with
  | none =>
    by_cases hj : j = i.toNat
    · subst hj; simp [h]
    · simp [hj]
  | some x =>
    have hlt : i.toNat < v.length := by
      rcases List.getElem?_eq_some_iff.mp h with ⟨hl, _⟩
      exact hl
    by_cases hj : j = i.toNat
    · subst hj; simp [List.getElem?_set, hlt, h]
    · have hj1 : ¬ i.toNat = j := fun e => hj e.symm
      simp [List.getElem?_set, hj, hj1]

theorem procurar_ativo_id_hit (ativos : Ativos) (idProcurado : Int)
    (h : procurar_ativo_id ativos idProcurado ≠ -1) :
    0 ≤ procurar_ativo_id ativos idProcurado ∧
    ∃ a, ativos.ativo[(procurar_ativo_id ativos idProcurado).toNat]? = some a ∧
      a.id = idProcurado ∧ a.estado ≠ ABATIDO := by
  unfold procurar_ativo_id at h ⊢
  rw [procurar_ativo_id_desde_eq] at h ⊢
  obtain ⟨h1, x, h2, h3, _⟩ := indiceDesde_hit _ _ 0 le_rfl h
  exact ⟨h1, x, by simpa using h2, by simpa using h3⟩

theorem garantir_capacidade_ordens_ordem (ordens ordens1 : Ordens) (minCap : Int)
    (heap heap1 : List Bool) (b : Bool)
    (h : garantir_capacidade_ordens ordens minCap heap = (b, ordens1, heap1)) :
    ordens1.ordem = ordens.ordem ∧ ordens1.ordensAtivas = ordens.ordensAtivas := by
  unfold garantir_capacidade_ordens at h
  split at h
  · simp only [Prod.mk.injEq] at h
    obtain ⟨_, rfl, _⟩ := h
    exact ⟨rfl, rfl⟩
  · split at h <;>
      (simp only [Prod.mk.injEq] at h
       obtain ⟨_, rfl, _⟩ := h
       exact ⟨rfl, rfl⟩)

/-- What the asset loop of `criar_ordem` delivers: the index to which an entered
identifier in `[0, 999999]` resolves, of an asset in state `OPERACIONAL`. -/
theorem criar_ordem_laco_some (ativos : Ativos) (fuel : Nat) (entrada e1 : List Linha)
    (idEncontrado : Int)
    (h : criar_ordem_laco ativos fuel entrada = some (idEncontrado, e1)) :
    0 ≤ idEncontrado ∧
    ∃ A, ativos.ativo[idEncontrado.toNat]? = some A ∧ A.estado = OPERACIONAL ∧
      0 ≤ A.id ∧ A.id ≤ 999999 ∧ procurar_ativo_id ativos A.id = idEncontrado := by
  induction fuel generalizing entrada with
  | zero => simp [criar_ordem_laco] at h
  | succ n ih =>
    unfold criar_ordem_laco at h
    split at h
    · exact absurd h (by simp)
    · rename_i idProcurado resto hler
      obtain ⟨hr1, hr2, _⟩ := obterIntIntervalado_some _ _ _ _ _ hler
      simp only at h
      split at h
      · exact ih _ h
      · rename_i hne
        obtain ⟨h0, a, ha, hid, _⟩ := procurar_ativo_id_hit ativos idProcurado hne
        rw [ha] at h
        simp only at h
        split at h
        · exact ih _ h
        · rename_i hop
          simp only [Option.some.injEq, Prod.mk.injEq] at h
          obtain ⟨rfl, rfl⟩ := h
          refine ⟨h0, a, ha, by simpa using hop, ?_, ?_, ?_⟩ <;> simp [hid, hr1, hr2]

/-- C1: when `criar_ordem` has room for one more order, the availability counter
is not `0`, and its asset loop accepts an identifier, which then resolves to an
asset `A` in state `OPERACIONAL`, the call returns once the priority, the
maintenance type and the final key press are read: it has appended exactly one
order, in state `PENDENTE`, with `A`'s identifier and department and the
priority and type read from the caller; `A` is now `EM_MANUTENCAO`,
`ativosDisponiveis` is one less, and all other assets and all orders that
were there are as before. -/
theorem criar_ordem_spec (residuo : Ordem) (ativos : Ativos) (ordens ordens1 : Ordens)
    (w : Mundo) (heap1 : List Bool) (idEncontrado prioridade tipo : Int)
    (e1 e2 e3 e4 : List Linha)
    (hcap : garantir_capacidade_ordens ordens (ordens.contador + 1) w.heap
      = (true, ordens1, heap1))
    (hdisp : ativos.ativosDisponiveis ≠ 0)
    (hlaco : criar_ordem_laco ativos w.entrada.length w.entrada = some (idEncontrado, e1))
    (hp : obterIntIntervalado 1 3 e1 = some (prioridade, e2))
    (ht : obterIntIntervalado 1 2 e2 = some (tipo, e3))
    (hpausa : pausar_ecra e3 = some e4) :
    ∃ (A : Ativo) (nova : Ordem) (ativos2 : Ativos) (ordens2 : Ordens),
      criar_ordem residuo ativos ordens w = some (ativos2, ordens2, ⟨e4, heap1⟩) ∧
      0 ≤ idEncontrado ∧ ativos.ativo[idEncontrado.toNat]? = some A ∧
      procurar_ativo_id ativos A.id = idEncontrado ∧ A.estado = OPERACIONAL ∧
      ordens2.ordem = ordens.ordem ++ [nova] ∧
      nova.idOrdem = gerarProximoID ordens ∧
      nova.estado = PENDENTE ∧ nova.idAtivo = A.id ∧
      nova.idDepartamento = A.idDepartamentoAssociado ∧
      nova.prioridade = prioridade ∧ nova.tipo_manutencao = tipo ∧
      ativos2.ativo = ativos.ativo.set idEncontrado.toNat { A with estado := EM_MANUTENCAO } ∧
      ativos2.ativosDisponiveis = ativos.ativosDisponiveis - 1 := by
  obtain ⟨h0, A, hA, hop, _, _, hres⟩ := criar_ordem_laco_some _ _ _ _ _ hlaco
  obtain ⟨hord, _⟩ := garantir_capacidade_ordens_ordem _ _ _ _ _ _ hcap
  refine ⟨A, { residuo with
                idOrdem := gerarProximoID ordens1
                idAtivo := A.id
                idDepartamento := A.idDepartamentoAssociado
                estado := PENDENTE
                prioridade := prioridade
                tipo_manutencao := tipo },
    { ativos with
      ativo := alterar ativos.ativo idEncontrado (fun x => { x with estado := EM_MANUTENCAO })
      ativosDisponiveis := ativos.ativosDisponiveis - 1 },
    { ordens1 with
      ordem := ordens1.ordem ++ [{ residuo with
                idOrdem := gerarProximoID ordens1
                idAtivo := A.id
                idDepartamento := A.idDepartamentoAssociado
                estado := PENDENTE
                prioridade := prioridade
                tipo_manutencao := tipo }]
      ordensAtivas := ordens1.ordensAtivas + 1 }, ?_, h0, hA, hres, hop, ?_⟩
  · unfold criar_ordem
    simp only [hcap, hdisp, if_false, hlaco, hA, hp, ht, hpausa]
  · simp [hord, gerarProximoID, Ordens.contador, alterar_some _ _ _ _ hA]

/-- Witness of C1: asset 11 is accepted after a refused entry. -/
theorem criar_ordem_spec_witness :
    ∃ (A : Ativo) (nova : Ordem) (ativos2 : Ativos) (ordens2 : Ordens),
      criar_ordem residuoExemplo ativosExemplo ordensExemplo ⟨entradaCriar, []⟩
        = some (ativos2, ordens2, ⟨[], []⟩) ∧
      0 ≤ (1 : Int) ∧ ativosExemplo.ativo[(1 : Int).toNat]? = some A ∧
      procurar_ativo_id ativosExemplo A.id = 1 ∧ A.estado = OPERACIONAL ∧
      ordens2.ordem = ordensExemplo.ordem ++ [nova] ∧
      nova.idOrdem = gerarProximoID ordensExemplo ∧
      nova.estado = PENDENTE ∧ nova.idAtivo = A.id ∧
      nova.idDepartamento = A.idDepartamentoAssociado ∧
      nova.prioridade = 3 ∧ nova.tipo_manutencao = 2 ∧
      ativos2.ativo = ativosExemplo.ativo.set (1 : Int).toNat { A with estado := EM_MANUTENCAO } ∧
      ativos2.ativosDisponiveis = ativosExemplo.ativosDisponiveis - 1 :=
  criar_ordem_spec residuoExemplo ativosExemplo ordensExemplo ordensExemplo
    ⟨entradaCriar, []⟩ [] 1 3 2
    [Linha.inteiro 7, Linha.inteiro 3, Linha.inteiro 2, Linha.palavras ""]
    [Linha.inteiro 2, Linha.palavras ""] [Linha.palavras ""] []
    (by decide) (by decide) (by decide) (by decide) (by decide) (by decide)

/-! ## `gerir_ordem`: the technician loop -/

theorem procurar_ordens_id_hit (ordens : Ordens) (idProcurado : Int)
    (h : procurar_ordens_id ordens idProcurado ≠ -1) :
    0 ≤ procurar_ordens_id ordens idProcurado ∧
    ∃ o, ordens.ordem[(procurar_ordens_id ordens idProcurado).toNat]? = some o ∧
      o.idOrdem = idProcurado ∧ (o.estado = PENDENTE ∨ o.estado = EXECUCAO) := by
  unfold procurar_ordens_id at h ⊢
  rw [procurar_ordens_id_desde_eq] at h ⊢
  obtain ⟨h1, x, h2, h3, _⟩ := indiceDesde_hit _ _ 0 le_rfl h
  exact ⟨h1, x, by simpa using h2, by simpa using h3⟩

theorem procurar_tecnico_id_hit (tecnicos : Tecnicos) (idProcurado : Int)
    (h : procurar_tecnico_id tecnicos idProcurado ≠ -1) :
    0 ≤ procurar_tecnico_id tecnicos idProcurado ∧
    ∃ t, tecnicos.tecnico[(procurar_tecnico_id tecnicos idProcurado).toNat]? = some t ∧
      t.idTecnico = idProcurado := by
  unfold procurar_tecnico_id at h ⊢
  rw [procurar_tecnico_id_desde_eq] at h ⊢
  obtain ⟨h1, x, h2, h3, _⟩ := indiceDesde_hit _ _ 0 le_rfl h
  exact ⟨h1, x, by simpa using h2, by simpa using h3⟩

/-- Replacing one element changes a count by what the old and the new element contribute. -/
theorem countP_set {α : Type} (p : α → Bool) (l : List α) (i : Nat) (x y : α)
    (h : l[i]? = some x) :
    (l.set i y).countP p + (if p x then 1 else 0) = l.countP p + (if p y then 1 else 0) := by
  induction l generalizing i with
  | nil => simp at h
  | cons z zs ih =>
    cases i with
    | zero =>
      simp only [List.getElem?_cons_zero, Option.some.injEq] at h
      subst h
      simp only [List.set_cons_zero, List.countP_cons]
      omega
    | succ k =>
      have hk : zs[k]? = some x := by simpa using h
      have := ih k hk
      simp only [List.set_cons_succ, List.countP_cons]
      omega

/-- Writing a technician identifier to an order that is not in execution
changes no technician's number of orders in execution. -/
theorem emExecucaoDe_set_idTecnico (l : List Ordem) (i : Nat) (atual : Ordem) (valor t : Int)
    (h : l[i]? = some atual) (hp : atual.estado ≠ EXECUCAO) :
    emExecucaoDe t (l.set i { atual with idTecnico := valor }) = emExecucaoDe t l := by
  have := countP_set (fun o => decide (o.estado = EXECUCAO ∧ o.idTecnico = t)) l i atual
    { atual with idTecnico := valor } h
  simp only [hp, false_and, decide_False, Bool.false_eq_true, if_false, add_zero] at this
  exact this

/-- What the technician loop delivers: the order store with an identifier
written to the selected order; the identifier was delivered by
`obterIntIntervalado`, it resolves to a technician who is not `INATIVO1`, and
fewer than 5 orders in execution carry it. -/
theorem gerir_ordem_laco_tecnico_some (tecnicos : Tecnicos) (maxIdTecnicos idEncontrado : Int)
    (fuel : Nat) (ordens ordens1 : Ordens) (entrada e2 : List Linha) (atual : Ordem)
    (hat : ordens.ordem[idEncontrado.toNat]? = some atual) (hp : atual.estado ≠ EXECUCAO)
    (h : gerir_ordem_laco_tecnico tecnicos maxIdTecnicos idEncontrado fuel ordens entrada
      = some (ordens1, e2)) :
    ∃ valor t, 0 ≤ valor ∧ valor ≤ maxIdTecnicos ∧
      procurar_tecnico_id tecnicos valor ≠ -1 ∧
      tecnicos.tecnico[(procurar_tecnico_id tecnicos valor).toNat]? = some t ∧
      t.idTecnico = valor ∧ t.estado_tecnico ≠ INATIVO1 ∧
      emExecucaoDe valor ordens.ordem < 5 ∧
      ordens1 = { ordens with
        ordem := ordens.ordem.set idEncontrado.toNat { atual with idTecnico := valor } } ∧
      e2.length < entrada.length := by
  induction fuel generalizing ordens entrada atual with
  | zero => simp [gerir_ordem_laco_tecnico] at h
  | succ n ih =>
    unfold gerir_ordem_laco_tecnico at h
    split at h
    · exact absurd h (by simp)
    · rename_i valor resto hler
      obtain ⟨hr1, hr2, hr3⟩ := obterIntIntervalado_some _ _ _ _ _ hler
      simp only [alterar_some _ _ _ _ hat] at h
      -- the store after the assignment to `idTecnico`
      have hat1 : (ordens.ordem.set idEncontrado.toNat { atual with idTecnico := valor })[
          idEncontrado.toNat]? = some { atual with idTecnico := valor } := by
        have hlt : idEncontrado.toNat < ordens.ordem.length := by
          rcases List.getElem?_eq_some_iff.mp hat with ⟨hl, _⟩
          exact hl
        simp [List.getElem?_set, hlt]
      have again : gerir_ordem_laco_tecnico tecnicos maxIdTecnicos idEncontrado n
            { ordens with
              ordem := ordens.ordem.set idEncontrado.toNat { atual with idTecnico := valor } }
            resto = some (ordens1, e2) →
          ∃ valor t, 0 ≤ valor ∧ valor ≤ maxIdTecnicos ∧
            procurar_tecnico_id tecnicos valor ≠ -1 ∧
            tecnicos.tecnico[(procurar_tecnico_id tecnicos valor).toNat]? = some t ∧
            t.idTecnico = valor ∧ t.estado_tecnico ≠ INATIVO1 ∧
            emExecucaoDe valor ordens.ordem < 5 ∧
            ordens1 = { ordens with
              ordem := ordens.ordem.set idEncontrado.toNat { atual with idTecnico := valor } } ∧
            e2.length < entrada.length := by
        intro h1
        obtain ⟨v, t, a1, a2, a3, a4, a5, a6, a7, a8, a9⟩ :=
          ih _ _ { atual with idTecnico := valor } hat1 hp h1
        refine ⟨v, t, a1, a2, a3, a4, a5, a6, ?_, ?_, by omega⟩
        · rwa [emExecucaoDe_set_idTecnico _ _ _ _ _ hat hp] at a7
        · rw [a8]; simp [List.set_set]
      split at h
      · exact again h
      · rename_i hne
        obtain ⟨_, t, ht, hid⟩ := procurar_tecnico_id_hit tecnicos valor hne
        rw [ht] at h
        simp only at h
        split at h
        · exact again h
        · rename_i hina
          split at h
          · exact again h
          · rename_i hcinco
            simp only [Option.some.injEq, Prod.mk.injEq] at h
            obtain ⟨rfl, rfl⟩ := h
            refine ⟨valor, t, hr1, hr2, hne, ht, hid, hina, ?_, rfl, hr3⟩
            rw [numeroManutencoesTecnico_eq, hid] at hcinco
            simp only [emExecucaoDe_set_idTecnico _ _ _ _ _ hat hp] at hcinco
            omega

/-! ## `gerir_ordem`: the cases of a call that returns -/

/-- Every call of `gerir_ordem` that returns is of one of four kinds: the
identifier did not resolve and nothing changed; a pending order received an
accepted technician and went to `EXECUCAO`; an order in execution was
cancelled; an order in execution was concluded. -/
theorem gerir_ordem_casos (tmLocal : Option Tm) (s s1 : Sistema) (w w1 : Mundo)
    (h : gerir_ordem tmLocal s w = some (s1, w1)) :
    ∃ idProcurado e1,
      obterIntIntervalado 0 (obterMaiorIDOrdens s.ordens) w.entrada = some (idProcurado, e1) ∧
      ((procurar_ordens_id s.ordens idProcurado = -1 ∧ s1 = s) ∨
       ∃ atual, procurar_ordens_id s.ordens idProcurado ≠ -1 ∧
         s.ordens.ordem[(procurar_ordens_id s.ordens idProcurado).toNat]? = some atual ∧
         atual.idOrdem = idProcurado ∧
         ((atual.estado = PENDENTE ∧ ∃ valor t materiais1,
            0 ≤ valor ∧ valor ≤ obterMaiorIDTecnicos s.tecnicos ∧
            procurar_tecnico_id s.tecnicos valor ≠ -1 ∧
            s.tecnicos.tecnico[(procurar_tecnico_id s.tecnicos valor).toNat]? = some t ∧
            t.idTecnico = valor ∧ t.estado_tecnico ≠ INATIVO1 ∧
            emExecucaoDe valor s.ordens.ordem < 5 ∧
            s1 = { s with
              ordens := { s.ordens with
                ordem := s.ordens.ordem.set (procurar_ordens_id s.ordens idProcurado).toNat
                  (({ atual with idTecnico := valor, estado := EXECUCAO }).comInicio
                    (carimbo tmLocal)) }
              materiais := materiais1 }) ∨
          (atual.estado = EXECUCAO ∧
            s1 = { s with
              ordens := { s.ordens with
                ordem := s.ordens.ordem.set (procurar_ordens_id s.ordens idProcurado).toNat
                  (({ atual with estado := CANCELADA }).comFim (carimbo tmLocal)) }
              ativos :=
                if procurar_ativo_id s.ativos atual.idAtivo ≠ -1 then
                  { s.ativos with
                    ativo := alterar s.ativos.ativo (procurar_ativo_id s.ativos atual.idAtivo)
                      (fun a => { a with estado := OPERACIONAL })
                    ativosDisponiveis := s.ativos.ativosDisponiveis + 1 }
                else s.ativos }) ∨
          (atual.estado = EXECUCAO ∧
            s1 = { s with
              ordens := { s.ordens with
                ordem := s.ordens.ordem.set (procurar_ordens_id s.ordens idProcurado).toNat
                  (({ atual with estado := CONCLUIDA }).comFim (carimbo tmLocal)) }
              tecnicos :=
                if procurar_tecnico_id s.tecnicos atual.idTecnico ≠ -1 then
                  { s.tecnicos with
                    tecnico := alterar s.tecnicos.tecnico
                      (procurar_tecnico_id s.tecnicos atual.idTecnico)
                      (fun t => { t with estado_tecnico := ATIVO1 }) }
                else s.tecnicos
              ativos :=
                if procurar_ativo_id s.ativos atual.idAtivo ≠ -1 then
                  { s.ativos with
                    ativo := alterar s.ativos.ativo (procurar_ativo_id s.ativos atual.idAtivo)
                      (fun a => { a with estado := OPERACIONAL })
                    ativosDisponiveis := s.ativos.ativosDisponiveis + 1 }
                else s.ativos }))) := by
  unfold gerir_ordem at h
  simp only at h
  split at h
  · exact absurd h (by simp)
  · rename_i idProcurado e1 hler
    refine ⟨idProcurado, e1, hler, ?_⟩
    split at h
    · rename_i hnf
      left
      split at h
      · exact absurd h (by simp)
      · simp only [Option.some.injEq, Prod.mk.injEq] at h
        exact ⟨hnf, h.1.symm⟩
    · rename_i hne
      right
      obtain ⟨h0, atual, hat, hid, hest⟩ := procurar_ordens_id_hit s.ordens idProcurado hne
      refine ⟨atual, hne, hat, hid, ?_⟩
      rw [hat] at h
      simp only at h
      split at h
      · rename_i hpend
        left
        refine ⟨hpend, ?_⟩
        split at h
        · exact absurd h (by simp)
        · rename_i ordens1 e2 hlaco
          have hp : atual.estado ≠ EXECUCAO := by rw [hpend]; decide
          obtain ⟨valor, t, a1, a2, a3, a4, a5, a6, a7, a8, _⟩ :=
            gerir_ordem_laco_tecnico_some _ _ _ _ _ _ _ _ _ hat hp hlaco
          split at h
          · exact absurd h (by simp)
          · rename_i materiais1 w3 hmat
            split at h
            · exact absurd h (by simp)
            · simp only [Option.some.injEq, Prod.mk.injEq] at h
              refine ⟨valor, t, materiais1, a1, a2, a3, a4, a5, a6, a7, ?_⟩
              rw [← h.1, a8]
              have hlt : (procurar_ordens_id s.ordens idProcurado).toNat
                  < s.ordens.ordem.length := by
                rcases List.getElem?_eq_some_iff.mp hat with ⟨hl, _⟩
                exact hl
              simp [alterar, List.getElem?_set, hlt, List.set_set, Ordem.comInicio]
      · rename_i hnpend
        have hexec : atual.estado = EXECUCAO := by
          rcases hest with h1 | h1
          · exact absurd h1 hnpend
          · exact h1
        right
        simp only [hexec, if_true] at h
        split at h
        · exact absurd h (by simp)
        · rename_i escolha e2 hesc
          obtain ⟨c1, c2, _⟩ := obterIntIntervalado_some _ _ _ _ _ hesc
          split at h
          · left
            split at h
            · exact absurd h (by simp)
            · simp only [Option.some.injEq, Prod.mk.injEq] at h
              refine ⟨hexec, ?_⟩
              rw [← h.1]
              simp [alterar_some _ _ _ _ hat]
          · split at h
            · right
              split at h
              · exact absurd h (by simp)
              · simp only [Option.some.injEq, Prod.mk.injEq] at h
                refine ⟨hexec, ?_⟩
                rw [← h.1]
                simp [alterar_some _ _ _ _ hat]
            · omega

/-- C4: when the identifier given to `gerir_ordem` selects an order in state
`EXECUCAO` and the caller chooses 2 (conclude), the call returns after the key
press with: that order in state `CONCLUIDA` with the captured clock value in
its six end fields; the technician to whom the order's `idTecnico` resolves, if
any, in state `ATIVO1`; the asset to which the order's `idAtivo` resolves, if
any (a decommissioned asset does not resolve), in state `OPERACIONAL` and
`ativosDisponiveis` one more; everything else as before. -/
theorem gerir_ordem_concluir_spec (tmLocal : Option Tm) (s : Sistema) (w : Mundo)
    (idProcurado : Int) (e1 e2 e3 : List Linha) (atual : Ordem)
    (hid : obterIntIntervalado 0 (obterMaiorIDOrdens s.ordens) w.entrada
      = some (idProcurado, e1))
    (hne : procurar_ordens_id s.ordens idProcurado ≠ -1)
    (hat : s.ordens.ordem[(procurar_ordens_id s.ordens idProcurado).toNat]? = some atual)
    (hexec : atual.estado = EXECUCAO)
    (hesc : obterIntIntervalado 1 2 e1 = some (2, e2))
    (hpausa : pausar_ecra e2 = some e3) :
    gerir_ordem tmLocal s w = some (
      { ordens := { s.ordens with
          ordem := s.ordens.ordem.set (procurar_ordens_id s.ordens idProcurado).toNat
            (({ atual with estado := CONCLUIDA }).comFim (carimbo tmLocal)) }
        tecnicos :=
          if procurar_tecnico_id s.tecnicos atual.idTecnico ≠ -1 then
            { s.tecnicos with
              tecnico := alterar s.tecnicos.tecnico
                (procurar_tecnico_id s.tecnicos atual.idTecnico)
                (fun t => { t with estado_tecnico := ATIVO1 }) }
          else s.tecnicos
        ativos :=
          if procurar_ativo_id s.ativos atual.idAtivo ≠ -1 then
            { s.ativos with
              ativo := alterar s.ativos.ativo (procurar_ativo_id s.ativos atual.idAtivo)
                (fun a => { a with estado := OPERACIONAL })
              ativosDisponiveis := s.ativos.ativosDisponiveis + 1 }
          else s.ativos
        materiais := s.materiais }, ⟨e3, w.heap⟩) := by
  unfold gerir_ordem
  simp [hid, hne, hat, hexec, hesc, hpausa, alterar_some _ _ _ _ hat]

/-- Witness of C4: order 16 of the running example is concluded. -/
theorem gerir_ordem_concluir_spec_witness :
    gerir_ordem (some tmExemplo) sistemaExemplo ⟨entradaConcluir, []⟩ = some (
      { ordens := { ordensSistema with
          ordem := ordensSistema.ordem.set 6
            { ordemExec 16 with
              idAtivo := 11, idTecnico := 12, estado := CONCLUIDA,
              diaFim := 5, mesFim := 3, anoFim := 2024, horaFim := 14, minFim := 30,
              segFim := 5 } }
        tecnicos := { tecnicosExemplo with
          tecnico := tecnicosExemplo.tecnico.set 2 ⟨12, some "Eva", 3, ATIVO1, 16⟩ }
        ativos := { ativosSistema with
          ativo := ativosSistema.ativo.set 1 (ativoDe 11 OPERACIONAL 4)
          ativosDisponiveis := 1 }
        materiais := ⟨[], 0⟩ }, ⟨[], []⟩) :=
  (gerir_ordem_concluir_spec (some tmExemplo) sistemaExemplo ⟨entradaConcluir, []⟩ 16
    [Linha.inteiro 2, Linha.palavras ""] [Linha.palavras ""] []
    { ordemExec 16 with idAtivo := 11, idTecnico := 12 }
    (by decide) (by decide) (by decide) (by decide) (by decide) (by decide)).trans (by decide)

/-- C5: when the identifier given to `gerir_ordem` selects an order in state
`EXECUCAO` and the caller chooses 1 (cancel), the call returns after the key
press with: that order in state `CANCELADA` with the captured clock value in
its six end fields; the asset to which the order's `idAtivo` resolves, if any,
in state `OPERACIONAL` and `ativosDisponiveis` one more; the technician store
and the material store exactly as before. -/
theorem gerir_ordem_cancelar_spec (tmLocal : Option Tm) (s : Sistema) (w : Mundo)
    (idProcurado : Int) (e1 e2 e3 : List Linha) (atual : Ordem)
    (hid : obterIntIntervalado 0 (obterMaiorIDOrdens s.ordens) w.entrada
      = some (idProcurado, e1))
    (hne : procurar_ordens_id s.ordens idProcurado ≠ -1)
    (hat : s.ordens.ordem[(procurar_ordens_id s.ordens idProcurado).toNat]? = some atual)
    (hexec : atual.estado = EXECUCAO)
    (hesc : obterIntIntervalado 1 2 e1 = some (1, e2))
    (hpausa : pausar_ecra e2 = some e3) :
    gerir_ordem tmLocal s w = some (
      { ordens := { s.ordens with
          ordem := s.ordens.ordem.set (procurar_ordens_id s.ordens idProcurado).toNat
            (({ atual with estado := CANCELADA }).comFim (carimbo tmLocal)) }
        tecnicos := s.tecnicos
        ativos :=
          if procurar_ativo_id s.ativos atual.idAtivo ≠ -1 then
            { s.ativos with
              ativo := alterar s.ativos.ativo (procurar_ativo_id s.ativos atual.idAtivo)
                (fun a => { a with estado := OPERACIONAL })
              ativosDisponiveis := s.ativos.ativosDisponiveis + 1 }
          else s.ativos
        materiais := s.materiais }, ⟨e3, w.heap⟩) := by
  unfold gerir_ordem
  simp [hid, hne, hat, hexec, hesc, hpausa, alterar_some _ _ _ _ hat]

/-- Witness of C5: order 16 of the running example is cancelled; technician 12
stays `OCUPADO`. -/
theorem gerir_ordem_cancelar_spec_witness :
    gerir_ordem (some tmExemplo) sistemaExemplo ⟨entradaCancelar, []⟩ = some (
      { ordens := { ordensSistema with
          ordem := ordensSistema.ordem.set 6
            { ordemExec 16 with
              idAtivo := 11, idTecnico := 12, estado := CANCELADA,
              diaFim := 5, mesFim := 3, anoFim := 2024, horaFim := 14, minFim := 30,
              segFim := 5 } }
        tecnicos := tecnicosExemplo
        ativos := { ativosSistema with
          ativo := ativosSistema.ativo.set 1 (ativoDe 11 OPERACIONAL 4)
          ativosDisponiveis := 1 }
        materiais := ⟨[], 0⟩ }, ⟨[], []⟩) :=
  (gerir_ordem_cancelar_spec (some tmExemplo) sistemaExemplo ⟨entradaCancelar, []⟩ 16
    [Linha.inteiro 1, Linha.palavras ""] [Linha.palavras ""] []
    { ordemExec 16 with idAtivo := 11, idTecnico := 12 }
    (by decide) (by decide) (by decide) (by decide) (by decide) (by decide)).trans (by decide)

/-! ## Terminal states -/

theorem procurar_ordens_id_terminal (ordens : Ordens) (idProcurado : Int)
    (h : ∀ o ∈ ordens.ordem, o.idOrdem = idProcurado → o.terminal) :
    procurar_ordens_id ordens idProcurado = -1 := by
  unfold procurar_ordens_id
  rw [procurar_ordens_id_desde_eq, indiceDesde_eq_neg_one _ _ 0 le_rfl]
  intro o ho
  by_cases hid : o.idOrdem = idProcurado
  · have := h o ho hid
    unfold Ordem.terminal at this
    have h1 : o.estado ≠ PENDENTE := by rcases this with h | h <;> rw [h] <;> decide
    have h2 : o.estado ≠ EXECUCAO := by rcases this with h | h <;> rw [h] <;> decide
    simp [h1, h2]
  · simp [hid]

/-- A call of `criar_ordem` that returns keeps the orders that were there
and appends at most one. -/
theorem criar_ordem_ordens (residuo : Ordem) (ativos ativos1 : Ativos) (ordens ordens1 : Ordens)
    (w w1 : Mundo) (h : criar_ordem residuo ativos ordens w = some (ativos1, ordens1, w1)) :
    (ordens1.ordem = ordens.ordem ∧ ativos1 = ativos) ∨
    ∃ i A prioridade tipo, 0 ≤ i ∧ ativos.ativo[i.toNat]? = some A ∧ A.estado = OPERACIONAL ∧
      procurar_ativo_id ativos A.id = i ∧
      ordens1.ordem = ordens.ordem ++ [{ residuo with
        idOrdem := gerarProximoID ordens
        idAtivo := A.id
        idDepartamento := A.idDepartamentoAssociado
        estado := PENDENTE
        prioridade := prioridade
        tipo_manutencao := tipo }] ∧
      ativos1 = { ativos with
        ativo := ativos.ativo.set i.toNat { A with estado := EM_MANUTENCAO }
        ativosDisponiveis := ativos.ativosDisponiveis - 1 } := by
  unfold criar_ordem at h
  split at h
  · left
    split at h
    · exact absurd h (by simp)
    · simp only [Option.some.injEq, Prod.mk.injEq] at h
      exact ⟨by rw [← h.2.1], h.1.symm⟩
  · rename_i o1 heap1 hcap
    obtain ⟨hord, _⟩ := garantir_capacidade_ordens_ordem _ _ _ _ _ _ hcap
    split at h
    · left
      split at h
      · exact absurd h (by simp)
      · simp only [Option.some.injEq, Prod.mk.injEq] at h
        exact ⟨by rw [← h.2.1, hord], h.1.symm⟩
    · right
      split at h
      · exact absurd h (by simp)
      · rename_i idEncontrado e1 hlaco
        obtain ⟨h0, A, hA, hop, _, _, hres⟩ := criar_ordem_laco_some _ _ _ _ _ hlaco
        rw [hA] at h
        simp only at h
        split at h
        · exact absurd h (by simp)
        · rename_i prioridade e2 hp
          split at h
          · exact absurd h (by simp)
          · rename_i tipo e3 ht
            split at h
            · exact absurd h (by simp)
            · simp only [Option.some.injEq, Prod.mk.injEq] at h
              refine ⟨idEncontrado, A, prioridade, tipo, h0, hA, hop, hres, ?_, ?_⟩
              · rw [← h.2.1]
                simp [hord, gerarProximoID, Ordens.contador]
              · rw [← h.1]
                simp [alterar_some _ _ _ _ hA]

/-- A step of the order engine leaves every order in a terminal state where it is
and as it is. -/
theorem passo_terminal (R : Ordem → Prop) (C : Option Tm → Prop) (s s1 : Sistema)
    (h : PassoCom R C s s1) (k : Nat) (o : Ordem)
    (hk : s.ordens.ordem[k]? = some o) (ht : o.terminal) :
    s1.ordens.ordem[k]? = some o := by
  cases h with
  | criar residuo w w1 ativos1 ordens1 _ hc =>
    rcases criar_ordem_ordens _ _ _ _ _ _ _ hc with ⟨h1, _⟩ | ⟨i, A, p, t, _, _, _, _, h1, _⟩
    · simpa [h1] using hk
    · have hlt : k < s.ordens.ordem.length := by
        rcases List.getElem?_eq_some_iff.mp hk with ⟨hl, _⟩
        exact hl
      simp only [h1]
      rw [List.getElem?_append_left hlt]
      exact hk
  | gerir _ tmLocal w w1 _ hg =>
    obtain ⟨idProcurado, e1, _, hcasos⟩ := gerir_ordem_casos _ _ _ _ _ hg
    unfold Ordem.terminal at ht
    have h1 : o.estado ≠ PENDENTE := by rcases ht with h | h <;> rw [h] <;> decide
    have h2 : o.estado ≠ EXECUCAO := by rcases ht with h | h <;> rw [h] <;> decide
    rcases hcasos with ⟨_, rfl⟩ | ⟨atual, _, hat, _, hc⟩
    · exact hk
    · have hki : (procurar_ordens_id s.ordens idProcurado).toNat ≠ k := by
        intro heq
        rw [heq, hk] at hat
        simp only [Option.some.injEq] at hat
        subst hat
        rcases hc with ⟨hp, _⟩ | ⟨he, _⟩ | ⟨he, _⟩
        · exact h1 hp
        · exact h2 he
        · exact h2 he
      rcases hc with ⟨_, _, _, _, _, _, _, _, _, _, _, rfl⟩ | ⟨_, rfl⟩ | ⟨_, rfl⟩ <;>
        simp [List.getElem?_set, hki, hk]

/-- C6: if the identifier given to `gerir_ordem` belongs only to orders in state
`CONCLUIDA` or `CANCELADA`, or to no order, the call returns after the key
press with the four stores exactly as they were; and no step of the order
engine (`criar_ordem` or `gerir_ordem`, with any input) changes an order that is
in state `CONCLUIDA` or `CANCELADA`. -/
theorem gerir_ordem_terminal_spec (tmLocal : Option Tm) (s : Sistema) (w : Mundo) :
    (∀ (idProcurado : Int) (e1 e2 : List Linha),
      obterIntIntervalado 0 (obterMaiorIDOrdens s.ordens) w.entrada = some (idProcurado, e1) →
      (∀ o ∈ s.ordens.ordem, o.idOrdem = idProcurado → o.terminal) →
      pausar_ecra e1 = some e2 →
      gerir_ordem tmLocal s w = some (s, ⟨e2, w.heap⟩)) ∧
    (∀ (s1 : Sistema), Passo s s1 → ∀ (k : Nat) (o : Ordem),
      s.ordens.ordem[k]? = some o → o.terminal → s1.ordens.ordem[k]? = some o) := by
  refine ⟨?_, fun s1 h k o hk ht => passo_terminal _ _ s s1 h k o hk ht⟩
  intro idProcurado e1 e2 hid hterm hpausa
  unfold gerir_ordem
  simp [hid, procurar_ordens_id_terminal _ _ hterm, hpausa]

/-- Witness of C6: order 17 of the running example is concluded; selecting it
changes nothing, and it stays as it is when order 16 is concluded. -/
theorem gerir_ordem_terminal_spec_witness :
    gerir_ordem (some tmExemplo) sistemaExemplo ⟨entradaTerminal, []⟩
      = some (sistemaExemplo, ⟨[], []⟩) ∧
    ∀ (s1 : Sistema), Passo sistemaExemplo s1 →
      s1.ordens.ordem[7]? = some { ordemExec 17 with estado := CONCLUIDA, anoFim := 2024 } :=
  ⟨(gerir_ordem_terminal_spec (some tmExemplo) sistemaExemplo ⟨entradaTerminal, []⟩).1 17
      [Linha.palavras ""] [] (by decide) (by decide) (by decide),
   fun s1 h =>
    (gerir_ordem_terminal_spec none sistemaExemplo ⟨[], []⟩).2 s1 h 7
      { ordemExec 17 with estado := CONCLUIDA, anoFim := 2024 } (by decide) (by decide)⟩

/-! ## Occupancy cap -/

theorem emExecucaoDe_set_le (l : List Ordem) (i : Nat) (atual nova : Ordem) (t : Int)
    (h : l[i]? = some atual) (hn : nova.estado ≠ EXECUCAO) :
    emExecucaoDe t (l.set i nova) ≤ emExecucaoDe t l := by
  have := countP_set (fun o => decide (o.estado = EXECUCAO ∧ o.idTecnico = t)) l i atual nova h
  simp only [hn, false_and, decide_False, Bool.false_eq_true, if_false, add_zero] at this
  unfold emExecucaoDe
  omega

theorem emExecucaoDe_set_execucao (l : List Ordem) (i : Nat) (atual nova : Ordem) (t : Int)
    (h : l[i]? = some atual) (ha : atual.estado ≠ EXECUCAO) (hn : nova.estado = EXECUCAO) :
    emExecucaoDe t (l.set i nova)
      = emExecucaoDe t l + (if nova.idTecnico = t then 1 else 0) := by
  have := countP_set (fun o => decide (o.estado = EXECUCAO ∧ o.idTecnico = t)) l i atual nova h
  simp only [ha, false_and, decide_False, Bool.false_eq_true, if_false, add_zero, hn,
    true_and, decide_eq_true_eq] at this
  unfold emExecucaoDe
  exact this

/-- C2: if no technician identifier is carried by more than 5 orders in state
`EXECUCAO`, then after any call of `gerir_ordem` that returns, whatever the
caller entered, this is still so; and when the call moved a pending order to
`EXECUCAO`, the technician identifier now on that order was carried by fewer
than 5 orders in execution before the call. -/
theorem gerir_ordem_limite_spec (tmLocal : Option Tm) (s s1 : Sistema) (w w1 : Mundo)
    (hcap : ∀ t, emExecucaoDe t s.ordens.ordem ≤ 5)
    (h : gerir_ordem tmLocal s w = some (s1, w1)) :
    (∀ t, emExecucaoDe t s1.ordens.ordem ≤ 5) ∧
    (∀ (k : Nat) (antes depois : Ordem), s.ordens.ordem[k]? = some antes →
      s1.ordens.ordem[k]? = some depois → antes.estado = PENDENTE →
      depois.estado = EXECUCAO → emExecucaoDe depois.idTecnico s.ordens.ordem < 5) := by
  obtain ⟨idProcurado, e1, _, hcasos⟩ := gerir_ordem_casos _ _ _ _ _ h
  rcases hcasos with ⟨_, rfl⟩ | ⟨atual, _, hat, _, hc⟩
  · refine ⟨hcap, ?_⟩
    intro k antes depois h1 h2 h3 h4
    rw [h1] at h2
    simp only [Option.some.injEq] at h2
    subst h2
    rw [h3] at h4
    exact absurd h4 (by decide)
  · have hlt : (procurar_ordens_id s.ordens idProcurado).toNat < s.ordens.ordem.length := by
      rcases List.getElem?_eq_some_iff.mp hat with ⟨hl, _⟩
      exact hl
    rcases hc with ⟨hp, valor, t, m1, _, _, _, _, _, _, hcinco, rfl⟩ | ⟨he, rfl⟩ | ⟨he, rfl⟩
    · have hpe : atual.estado ≠ EXECUCAO := by rw [hp]; decide
      constructor
      · intro u
        simp only
        rw [emExecucaoDe_set_execucao _ _ atual _ u hat hpe (by simp [Ordem.comInicio])]
        have := hcap u
        by_cases hu : valor = u
        · subst hu
          simp [Ordem.comInicio]
          omega
        · simp [Ordem.comInicio, hu]
          omega
      · intro k antes depois h1 h2 h3 h4
        by_cases hk : (procurar_ordens_id s.ordens idProcurado).toNat = k
        · subst hk
          simp only [List.getElem?_set, hlt, if_true, Option.some.injEq] at h2
          subst h2
          simpa [Ordem.comInicio] using hcinco
        · simp only [List.getElem?_set, hk, if_false] at h2
          rw [h1] at h2
          simp only [Option.some.injEq] at h2
          subst h2
          rw [h3] at h4
          exact absurd h4 (by decide)
    all_goals
      constructor
      · intro u
        exact le_trans (emExecucaoDe_set_le _ _ atual _ u hat (by simp [Ordem.comFim])) (hcap u)
      · intro k antes depois h1 h2 h3 h4
        by_cases hk : (procurar_ordens_id s.ordens idProcurado).toNat = k
        · subst hk
          simp only [List.getElem?_set, hlt, if_true, Option.some.injEq] at h2
          subst h2
          simp [Ordem.comFim] at h4
        · simp only [List.getElem?_set, hk, if_false] at h2
          rw [h1] at h2
          simp only [Option.some.injEq] at h2
          subst h2
          rw [h3] at h4
          exact absurd h4 (by decide)

theorem emExecucaoDe_ordensSistema (t : Int) : emExecucaoDe t ordensSistema.ordem ≤ 5 := by
  simp only [emExecucaoDe, ordensSistema, cincoEmExecucao, ordemExec, ordemZero,
    List.cons_append, List.nil_append, List.countP_cons, List.countP_nil]
  by_cases h10 : (10 : Int) = t
  · subst h10; decide
  · by_cases h12 : (12 : Int) = t
    · subst h12; decide
    · simp [h10, h12]

/-- Witness of C2: in the running example technician 10 holds five orders in
execution and is refused for order 15; technician 12 is accepted. -/
theorem gerir_ordem_limite_spec_witness :
    gerir_ordem (some tmExemplo) sistemaExemplo ⟨entradaPendente, []⟩
      = some (sistemaAposPendente, ⟨[], []⟩) ∧
    emExecucaoDe 10 sistemaExemplo.ordens.ordem = 5 ∧
    (∀ t, emExecucaoDe t sistemaAposPendente.ordens.ordem ≤ 5) ∧
    emExecucaoDe ordemQuinzeEmExecucao.idTecnico sistemaExemplo.ordens.ordem < 5 :=
  ⟨by decide, by decide,
   (gerir_ordem_limite_spec (some tmExemplo) sistemaExemplo sistemaAposPendente
      ⟨entradaPendente, []⟩ ⟨[], []⟩ emExecucaoDe_ordensSistema (by decide)).1,
   (gerir_ordem_limite_spec (some tmExemplo) sistemaExemplo sistemaAposPendente
      ⟨entradaPendente, []⟩ ⟨[], []⟩ emExecucaoDe_ordensSistema (by decide)).2 5
      { ordemZero with idOrdem := 15, idAtivo := 11, idDepartamento := 4, prioridade := 3,
                       tipo_manutencao := 2 }
      ordemQuinzeEmExecucao (by decide) (by decide) (by decide) (by decide)⟩

/-! ## The pending branch -/

/-- One prompt of the technician loop: the delivered identifier ends the loop
when it resolves to a technician who is not `INATIVO1` and fewer than 5 orders
in execution carry it; otherwise the loop prompts again. -/
theorem gerir_ordem_laco_tecnico_passo (tecnicos : Tecnicos) (maxIdTecnicos idEncontrado : Int)
    (fuel : Nat) (ordens : Ordens) (o : Ordem) (entrada resto : List Linha) (valor : Int)
    (ho : ordens.ordem[idEncontrado.toNat]? = some o) (hp : o.estado = PENDENTE)
    (hler : obterIntIntervalado 0 maxIdTecnicos entrada = some (valor, resto)) :
    ((∃ t, procurar_tecnico_id tecnicos valor ≠ -1 ∧
        tecnicos.tecnico[(procurar_tecnico_id tecnicos valor).toNat]? = some t ∧
        t.estado_tecnico ≠ INATIVO1 ∧ emExecucaoDe valor ordens.ordem < 5) →
      gerir_ordem_laco_tecnico tecnicos maxIdTecnicos idEncontrado (fuel + 1) ordens entrada
        = some ({ ordens with
            ordem := ordens.ordem.set idEncontrado.toNat { o with idTecnico := valor } },
          resto)) ∧
    (¬ (∃ t, procurar_tecnico_id tecnicos valor ≠ -1 ∧
        tecnicos.tecnico[(procurar_tecnico_id tecnicos valor).toNat]? = some t ∧
        t.estado_tecnico ≠ INATIVO1 ∧ emExecucaoDe valor ordens.ordem < 5) →
      gerir_ordem_laco_tecnico tecnicos maxIdTecnicos idEncontrado (fuel + 1) ordens entrada
        = gerir_ordem_laco_tecnico tecnicos maxIdTecnicos idEncontrado fuel
            { ordens with
              ordem := ordens.ordem.set idEncontrado.toNat { o with idTecnico := valor } }
            resto) := by
  have hpe : o.estado ≠ EXECUCAO := by rw [hp]; decide
  have hunf : gerir_ordem_laco_tecnico tecnicos maxIdTecnicos idEncontrado (fuel + 1) ordens
      entrada =
      (if procurar_tecnico_id tecnicos valor = -1 then
        gerir_ordem_laco_tecnico tecnicos maxIdTecnicos idEncontrado fuel
          { ordens with
            ordem := ordens.ordem.set idEncontrado.toNat { o with idTecnico := valor } } resto
      else
        match tecnicos.tecnico[(procurar_tecnico_id tecnicos valor).toNat]? with
        | none => none
        | some t =>
          if t.estado_tecnico = INATIVO1 then
            gerir_ordem_laco_tecnico tecnicos maxIdTecnicos idEncontrado fuel
              { ordens with
                ordem := ordens.ordem.set idEncontrado.toNat { o with idTecnico := valor } }
              resto
          else if numeroManutencoesTecnico t
              { ordens with
                ordem := ordens.ordem.set idEncontrado.toNat { o with idTecnico := valor } }
              ≥ 5 then
            gerir_ordem_laco_tecnico tecnicos maxIdTecnicos idEncontrado fuel
              { ordens with
                ordem := ordens.ordem.set idEncontrado.toNat { o with idTecnico := valor } }
              resto
          else some ({ ordens with
                ordem := ordens.ordem.set idEncontrado.toNat { o with idTecnico := valor } },
              resto)) := by
    rw [gerir_ordem_laco_tecnico]
    simp only [hler, alterar_some _ _ _ _ ho]
  rw [hunf]
  by_cases hres : procurar_tecnico_id tecnicos valor = -1
  · simp [hres]
  · obtain ⟨_, t, ht, hid⟩ := procurar_tecnico_id_hit tecnicos valor hres
    simp only [hres, if_false, ht, numeroManutencoesTecnico_eq, hid,
      emExecucaoDe_set_idTecnico _ _ _ _ _ ho hpe]
    by_cases hina : t.estado_tecnico = INATIVO1
    · simp [hres, hina]
    · by_cases hc : emExecucaoDe valor ordens.ordem < 5
      · have hc1 : ¬ ((emExecucaoDe valor ordens.ordem : Int) ≥ 5) := by omega
        simp [hres, hina, hc, hc1]
      · have hc1 : (emExecucaoDe valor ordens.ordem : Int) ≥ 5 := by omega
        simp [hres, hina, hc, hc1]

/-- C3: in the `PENDENTE` branch of `gerir_ordem`, an identifier delivered by the
technician prompt ends the loop if and only if `procurar_tecnico_id` resolves it,
the resolved technician is not `INATIVO1` and fewer than 5 orders in state
`EXECUCAO` carry it; any other identifier makes the loop prompt again.  When the
call returns, the selected order is in state `EXECUCAO`, carries an identifier
accepted in this way, and its six start fields hold the captured clock
value; the other orders, the technicians and the assets are as before.  The
call does return once the technician loop and the material loop have ended and
the key press is read. -/
theorem gerir_ordem_pendente_spec (tmLocal : Option Tm) (s : Sistema) (w : Mundo)
    (idProcurado : Int) (e1 : List Linha) (atual : Ordem)
    (hid : obterIntIntervalado 0 (obterMaiorIDOrdens s.ordens) w.entrada
      = some (idProcurado, e1))
    (hne : procurar_ordens_id s.ordens idProcurado ≠ -1)
    (hat : s.ordens.ordem[(procurar_ordens_id s.ordens idProcurado).toNat]? = some atual)
    (hpend : atual.estado = PENDENTE) :
    (∀ (fuel : Nat) (ordens : Ordens) (o : Ordem) (entrada resto : List Linha) (valor : Int),
      ordens.ordem[(procurar_ordens_id s.ordens idProcurado).toNat]? = some o →
      o.estado = PENDENTE →
      obterIntIntervalado 0 (obterMaiorIDTecnicos s.tecnicos) entrada = some (valor, resto) →
      ((∃ t, procurar_tecnico_id s.tecnicos valor ≠ -1 ∧
          s.tecnicos.tecnico[(procurar_tecnico_id s.tecnicos valor).toNat]? = some t ∧
          t.estado_tecnico ≠ INATIVO1 ∧ emExecucaoDe valor ordens.ordem < 5) →
        gerir_ordem_laco_tecnico s.tecnicos (obterMaiorIDTecnicos s.tecnicos)
            (procurar_ordens_id s.ordens idProcurado) (fuel + 1) ordens entrada
          = some ({ ordens with
              ordem := ordens.ordem.set (procurar_ordens_id s.ordens idProcurado).toNat
                { o with idTecnico := valor } }, resto)) ∧
      (¬ (∃ t, procurar_tecnico_id s.tecnicos valor ≠ -1 ∧
          s.tecnicos.tecnico[(procurar_tecnico_id s.tecnicos valor).toNat]? = some t ∧
          t.estado_tecnico ≠ INATIVO1 ∧ emExecucaoDe valor ordens.ordem < 5) →
        gerir_ordem_laco_tecnico s.tecnicos (obterMaiorIDTecnicos s.tecnicos)
            (procurar_ordens_id s.ordens idProcurado) (fuel + 1) ordens entrada
          = gerir_ordem_laco_tecnico s.tecnicos (obterMaiorIDTecnicos s.tecnicos)
              (procurar_ordens_id s.ordens idProcurado) fuel
              { ordens with
                ordem := ordens.ordem.set (procurar_ordens_id s.ordens idProcurado).toNat
                  { o with idTecnico := valor } } resto)) ∧
    (∀ (s1 : Sistema) (w1 : Mundo), gerir_ordem tmLocal s w = some (s1, w1) →
      ∃ (valor : Int) (t : Tecnico) (depois : Ordem),
        procurar_tecnico_id s.tecnicos valor ≠ -1 ∧
        s.tecnicos.tecnico[(procurar_tecnico_id s.tecnicos valor).toNat]? = some t ∧
        t.estado_tecnico ≠ INATIVO1 ∧ emExecucaoDe valor s.ordens.ordem < 5 ∧
        s1.ordens = { s.ordens with
          ordem := s.ordens.ordem.set (procurar_ordens_id s.ordens idProcurado).toNat depois } ∧
        s1.tecnicos = s.tecnicos ∧ s1.ativos = s.ativos ∧
        depois = ({ atual with idTecnico := valor, estado := EXECUCAO }).comInicio
          (carimbo tmLocal) ∧
        depois.estado = EXECUCAO ∧ depois.idTecnico = valor ∧
        depois.diaInicio = (carimbo tmLocal).dia ∧ depois.mesInicio = (carimbo tmLocal).mes ∧
        depois.anoInicio = (carimbo tmLocal).ano ∧ depois.horaInicio = (carimbo tmLocal).hora ∧
        depois.minInicio = (carimbo tmLocal).min ∧
        depois.segInicio = (carimbo tmLocal).seg) ∧
    (∀ (ordens1 : Ordens) (e2 e4 : List Linha) (materiais1 : Materiais) (w3 : Mundo),
      gerir_ordem_laco_tecnico s.tecnicos (obterMaiorIDTecnicos s.tecnicos)
        (procurar_ordens_id s.ordens idProcurado) e1.length s.ordens e1 = some (ordens1, e2) →
      gerir_ordem_laco_materiais atual.idOrdem e2.length s.materiais ⟨e2, w.heap⟩
        = some (materiais1, w3) →
      pausar_ecra w3.entrada = some e4 →
      ∃ s1, gerir_ordem tmLocal s w = some (s1, ⟨e4, w3.heap⟩)) := by
  refine ⟨?_, ?_, ?_⟩
  · intro fuel ordens o entrada resto valor ho hp hler
    exact gerir_ordem_laco_tecnico_passo _ _ _ fuel ordens o entrada resto valor ho hp hler
  rotate_left
  · intro ordens1 e2 e4 materiais1 w3 hlaco hmat hpausa
    unfold gerir_ordem
    simp [hid, hne, hat, hpend, hlaco, hmat, hpausa]
  · intro s1 w1 h
    obtain ⟨idP, e1a, hid1, hcasos⟩ := gerir_ordem_casos _ _ _ _ _ h
    rw [hid] at hid1
    simp only [Option.some.injEq, Prod.mk.injEq] at hid1
    obtain ⟨rfl, rfl⟩ := hid1
    rcases hcasos with ⟨hnf, _⟩ | ⟨atual1, _, hat1, _, hc⟩
    · exact absurd hnf hne
    · rw [hat] at hat1
      simp only [Option.some.injEq] at hat1
      subst hat1
      rcases hc with ⟨_, valor, t, m1, _, _, a3, a4, _, a6, a7, rfl⟩ | ⟨he, _⟩ | ⟨he, _⟩
      · exact ⟨valor, t, _, a3, a4, a6, a7, rfl, rfl, rfl, rfl, rfl, rfl, rfl, rfl, rfl, rfl,
          rfl, rfl⟩
      · rw [hpend] at he; exact absurd he (by decide)
      · rw [hpend] at he; exact absurd he (by decide)

/-- Witness of C3: order 15 of the running example; the entries 5, 11 and 10
are refused and 12 is accepted. -/
theorem gerir_ordem_pendente_spec_witness :
    gerir_ordem (some tmExemplo) sistemaExemplo ⟨entradaPendente, []⟩
      = some (sistemaAposPendente, ⟨[], []⟩) ∧
    ∃ (valor : Int) (t : Tecnico) (depois : Ordem),
      procurar_tecnico_id tecnicosExemplo valor ≠ -1 ∧
      tecnicosExemplo.tecnico[(procurar_tecnico_id tecnicosExemplo valor).toNat]? = some t ∧
      t.estado_tecnico ≠ INATIVO1 ∧ emExecucaoDe valor ordensSistema.ordem < 5 ∧
      sistemaAposPendente.ordens = { ordensSistema with
        ordem := ordensSistema.ordem.set (5 : Int).toNat depois } ∧
      depois.estado = EXECUCAO ∧ depois.idTecnico = valor ∧ depois.anoInicio = 2024 :=
  ⟨by decide,
   match (gerir_ordem_pendente_spec (some tmExemplo) sistemaExemplo ⟨entradaPendente, []⟩ 15
      entradaPendente.tail
      { ordemZero with idOrdem := 15, idAtivo := 11, idDepartamento := 4, prioridade := 3,
                       tipo_manutencao := 2 }
      (by decide) (by decide) (by decide) (by decide)).2.1 sistemaAposPendente ⟨[], []⟩
      (by decide) with
   | ⟨valor, t, depois, h1, h2, h3, h4, h5, _, _, _, h9, h10, _, _, h13, _⟩ =>
     ⟨valor, t, depois, h1, h2, h3, h4, h5, h9, h10, h13⟩⟩

/-! ## Round trip of an asset through an order -/

theorem foldl_maxID_ge (l : List Ordem) (maxID : Int) :
    maxID ≤ l.foldl (fun maxID o => if o.idOrdem > maxID then o.idOrdem else maxID) maxID ∧
    ∀ o ∈ l, o.idOrdem ≤
      l.foldl (fun maxID o => if o.idOrdem > maxID then o.idOrdem else maxID) maxID := by
  induction l generalizing maxID with
  | nil => simp
  | cons x xs ih =>
    simp only [List.foldl_cons, List.mem_cons, forall_eq_or_imp]
    obtain ⟨h1, h2⟩ := ih (if x.idOrdem > maxID then x.idOrdem else maxID)
    refine ⟨?_, ?_, h2⟩
    · by_cases hc : x.idOrdem > maxID <;> simp only [hc, if_true, if_false] at h1 ⊢ <;> omega
    · by_cases hc : x.idOrdem > maxID <;> simp only [hc, if_true, if_false] at h1 ⊢ <;> omega

/-- The identifier that `gerarProximoID` returns is positive and greater than
every identifier in the store. -/
theorem gerarProximoID_gt (ordens : Ordens) :
    0 < gerarProximoID ordens ∧ ∀ o ∈ ordens.ordem, o.idOrdem < gerarProximoID ordens := by
  unfold gerarProximoID
  split
  · rename_i h0
    have : ordens.ordem = [] := by simpa [Ordens.contador] using h0
    simp [this]
  · obtain ⟨h1, h2⟩ := foldl_maxID_ge ordens.ordem 0
    refine ⟨by omega, fun o ho => ?_⟩
    have := h2 o ho
    omega

theorem obterMaiorIDOrdens_ge (ordens : Ordens) :
    0 ≤ obterMaiorIDOrdens ordens ∧ ∀ o ∈ ordens.ordem, o.idOrdem ≤ obterMaiorIDOrdens ordens :=
  foldl_maxID_ge ordens.ordem 0

theorem indiceDesde_append {α : Type} (p : α → Bool) (l r : List α) (y : α) (i : Int)
    (hl : ∀ x ∈ l, p x = false) (hy : p y = true) :
    indiceDesde p (l ++ y :: r) i = i + l.length := by
  induction l generalizing i with
  | nil => simp [indiceDesde, hy]
  | cons x xs ih =>
    have hx : p x = false := hl x (by simp)
    have hrec := ih (i + 1) (fun z hz => hl z (by simp [hz]))
    rw [List.cons_append, indiceDesde]
    simp only [hx, Bool.false_eq_true, if_false, hrec, List.length_cons]
    push_cast
    ring

/-- An open order whose identifier no earlier order carries is what
`procurar_ordens_id` finds. -/
theorem procurar_ordens_id_append (l : List Ordem) (o : Ordem) (a c : Int)
    (hl : ∀ x ∈ l, x.idOrdem ≠ o.idOrdem) (ho : o.estado = PENDENTE ∨ o.estado = EXECUCAO) :
    procurar_ordens_id ⟨l ++ [o], a, c⟩ o.idOrdem = l.length := by
  unfold procurar_ordens_id
  rw [procurar_ordens_id_desde_eq, indiceDesde_append]
  · simp
  · intro x hx
    simp [hl x hx]
  · simpa using ho

theorem set_self {α : Type} (l : List α) (i : Nat) (x : α) (h : l[i]? = some x) :
    l.set i x = l := by
  apply List.ext_getElem?
  intro j
  by_cases hj : i = j
  · subst hj
    have hlt : i < l.length := by
      rcases List.getElem?_eq_some_iff.mp h with ⟨hl, _⟩
      exact hl
    simp [List.getElem?_set, hlt, h]
  · simp [List.getElem?_set, hj]

/-- With pairwise distinct identifiers, the identifier of an asset that is not
decommissioned resolves to that asset. -/
theorem procurar_ativo_id_distintos (ativos : Ativos) (i : Nat) (A : Ativo)
    (hdist : (ativos.ativo.map Ativo.id).Nodup) (hA : ativos.ativo[i]? = some A)
    (hest : A.estado ≠ ABATIDO) :
    procurar_ativo_id ativos A.id = i := by
  have hne : procurar_ativo_id ativos A.id ≠ -1 := by
    unfold procurar_ativo_id
    rw [procurar_ativo_id_desde_eq]
    intro hneg
    rw [indiceDesde_eq_neg_one _ _ 0 le_rfl] at hneg
    have hmem : A ∈ ativos.ativo := List.getElem?_mem hA
    have := hneg A hmem
    simp [hest] at this
  obtain ⟨h0, B, hB, hid, _⟩ := procurar_ativo_id_hit ativos A.id hne
  have hlt : (procurar_ativo_id ativos A.id).toNat < (ativos.ativo.map Ativo.id).length := by
    rcases List.getElem?_eq_some_iff.mp hB with ⟨hl, _⟩
    simpa using hl
  have heq : (ativos.ativo.map Ativo.id)[(procurar_ativo_id ativos A.id).toNat]?
      = (ativos.ativo.map Ativo.id)[i]? := by
    simp [List.getElem?_map, hB, hA, hid]
  have := List.getElem?_inj hlt hdist heq
  omega

/-- C8: in an asset store with pairwise distinct identifiers, let `criar_ordem`
create an order on an asset `A` that is `OPERACIONAL`, let a call of `gerir_ordem`
that is given the new order's identifier return (the order is then in
`EXECUCAO`), and let a second such call return (the order is then concluded or
cancelled).  After the first call `A` is `EM_MANUTENCAO` and `ativosDisponiveis`
is one less; after the third `A` is `OPERACIONAL` again and `ativosDisponiveis`
has the value it had before the order was created; the asset store is the one
at the start. -/
theorem contador_ida_e_volta_spec (residuo : Ordem) (tm2 tm3 : Option Tm)
    (ativos ativos1 : Ativos) (ordens ordens1 : Ordens) (tecnicos : Tecnicos)
    (materiais : Materiais) (w1 v1 w2 v2 w3 v3 : Mundo) (s2 s3 : Sistema)
    (i : Nat) (A : Ativo) (nova : Ordem) (e2 e3 : List Linha)
    (hdist : (ativos.ativo.map Ativo.id).Nodup)
    (hA : ativos.ativo[i]? = some A) (hop : A.estado = OPERACIONAL)
    (hcriar : criar_ordem residuo ativos ordens w1 = some (ativos1, ordens1, v1))
    (hnova : ordens1.ordem = ordens.ordem ++ [nova]) (hsobre : nova.idAtivo = A.id)
    (hgerir2 : gerir_ordem tm2 ⟨ordens1, tecnicos, ativos1, materiais⟩ w2 = some (s2, v2))
    (hid2 : obterIntIntervalado 0 (obterMaiorIDOrdens ordens1) w2.entrada
      = some (nova.idOrdem, e2))
    (hgerir3 : gerir_ordem tm3 s2 w3 = some (s3, v3))
    (hid3 : obterIntIntervalado 0 (obterMaiorIDOrdens s2.ordens) w3.entrada
      = some (nova.idOrdem, e3)) :
    ativos1.ativo[i]? = some { A with estado := EM_MANUTENCAO } ∧
    ativos1.ativosDisponiveis = ativos.ativosDisponiveis - 1 ∧
    (∃ o2, s2.ordens.ordem[ordens.ordem.length]? = some o2 ∧ o2.idOrdem = nova.idOrdem ∧
      o2.estado = EXECUCAO) ∧
    (∃ o3, s3.ordens.ordem[ordens.ordem.length]? = some o3 ∧ o3.idOrdem = nova.idOrdem ∧
      o3.terminal) ∧
    s3.ativos.ativo[i]? = some A ∧
    s3.ativos.ativosDisponiveis = ativos.ativosDisponiveis ∧
    s3.ativos = ativos := by
  have hi : i < ativos.ativo.length := by
    rcases List.getElem?_eq_some_iff.mp hA with ⟨hl, _⟩
    exact hl
  -- the call of `criar_ordem`
  rcases criar_ordem_ordens _ _ _ _ _ _ _ hcriar with
    ⟨h1, _⟩ | ⟨j, B, prioridade, tipo, hj0, hB, _, _, hord, hat1⟩
  · rw [h1] at hnova
    have := congrArg List.length hnova
    simp at this
  rw [hnova] at hord
  have hnv := List.append_cancel_left hord
  simp only [List.cons.injEq, and_true] at hnv
  have hBA : B.id = A.id := by rw [← hsobre, hnv]
  have hjlt : j.toNat < (ativos.ativo.map Ativo.id).length := by
    rcases List.getElem?_eq_some_iff.mp hB with ⟨hl, _⟩
    simpa using hl
  have hji : j.toNat = i :=
    List.getElem?_inj hjlt hdist (by simp [List.getElem?_map, hB, hA, hBA])
  rw [hji] at hB hat1
  rw [hA] at hB
  simp only [Option.some.injEq] at hB
  subst hB
  have hpendN : nova.estado = PENDENTE := by rw [hnv]
  have hidN : nova.idOrdem = gerarProximoID ordens := by rw [hnv]
  have hfresh : ∀ x ∈ ordens.ordem, x.idOrdem ≠ nova.idOrdem := by
    intro x hx
    have := (gerarProximoID_gt ordens).2 x hx
    omega
  have hA1 : ativos1.ativo[i]? = some { A with estado := EM_MANUTENCAO } := by
    rw [hat1]
    simp [List.getElem?_set, hi]
  have hdist1 : (ativos1.ativo.map Ativo.id).Nodup := by
    have : ativos1.ativo.map Ativo.id = ativos.ativo.map Ativo.id := by
      rw [hat1]
      apply List.ext_getElem?
      intro k
      by_cases hk : i = k
      · subst hk
        rcases List.getElem?_eq_some_iff.mp hA with ⟨_, hget⟩
        simp [List.getElem?_map, List.getElem?_set, hi, hget]
      · simp [List.getElem?_map, List.getElem?_set, hk]
    rw [this]
    exact hdist
  have hres1 : procurar_ativo_id ativos1 A.id = i :=
    procurar_ativo_id_distintos ativos1 i { A with estado := EM_MANUTENCAO } hdist1 hA1
      (by simp)
  -- the call of `gerir_ordem` on the pending order
  have hfind1 : procurar_ordens_id ordens1 nova.idOrdem = ordens.ordem.length := by
    have := procurar_ordens_id_append ordens.ordem nova ordens1.ordensAtivas ordens1.capacidade
      hfresh (Or.inl hpendN)
    rw [← hnova] at this
    exact this
  obtain ⟨id2, e2a, hler2, hcasos2⟩ := gerir_ordem_casos _ _ _ _ _ hgerir2
  simp only at hler2 hcasos2
  rw [hid2] at hler2
  simp only [Option.some.injEq, Prod.mk.injEq] at hler2
  obtain ⟨rfl, rfl⟩ := hler2
  rw [hfind1] at hcasos2
  have hnovaAt : ordens1.ordem[ordens.ordem.length]? = some nova := by
    rw [hnova]; simp
  rcases hcasos2 with ⟨hneg, _⟩ | ⟨atual2, _, hat2, _, hc2⟩
  · omega
  simp only [Int.toNat_ofNat] at hat2 hc2
  rw [hnovaAt] at hat2
  simp only [Option.some.injEq] at hat2
  subst hat2
  rcases hc2 with ⟨_, valor, t, m1, _, _, _, _, _, _, _, hs2⟩ | ⟨he, _⟩ | ⟨he, _⟩
  rotate_left
  · rw [hpendN] at he; exact absurd he (by decide)
  · rw [hpendN] at he; exact absurd he (by decide)
  have hs2ord : s2.ordens.ordem = ordens.ordem ++
      [({ nova with idTecnico := valor, estado := EXECUCAO }).comInicio (carimbo tm2)] := by
    rw [hs2]
    simp only
    rw [hnova, List.set_append_right _ _ (le_refl _)]
    simp
  have hs2at : s2.ativos = ativos1 := by rw [hs2]
  -- the call of `gerir_ordem` on the order in execution
  have hfind2 : procurar_ordens_id s2.ordens nova.idOrdem = ordens.ordem.length := by
    have := procurar_ordens_id_append ordens.ordem
      (({ nova with idTecnico := valor, estado := EXECUCAO }).comInicio (carimbo tm2))
      s2.ordens.ordensAtivas s2.ordens.capacidade
      (by simpa [Ordem.comInicio] using hfresh) (Or.inr (by simp [Ordem.comInicio]))
    rw [← hs2ord] at this
    simpa [Ordem.comInicio] using this
  obtain ⟨id3, e3a, hler3, hcasos3⟩ := gerir_ordem_casos _ _ _ _ _ hgerir3
  rw [hid3] at hler3
  simp only [Option.some.injEq, Prod.mk.injEq] at hler3
  obtain ⟨rfl, rfl⟩ := hler3
  rw [hfind2] at hcasos3
  have hexecAt : s2.ordens.ordem[ordens.ordem.length]? =
      some (({ nova with idTecnico := valor, estado := EXECUCAO }).comInicio (carimbo tm2)) := by
    rw [hs2ord]; simp
  have hvolta : (if procurar_ativo_id s2.ativos nova.idAtivo ≠ -1 then
        ({ s2.ativos with
            ativo := alterar s2.ativos.ativo (procurar_ativo_id s2.ativos nova.idAtivo)
              (fun a => { a with estado := OPERACIONAL })
            ativosDisponiveis := s2.ativos.ativosDisponiveis + 1 } : Ativos)
      else s2.ativos) = ativos := by
    rw [hs2at, hsobre, hres1]
    have hne : ((i : Nat) : Int) ≠ -1 := by omega
    simp only [ne_eq, hne, not_false_eq_true, if_true]
    have hA1' : ativos1.ativo[((i : Nat) : Int).toNat]? = some { A with estado := EM_MANUTENCAO } := by
      simpa using hA1
    rw [alterar_some _ _ _ _ hA1', hat1]
    simp only [Int.toNat_ofNat, List.set_set]
    have hAA : ({ A with estado := OPERACIONAL } : Ativo) = A := by
      cases A
      simp only [Ativo.mk.injEq, true_and, and_true] at hop ⊢
      exact hop.symm
    simp only [hAA, set_self _ _ _ hA, sub_add_cancel]
  refine ⟨hA1, by rw [hat1], ⟨_, hexecAt, by simp [Ordem.comInicio], by simp [Ordem.comInicio]⟩,
    ?_⟩
  rcases hcasos3 with ⟨hneg, _⟩ | ⟨atual3, _, hat3, _, hc3⟩
  · omega
  simp only [Int.toNat_ofNat] at hat3 hc3
  rw [hexecAt] at hat3
  simp only [Option.some.injEq] at hat3
  subst hat3
  have hlen : ordens.ordem.length < s2.ordens.ordem.length := by
    rw [hs2ord]; simp
  rcases hc3 with ⟨hp, _⟩ | ⟨_, hs3⟩ | ⟨_, hs3⟩
  · simp [Ordem.comInicio] at hp
  · have hat3 : s3.ativos = ativos := by
      rw [hs3]
      simpa [Ordem.comInicio] using hvolta
    refine ⟨⟨({ ({ nova with idTecnico := valor, estado := EXECUCAO }).comInicio
        (carimbo tm2) with estado := CANCELADA }).comFim (carimbo tm3), ?_, ?_, ?_⟩, ?_, ?_, hat3⟩
    · rw [hs3]
      simp only [List.getElem?_set, hlen, if_true]
    · simp [Ordem.comFim, Ordem.comInicio]
    · simp [Ordem.terminal, Ordem.comFim]
    · rw [hat3]; exact hA
    · rw [hat3]
  · have hat3 : s3.ativos = ativos := by
      rw [hs3]
      simpa [Ordem.comInicio] using hvolta
    refine ⟨⟨({ ({ nova with idTecnico := valor, estado := EXECUCAO }).comInicio
        (carimbo tm2) with estado := CONCLUIDA }).comFim (carimbo tm3), ?_, ?_, ?_⟩, ?_, ?_, hat3⟩
    · rw [hs3]
      simp only [List.getElem?_set, hlen, if_true]
    · simp [Ordem.comFim, Ordem.comInicio]
    · simp [Ordem.terminal, Ordem.comFim]
    · rw [hat3]; exact hA
    · rw [hat3]

/-- Witness of C8: asset 11 of `ativosExemplo` goes through order 11, which is
taken by technician 12 and then cancelled. -/
theorem contador_ida_e_volta_spec_witness :
    criar_ordem residuoExemplo ativosExemplo ordensExemplo ⟨entradaCriar, []⟩
      = some (ativosAposCriar, ordensAposCriar, ⟨[], []⟩) ∧
    gerir_ordem (some tmExemplo) ⟨ordensAposCriar, tecnicosExemplo, ativosAposCriar, ⟨[], 0⟩⟩
      ⟨entradaAvancar, []⟩ = some (sistemaDois, ⟨[], []⟩) ∧
    gerir_ordem none sistemaDois ⟨entradaDesistir, []⟩ = some (sistemaTres, ⟨[], []⟩) ∧
    ativosAposCriar.ativosDisponiveis = ativosExemplo.ativosDisponiveis - 1 ∧
    sistemaTres.ativos.ativo[1]? = some (ativoDe 11 OPERACIONAL 4) ∧
    sistemaTres.ativos.ativosDisponiveis = ativosExemplo.ativosDisponiveis ∧
    sistemaTres.ativos = ativosExemplo :=
  have h := contador_ida_e_volta_spec residuoExemplo (some tmExemplo) none
    ativosExemplo ativosAposCriar ordensExemplo ordensAposCriar tecnicosExemplo ⟨[], 0⟩
    ⟨entradaCriar, []⟩ ⟨[], []⟩ ⟨entradaAvancar, []⟩ ⟨[], []⟩ ⟨entradaDesistir, []⟩ ⟨[], []⟩
    sistemaDois sistemaTres 1 (ativoDe 11 OPERACIONAL 4) ordemOnze
    entradaAvancar.tail entradaDesistir.tail
    (by decide) (by decide) (by decide) (by decide) (by decide) (by decide) (by decide)
    (by decide) (by decide) (by decide)
  ⟨by decide, by decide, by decide, h.2.1, h.2.2.2.2.1, h.2.2.2.2.2.1, h.2.2.2.2.2.2⟩

/-! ## Timestamps -/

/-- When every slot that `criar_ordem` fills held zero start and end years,
and no clock reading has year 0, the timestamp invariant holds in every
reachable store. -/
theorem carimbosCoerentes_limpo (s : Sistema)
    (h : AlcancavelCom (fun r => r.anoInicio = 0 ∧ r.anoFim = 0)
      (fun tm => (carimbo tm).ano ≠ 0) s) :
    ∀ o ∈ s.ordens.ordem, o.carimbosCoerentes := by
  induction h with
  | vazio tecnicos ativos materiais => simp
  | passo s s1 _ hp ih =>
    cases hp with
    | criar residuo w w1 ativos1 ordens1 hr hc =>
      rcases criar_ordem_ordens _ _ _ _ _ _ _ hc with ⟨h1, _⟩ | ⟨i, A, p, t, _, _, _, _, h1, _⟩
      · simpa [h1] using ih
      · intro o ho
        simp only [h1, List.mem_append, List.mem_singleton] at ho
        rcases ho with ho | rfl
        · exact ih o ho
        · simp [Ordem.carimbosCoerentes, Ordem.terminal, hr.1, hr.2]
    | gerir _ tmLocal w w1 hclock hg =>
      obtain ⟨idProcurado, e1, _, hcasos⟩ := gerir_ordem_casos _ _ _ _ _ hg
      rcases hcasos with ⟨_, rfl⟩ | ⟨atual, _, hat, _, hc⟩
      · exact ih
      · have hinv := ih atual (List.getElem?_mem hat)
        unfold Ordem.carimbosCoerentes Ordem.terminal at hinv
        intro o ho
        rcases hc with ⟨hp, _, _, _, _, _, _, _, _, _, _, rfl⟩ | ⟨he, rfl⟩ | ⟨he, rfl⟩
        · rcases List.mem_or_eq_of_mem_set ho with ho | rfl
          · exact ih o ho
          · have hfim : atual.anoFim = 0 := by
              by_contra hne
              rcases hinv.2.mpr hne with h | h <;> rw [hp] at h <;> exact absurd h (by decide)
            simp [Ordem.carimbosCoerentes, Ordem.terminal, Ordem.comInicio, hclock, hfim]
        · rcases List.mem_or_eq_of_mem_set ho with ho | rfl
          · exact ih o ho
          · have hini : atual.anoInicio ≠ 0 := by
              intro h0
              have := hinv.1.mpr h0
              rw [he] at this
              exact absurd this (by decide)
            simp [Ordem.carimbosCoerentes, Ordem.terminal, Ordem.comFim, hclock, hini]
        · rcases List.mem_or_eq_of_mem_set ho with ho | rfl
          · exact ih o ho
          · have hini : atual.anoInicio ≠ 0 := by
              intro h0
              have := hinv.1.mpr h0
              rw [he] at this
              exact absurd this (by decide)
            simp [Ordem.carimbosCoerentes, Ordem.terminal, Ordem.comFim, hclock, hini]

/-- C7, evaluated on the code: from an empty order store, one call of `criar_ordem`
whose new slot held stale heap data leaves a pending order whose start year is
not 0 and whose end year is not 0, so the timestamp invariant fails in a
reachable store. -/
theorem criar_ordem_carimbos_por_inicializar :
    criar_ordem residuoExemplo ativosExemplo ⟨[], 0, 0⟩ ⟨entradaCriar, []⟩
      = some (ativosAposCriar, ⟨[{ ordemOnze with idOrdem := 10 }], 1, 5⟩, ⟨[], []⟩) ∧
    AlcancavelCom (fun _ => True) (fun _ => True)
      ⟨⟨[{ ordemOnze with idOrdem := 10 }], 1, 5⟩, tecnicosExemplo, ativosAposCriar, ⟨[], 0⟩⟩ ∧
    ({ ordemOnze with idOrdem := 10 } : Ordem).estado = PENDENTE ∧
    ({ ordemOnze with idOrdem := 10 } : Ordem).anoInicio = 2023 ∧
    ({ ordemOnze with idOrdem := 10 } : Ordem).anoFim = 1999 ∧
    ¬ ({ ordemOnze with idOrdem := 10 } : Ordem).carimbosCoerentes := by
  refine ⟨by decide, ?_, by decide, by decide, by decide, ?_⟩
  · exact AlcancavelCom.passo _ _ (AlcancavelCom.vazio tecnicosExemplo ativosExemplo ⟨[], 0⟩)
      (PassoCom.criar ⟨⟨[], 0, 0⟩, tecnicosExemplo, ativosExemplo, ⟨[], 0⟩⟩ residuoExemplo
        ⟨entradaCriar, []⟩ ⟨[], []⟩ ativosAposCriar ⟨[{ ordemOnze with idOrdem := 10 }], 1, 5⟩
        trivial (by decide))
  · intro h
    have := h.1.mp (by decide)
    exact absurd this (by decide)

/-! ## The fuel of the loops is never the limit

Every prompt of a loop consumes at least one input line, so a loop started
with as much fuel as there are lines stops only when the input is exhausted,
which is where the C loop blocks. -/

theorem criar_ordem_laco_fuel (ativos : Ativos) (n : Nat) (entrada : List Linha)
    (h : entrada.length ≤ n) :
    criar_ordem_laco ativos (n + 1) entrada = criar_ordem_laco ativos n entrada := by
  induction n generalizing entrada with
  | zero =>
    have : entrada = [] := by simpa using h
    subst this
    simp [criar_ordem_laco, obterIntIntervalado]
  | succ k ih =>
    rw [criar_ordem_laco, criar_ordem_laco.eq_def ativos (k + 1)]
    simp only
    split
    · rfl
    · rename_i idProcurado resto hler
      obtain ⟨_, _, hlen⟩ := obterIntIntervalado_some _ _ _ _ _ hler
      have hrec := ih resto (by omega)
      simp only [hrec]

theorem gerir_ordem_laco_tecnico_fuel (tecnicos : Tecnicos) (maxIdTecnicos idEncontrado : Int)
    (n : Nat) (ordens : Ordens) (entrada : List Linha) (h : entrada.length ≤ n) :
    gerir_ordem_laco_tecnico tecnicos maxIdTecnicos idEncontrado (n + 1) ordens entrada
      = gerir_ordem_laco_tecnico tecnicos maxIdTecnicos idEncontrado n ordens entrada := by
  induction n generalizing entrada ordens with
  | zero =>
    have : entrada = [] := by simpa using h
    subst this
    simp [gerir_ordem_laco_tecnico, obterIntIntervalado]
  | succ k ih =>
    rw [gerir_ordem_laco_tecnico,
      gerir_ordem_laco_tecnico.eq_def tecnicos maxIdTecnicos idEncontrado (k + 1)]
    simp only
    split
    · rfl
    · rename_i valor resto hler
      obtain ⟨_, _, hlen⟩ := obterIntIntervalado_some _ _ _ _ _ hler
      have hrec := fun o => ih o resto (by omega)
      simp only [hrec]

theorem obterIntPositivo_length (l : List Linha) (valor : Int) (resto : List Linha)
    (h : obterIntPositivo l = some (valor, resto)) : resto.length < l.length := by
  induction l with
  | nil => simp [obterIntPositivo] at h
  | cons x xs ih =>
    unfold obterIntPositivo at h
    split at h
    · split at h
      · have := ih h
        simp; omega
      · simp only [Option.some.injEq, Prod.mk.injEq] at h
        obtain ⟨_, rfl⟩ := h
        simp
    · have := ih h
      simp; omega

theorem obterFloatPositivo_length (l : List Linha) (valor : CFloat) (resto : List Linha)
    (h : obterFloatPositivo l = some (valor, resto)) : resto.length < l.length := by
  induction l with
  | nil => simp [obterFloatPositivo] at h
  | cons x xs ih =>
    unfold obterFloatPositivo at h
    split at h
    · split at h
      · have := ih h
        simp; omega
      · simp only [Option.some.injEq, Prod.mk.injEq] at h
        obtain ⟨_, rfl⟩ := h
        simp
    · have := ih h
      simp; omega

theorem adicionar_materiais_length (materiais materiais1 : Materiais) (idx : Int) (w w1 : Mundo)
    (h : adicionar_materiais materiais idx w = some (materiais1, w1)) :
    w1.entrada.length ≤ w.entrada.length := by
  unfold adicionar_materiais at h
  split at h
  · split at h
    · exact absurd h (by simp)
    · rename_i e1 hp
      simp only [Option.some.injEq, Prod.mk.injEq] at h
      rw [← h.2]
      cases hw : w.entrada with
      | nil => rw [hw] at hp; simp [pausar_ecra] at hp
      | cons x xs =>
        rw [hw] at hp
        simp only [pausar_ecra, Option.some.injEq] at hp
        subst hp
        simp
  · split at h
    rename_i nome e1 hnome
    have h1 : e1.length ≤ w.entrada.length := by
      cases hw : w.entrada with
      | nil =>
        rw [hw] at hnome
        simp only [lerStringDinamica, Prod.mk.injEq] at hnome
        rw [← hnome.2]
      | cons x xs =>
        rw [hw] at hnome
        simp only [lerStringDinamica, Prod.mk.injEq] at hnome
        rw [← hnome.2]
        simp
    split at h
    · exact absurd h (by simp)
    · rename_i custo e2 hf
      have h2 := obterFloatPositivo_length _ _ _ hf
      split at h
      · exact absurd h (by simp)
      · rename_i quantidade e3 hq
        have h3 := obterIntPositivo_length _ _ _ hq
        simp only [Option.some.injEq, Prod.mk.injEq] at h
        rw [← h.2]
        simp only
        omega

theorem gerir_ordem_laco_materiais_fuel (idOrdem : Int) (n : Nat) (materiais : Materiais)
    (w : Mundo) (h : w.entrada.length ≤ n) :
    gerir_ordem_laco_materiais idOrdem (n + 1) materiais w
      = gerir_ordem_laco_materiais idOrdem n materiais w := by
  induction n generalizing materiais w with
  | zero =>
    have hw : w.entrada = [] := by simpa using h
    rw [gerir_ordem_laco_materiais, gerir_ordem_laco_materiais]
    split
    · rfl
    · rename_i materiais1 w1 hadd
      have := adicionar_materiais_length _ _ _ _ _ hadd
      have hw1 : w1.entrada = [] := by
        rw [hw] at this
        simpa using this
      simp [hw1, obterIntIntervalado]
  | succ k ih =>
    rw [gerir_ordem_laco_materiais, gerir_ordem_laco_materiais.eq_def idOrdem (k + 1)]
    simp only
    split
    · rfl
    · rename_i materiais1 w1 hadd
      have hl1 := adicionar_materiais_length _ _ _ _ _ hadd
      split
      · rfl
      · rename_i sair resto hler
        obtain ⟨_, _, hlen⟩ := obterIntIntervalado_some _ _ _ _ _ hler
        have hrec := ih materiais1 ⟨resto, w1.heap⟩ (by simp only; omega)
        simp only [hrec]

/-! ## Lookups: the first match -/

/-- C13: `procurar_ativo_id` returns `-1` exactly when no asset has the
identifier and is not `ABATIDO`; otherwise it returns the least index of such an
asset, so never the index of a decommissioned one. -/
theorem procurar_ativo_id_spec (ativos : Ativos) (idProcurado : Int) :
    (procurar_ativo_id ativos idProcurado = -1 ↔
      ∀ (i : Nat) (a : Ativo), ativos.ativo[i]? = some a →
        ¬ (a.id = idProcurado ∧ a.estado ≠ ABATIDO)) ∧
    (procurar_ativo_id ativos idProcurado ≠ -1 →
      0 ≤ procurar_ativo_id ativos idProcurado ∧
      ∃ a, ativos.ativo[(procurar_ativo_id ativos idProcurado).toNat]? = some a ∧
        a.id = idProcurado ∧ a.estado ≠ ABATIDO ∧
        ∀ (j : Nat) (b : Ativo), j < (procurar_ativo_id ativos idProcurado).toNat →
          ativos.ativo[j]? = some b → ¬ (b.id = idProcurado ∧ b.estado ≠ ABATIDO)) := by
  unfold procurar_ativo_id
  rw [procurar_ativo_id_desde_eq]
  constructor
  · rw [indiceDesde_eq_neg_one _ _ 0 le_rfl]
    constructor
    · intro h i a hia
      have := h a (List.getElem?_mem hia)
      simpa using this
    · intro h a ha
      obtain ⟨i, hi, hget⟩ := List.getElem_of_mem ha
      have := h i a (by rw [List.getElem?_eq_getElem hi, hget])
      simpa using this
  · intro hne
    obtain ⟨h0, a, ha, hp, hmin⟩ := indiceDesde_hit _ _ 0 le_rfl hne
    simp only [sub_zero] at ha hmin
    refine ⟨h0, a, ha, ?_, ?_, ?_⟩
    · simp only [decide_eq_true_eq] at hp; exact hp.1
    · simp only [decide_eq_true_eq] at hp; exact hp.2
    · intro j b hj hb
      have := hmin j hj b hb
      simpa using this

/-- Witness of C13: in `ativosSistema` identifier 11 resolves to index 1, and
identifier 12, carried only by a decommissioned asset, does not resolve. -/
theorem procurar_ativo_id_spec_witness :
    procurar_ativo_id ativosSistema 12 = -1 ∧
    (0 ≤ procurar_ativo_id ativosSistema 11 ∧
      ∃ a, ativosSistema.ativo[(procurar_ativo_id ativosSistema 11).toNat]? = some a ∧
        a.id = 11 ∧ a.estado ≠ ABATIDO ∧
        ∀ (j : Nat) (b : Ativo), j < (procurar_ativo_id ativosSistema 11).toNat →
          ativosSistema.ativo[j]? = some b → ¬ (b.id = 11 ∧ b.estado ≠ ABATIDO)) :=
  ⟨by decide, (procurar_ativo_id_spec ativosSistema 11).2 (by decide)⟩

/-- C14: `procurar_ordens_id` returns `-1` exactly when no order has the
identifier and is `PENDENTE` or `EXECUCAO`; otherwise it returns the least
index of such an order. -/
theorem procurar_ordens_id_spec (ordens : Ordens) (idProcurado : Int) :
    (procurar_ordens_id ordens idProcurado = -1 ↔
      ∀ (i : Nat) (o : Ordem), ordens.ordem[i]? = some o →
        ¬ (o.idOrdem = idProcurado ∧ (o.estado = PENDENTE ∨ o.estado = EXECUCAO))) ∧
    (procurar_ordens_id ordens idProcurado ≠ -1 →
      0 ≤ procurar_ordens_id ordens idProcurado ∧
      ∃ o, ordens.ordem[(procurar_ordens_id ordens idProcurado).toNat]? = some o ∧
        o.idOrdem = idProcurado ∧ (o.estado = PENDENTE ∨ o.estado = EXECUCAO) ∧
        ∀ (j : Nat) (b : Ordem), j < (procurar_ordens_id ordens idProcurado).toNat →
          ordens.ordem[j]? = some b →
          ¬ (b.idOrdem = idProcurado ∧ (b.estado = PENDENTE ∨ b.estado = EXECUCAO))) := by
  unfold procurar_ordens_id
  rw [procurar_ordens_id_desde_eq]
  constructor
  · rw [indiceDesde_eq_neg_one _ _ 0 le_rfl]
    constructor
    · intro h i o hio
      have := h o (List.getElem?_mem hio)
      simpa using this
    · intro h o ho
      obtain ⟨i, hi, hget⟩ := List.getElem_of_mem ho
      have := h i o (by rw [List.getElem?_eq_getElem hi, hget])
      simpa using this
  · intro hne
    obtain ⟨h0, o, ho, hp, hmin⟩ := indiceDesde_hit _ _ 0 le_rfl hne
    simp only [sub_zero] at ho hmin
    refine ⟨h0, o, ho, ?_, ?_, ?_⟩
    · simp only [decide_eq_true_eq] at hp; exact hp.1
    · simp only [decide_eq_true_eq] at hp; exact hp.2
    · intro j b hj hb
      have := hmin j hj b hb
      simpa using this

/-- Witness of C14: in `ordensSistema` identifier 16 resolves to index 6 and
identifier 17, carried only by a concluded order, does not resolve. -/
theorem procurar_ordens_id_spec_witness :
    procurar_ordens_id ordensSistema 17 = -1 ∧
    (0 ≤ procurar_ordens_id ordensSistema 16 ∧
      ∃ o, ordensSistema.ordem[(procurar_ordens_id ordensSistema 16).toNat]? = some o ∧
        o.idOrdem = 16 ∧ (o.estado = PENDENTE ∨ o.estado = EXECUCAO) ∧
        ∀ (j : Nat) (b : Ordem), j < (procurar_ordens_id ordensSistema 16).toNat →
          ordensSistema.ordem[j]? = some b →
          ¬ (b.idOrdem = 16 ∧ (b.estado = PENDENTE ∨ b.estado = EXECUCAO))) :=
  ⟨by decide, (procurar_ordens_id_spec ordensSistema 16).2 (by decide)⟩

/-! ## Identifier generation -/

/-- The loop shared by the `gerarProximoID` functions, over the list of identifiers. -/
theorem foldl_max_ids {α : Type} (f : α → Int) (l : List α) (maxID : Int) :
    l.foldl (fun maxID x => if f x > maxID then f x else maxID) maxID
      = (l.map f).foldl (fun maxID x => if x > maxID then x else maxID) maxID := by
  induction l generalizing maxID with
  | nil => rfl
  | cons x xs ih => simp only [List.foldl_cons, List.map_cons, ih]

/-- The running maximum started at `maxID`: it bounds `maxID` and every
identifier, and it is `maxID` or one of the identifiers. -/
theorem foldl_max_spec (ids : List Int) (maxID : Int) :
    maxID ≤ ids.foldl (fun maxID x => if x > maxID then x else maxID) maxID ∧
    (∀ x ∈ ids, x ≤ ids.foldl (fun maxID x => if x > maxID then x else maxID) maxID) ∧
    (ids.foldl (fun maxID x => if x > maxID then x else maxID) maxID = maxID ∨
      ids.foldl (fun maxID x => if x > maxID then x else maxID) maxID ∈ ids) := by
  induction ids generalizing maxID with
  | nil => simp
  | cons x xs ih =>
    simp only [List.foldl_cons, List.mem_cons, forall_eq_or_imp]
    obtain ⟨h1, h2, h3⟩ := ih (if x > maxID then x else maxID)
    by_cases hc : x > maxID
    · simp only [hc, if_true] at h1 h2 h3 ⊢
      refine ⟨by omega, ⟨h1, h2⟩, ?_⟩
      rcases h3 with h3 | h3
      · right; left; exact h3
      · right; right; exact h3
    · simp only [hc, if_false] at h1 h2 h3 ⊢
      refine ⟨h1, ⟨by omega, h2⟩, ?_⟩
      rcases h3 with h3 | h3
      · left; exact h3
      · right; right; exact h3

/-- What `maxID + 1` is for a list of identifiers: above every identifier, one
more than a positive maximum, and within the range of `int` when every
identifier is below `INT_MAX`. -/
theorem proximo_spec (ids : List Int) :
    (∀ x ∈ ids, x < ids.foldl (fun maxID x => if x > maxID then x else maxID) 0 + 1) ∧
    (∀ m ∈ ids, (∀ x ∈ ids, x ≤ m) → 0 < m →
      ids.foldl (fun maxID x => if x > maxID then x else maxID) 0 + 1 = m + 1) ∧
    ((∀ x ∈ ids, x < 2147483647) →
      ids.foldl (fun maxID x => if x > maxID then x else maxID) 0 + 1 ≤ 2147483647) := by
  obtain ⟨h1, h2, h3⟩ := foldl_max_spec ids 0
  refine ⟨fun x hx => ?_, fun m hm hmax hpos => ?_, fun hb => ?_⟩
  · have := h2 x hx; omega
  · have := h2 m hm
    rcases h3 with h3 | h3
    · omega
    · have := hmax _ h3; omega
  · rcases h3 with h3 | h3
    · omega
    · have := hb _ h3; omega

/-- C12: for the order, asset and technician stores, `gerarProximoID` returns 10
when the store is empty; for a non-empty store it returns a value greater than
every identifier in the store, equal to the greatest identifier plus 1 when that
one is positive.  When every identifier is below `INT_MAX` the value is at most
`INT_MAX`, so `maxID + 1` does not overflow. -/
theorem gerarProximoID_spec (ordens : Ordens) (ativos : Ativos) (tecnicos : Tecnicos) :
    ((ordens.ordem = [] → gerarProximoID ordens = 10) ∧
     (∀ o ∈ ordens.ordem, o.idOrdem < gerarProximoID ordens) ∧
     (∀ m ∈ ordens.ordem, (∀ o ∈ ordens.ordem, o.idOrdem ≤ m.idOrdem) → 0 < m.idOrdem →
        gerarProximoID ordens = m.idOrdem + 1) ∧
     ((∀ o ∈ ordens.ordem, o.idOrdem < 2147483647) → gerarProximoID ordens ≤ 2147483647)) ∧
    ((ativos.ativo = [] → ativos.gerarProximoID = 10) ∧
     (∀ a ∈ ativos.ativo, a.id < ativos.gerarProximoID) ∧
     (∀ m ∈ ativos.ativo, (∀ a ∈ ativos.ativo, a.id ≤ m.id) → 0 < m.id →
        ativos.gerarProximoID = m.id + 1) ∧
     ((∀ a ∈ ativos.ativo, a.id < 2147483647) → ativos.gerarProximoID ≤ 2147483647)) ∧
    ((tecnicos.tecnico = [] → tecnicos.gerarProximoID = 10) ∧
     (∀ t ∈ tecnicos.tecnico, t.idTecnico < tecnicos.gerarProximoID) ∧
     (∀ m ∈ tecnicos.tecnico, (∀ t ∈ tecnicos.tecnico, t.idTecnico ≤ m.idTecnico) →
        0 < m.idTecnico → tecnicos.gerarProximoID = m.idTecnico + 1) ∧
     ((∀ t ∈ tecnicos.tecnico, t.idTecnico < 2147483647) →
        tecnicos.gerarProximoID ≤ 2147483647)) := by
  refine ⟨?_, ?_, ?_⟩
  · obtain ⟨p1, p2, p3⟩ := proximo_spec (ordens.ordem.map Ordem.idOrdem)
    simp only [List.mem_map, forall_exists_index, and_imp, forall_apply_eq_imp_iff₂] at p1 p2 p3
    unfold gerarProximoID
    rw [foldl_max_ids Ordem.idOrdem]
    by_cases h0 : ordens.ordem = []
    · simp [h0, Ordens.contador]
    · have hc : ¬ ordens.contador = 0 := by simpa [Ordens.contador] using h0
      simp only [hc, if_false]
      exact ⟨fun h => absurd h h0, p1, fun m hm hmax hpos => p2 m hm hmax hpos, fun hb =>
        by simpa [h0] using p3 hb⟩
  · obtain ⟨p1, p2, p3⟩ := proximo_spec (ativos.ativo.map Ativo.id)
    simp only [List.mem_map, forall_exists_index, and_imp, forall_apply_eq_imp_iff₂] at p1 p2 p3
    unfold Ativos.gerarProximoID
    rw [foldl_max_ids Ativo.id]
    by_cases h0 : ativos.ativo = []
    · simp [h0, Ativos.contador]
    · have hc : ¬ ativos.contador = 0 := by simpa [Ativos.contador] using h0
      simp only [hc, if_false]
      exact ⟨fun h => absurd h h0, p1, fun m hm hmax hpos => p2 m hm hmax hpos, fun hb =>
        by simpa [h0] using p3 hb⟩
  · obtain ⟨p1, p2, p3⟩ := proximo_spec (tecnicos.tecnico.map Tecnico.idTecnico)
    simp only [List.mem_map, forall_exists_index, and_imp, forall_apply_eq_imp_iff₂] at p1 p2 p3
    unfold Tecnicos.gerarProximoID
    rw [foldl_max_ids Tecnico.idTecnico]
    by_cases h0 : tecnicos.tecnico = []
    · simp [h0, Tecnicos.contador]
    · have hc : ¬ tecnicos.contador = 0 := by simpa [Tecnicos.contador] using h0
      simp only [hc, if_false]
      exact ⟨fun h => absurd h h0, p1, fun m hm hmax hpos => p2 m hm hmax hpos, fun hb =>
        by simpa [h0] using p3 hb⟩

/-- Witness of C12: the empty stores give 10; `ordensSistema` (identifiers 10
to 17) gives 18, `ativosSistema` (10 to 12) gives 13 and `tecnicosExemplo` (10
to 12) gives 13. -/
theorem gerarProximoID_spec_witness :
    gerarProximoID ⟨[], 0, 0⟩ = 10 ∧ Ativos.gerarProximoID ⟨[], 0, 0⟩ = 10 ∧
    Tecnicos.gerarProximoID ⟨[], 0, 0⟩ = 10 ∧
    gerarProximoID ordensSistema = 17 + 1 ∧ ativosSistema.gerarProximoID = 12 + 1 ∧
    tecnicosExemplo.gerarProximoID = 12 + 1 :=
  ⟨(gerarProximoID_spec ⟨[], 0, 0⟩ ⟨[], 0, 0⟩ ⟨[], 0, 0⟩).1.1 rfl,
   (gerarProximoID_spec ⟨[], 0, 0⟩ ⟨[], 0, 0⟩ ⟨[], 0, 0⟩).2.1.1 rfl,
   (gerarProximoID_spec ⟨[], 0, 0⟩ ⟨[], 0, 0⟩ ⟨[], 0, 0⟩).2.2.1 rfl,
   (gerarProximoID_spec ordensSistema ativosSistema tecnicosExemplo).1.2.2.1
     { ordemExec 17 with estado := CONCLUIDA, anoFim := 2024 } (by decide) (by decide) (by decide),
   (gerarProximoID_spec ordensSistema ativosSistema tecnicosExemplo).2.1.2.2.1
     (ativoDe 12 ABATIDO 4) (by decide) (by decide) (by decide),
   (gerarProximoID_spec ordensSistema ativosSistema tecnicosExemplo).2.2.2.2.1
     ⟨12, some "Eva", 3, OCUPADO, 16⟩ (by decide) (by decide) (by decide)⟩

/-! ## Unstable assets -/

theorem contagem_foldl (idAtivo : Int) (l : List Ordem) (contagem : Int) :
    l.foldl (fun contagem o => if o.idAtivo = idAtivo then contagem + 1 else contagem) contagem
      = contagem + (ordensDoAtivo idAtivo l : Int) := by
  induction l generalizing contagem with
  | nil => simp [ordensDoAtivo]
  | cons o resto ih =>
    simp only [List.foldl_cons, ih]
    by_cases h : o.idAtivo = idAtivo <;>
      simp [ordensDoAtivo, List.countP_cons, h, add_assoc, add_comm]

theorem instaveis_foldl_aux (ordens : Ordens) (l : List Ativo)
    (saida : List (String × Int × Int)) :
    l.foldl
      (fun saida a =>
        if 5 ≤ ordensDoAtivo a.id ordens.ordem then
          saida ++ [(match a.designacao with
                     | some s => s
                     | none => "(sem designação)", a.id,
                     (ordensDoAtivo a.id ordens.ordem : Int))]
        else saida) saida
      = saida ++ (l.filter (fun a => decide (5 ≤ ordensDoAtivo a.id ordens.ordem))).map
          (fun a => (match a.designacao with
                     | some s => s
                     | none => "(sem designação)", a.id, (ordensDoAtivo a.id ordens.ordem : Int))) := by
  induction l generalizing saida with
  | nil => simp
  | cons a resto ih =>
    simp only [List.foldl_cons, ih]
    by_cases h : 5 ≤ ordensDoAtivo a.id ordens.ordem <;> simp [List.filter_cons, h]

theorem instaveis_foldl (ordens : Ordens) (l : List Ativo) (saida : List (String × Int × Int)) :
    l.foldl
      (fun saida a =>
        let contagem := ordens.ordem.foldl
          (fun contagem o => if o.idAtivo = a.id then contagem + 1 else contagem) (0 : Int)
        if contagem ≥ 5 then
          saida ++ [(match a.designacao with
                     | some s => s
                     | none => "(sem designação)", a.id, contagem)]
        else saida) saida
      = saida ++ (l.filter (fun a => decide (5 ≤ ordensDoAtivo a.id ordens.ordem))).map
          (fun a => (match a.designacao with
                     | some s => s
                     | none => "(sem designação)", a.id, (ordensDoAtivo a.id ordens.ordem : Int))) := by
  rw [← instaveis_foldl_aux]
  congr 1
  funext saida a
  simp only [contagem_foldl, zero_add]
  have hiff : ((ordensDoAtivo a.id ordens.ordem : Nat) : Int) ≥ 5
      ↔ 5 ≤ ordensDoAtivo a.id ordens.ordem := by omega
  simp only [hiff]

/-- C18: the lines that `relatorioAtivosInstaveis` prints are, in store order,
those of exactly the assets for which the number of orders (in any state) with
the asset's identifier is at least 5; each line shows that number. -/
theorem relatorioAtivosInstaveis_spec (ativos : Ativos) (ordens : Ordens) :
    relatorioAtivosInstaveis ativos ordens
      = (ativos.ativo.filter (fun a => decide (5 ≤ ordensDoAtivo a.id ordens.ordem))).map
          (fun a => (match a.designacao with
                     | some s => s
                     | none => "(sem designação)", a.id, (ordensDoAtivo a.id ordens.ordem : Int))) := by
  unfold relatorioAtivosInstaveis
  split
  · rename_i h0
    have : ativos.ativo = [] := by simpa [Ativos.contador] using h0
    simp [this]
  · split
    · rename_i h0
      have : ordens.ordem = [] := by simpa [Ordens.contador] using h0
      simp [this, ordensDoAtivo]
    · rw [instaveis_foldl]
      simp

/-! ## Most urgent department -/

theorem pesoPrioridade_nonneg (p : Int) : 0 ≤ pesoPrioridade p := by
  unfold pesoPrioridade
  split_ifs <;> omega

theorem urgencia_nonneg (idDepartamento : Int) (l : List Ordem) :
    0 ≤ urgencia idDepartamento l := by
  unfold urgencia
  apply List.sum_nonneg
  intro x hx
  simp only [List.mem_map] at hx
  obtain ⟨o, _, rfl⟩ := hx
  exact pesoPrioridade_nonneg _

theorem soma_foldl (idDepartamento : Int) (l : List Ordem) (soma : Int) :
    l.foldl
      (fun soma o =>
        if idDepartamento = o.idDepartamento then
          if o.prioridade = BAIXA then soma + 1
          else if o.prioridade = MEDIA then soma + 3
          else if o.prioridade = ALTA then soma + 5
          else soma
        else soma) soma = soma + urgencia idDepartamento l := by
  induction l generalizing soma with
  | nil => simp [urgencia]
  | cons o resto ih =>
    simp only [List.foldl_cons, ih]
    by_cases h : idDepartamento = o.idDepartamento
    · have h1 : o.idDepartamento = idDepartamento := h.symm
      simp only [h, if_true, urgencia, List.filter_cons, decide_True, List.map_cons,
        List.sum_cons, pesoPrioridade]
      split_ifs <;> omega
    · have h1 : ¬ o.idDepartamento = idDepartamento := fun e => h e.symm
      simp [h, h1, urgencia, List.filter_cons]

/-- The department loop ends on the index of a department whose score no
department exceeds. -/
theorem departamentosMaisUrgentes_laco_spec (ordens : Ordens) (resto pre : List Departamento)
    (indice_maior total : Int)
    (hinv1 : ∀ d ∈ pre, urgencia d.idDepartamento ordens.ordem ≤ total)
    (hinv2 : (total = 0 ∧ indice_maior = 0) ∨
      (0 ≤ indice_maior ∧ ∃ d, pre[indice_maior.toNat]? = some d ∧
        urgencia d.idDepartamento ordens.ordem = total))
    (hne : pre ++ resto ≠ []) :
    0 ≤ departamentosMaisUrgentes_laco ordens resto pre.length indice_maior total ∧
    ∃ d, (pre ++ resto)[(departamentosMaisUrgentes_laco ordens resto pre.length
        indice_maior total).toNat]? = some d ∧
      ∀ d1 ∈ pre ++ resto,
        urgencia d1.idDepartamento ordens.ordem ≤ urgencia d.idDepartamento ordens.ordem := by
  induction resto generalizing pre indice_maior total with
  | nil =>
    simp only [departamentosMaisUrgentes_laco, List.append_nil] at hne ⊢
    rcases hinv2 with ⟨ht, hi⟩ | ⟨hi, d, hd, hs⟩
    · subst ht hi
      cases pre with
      | nil => exact absurd rfl hne
      | cons d0 ds =>
        refine ⟨le_rfl, d0, by simp, fun d1 hd1 => ?_⟩
        have := hinv1 d1 hd1
        have := urgencia_nonneg d0.idDepartamento ordens.ordem
        omega
    · exact ⟨hi, d, hd, fun d1 hd1 => by rw [hs]; exact hinv1 d1 hd1⟩
  | cons d resto ih =>
    rw [departamentosMaisUrgentes_laco]
    simp only [soma_foldl, zero_add]
    have hlen : ((pre.length : Int) + 1) = ((pre ++ [d]).length : Int) := by simp
    have happ : pre ++ d :: resto = (pre ++ [d]) ++ resto := by simp
    rw [hlen, happ]
    split
    · rename_i hgt
      apply ih
      · intro d1 hd1
        simp only [List.mem_append, List.mem_singleton] at hd1
        rcases hd1 with hd1 | rfl
        · have := hinv1 d1 hd1; omega
        · exact le_rfl
      · right
        exact ⟨by omega, d, by simp, rfl⟩
      · simp
    · rename_i hle
      apply ih
      · intro d1 hd1
        simp only [List.mem_append, List.mem_singleton] at hd1
        rcases hd1 with hd1 | rfl
        · exact hinv1 d1 hd1
        · omega
      · rcases hinv2 with h | ⟨hi, d0, hd0, hs⟩
        · left; exact h
        · right
          refine ⟨hi, d0, ?_, hs⟩
          have hlt : indice_maior.toNat < pre.length := by
            rcases List.getElem?_eq_some_iff.mp hd0 with ⟨hl, _⟩
            exact hl
          rw [List.getElem?_append_left hlt]
          exact hd0
      · simp

/-- C15: `departamentosMaisUrgentes` returns `"n/a"` when the order store is empty;
when neither the order store nor the department store is empty it returns the
name of a department of the store whose urgency score (the sum, over the orders
carrying the department's identifier, of 1 for `BAIXA`, 3 for `MEDIA`, 5 for
`ALTA`) is at least the score of every department of the store. -/
theorem departamentosMaisUrgentes_spec (departamentos : Departamentos) (ordens : Ordens) :
    (ordens.ordem = [] → departamentosMaisUrgentes departamentos ordens = some (some "n/a")) ∧
    (ordens.ordem ≠ [] → departamentos.departamento ≠ [] →
      ∃ (k : Nat) (d : Departamento), departamentos.departamento[k]? = some d ∧
        departamentosMaisUrgentes departamentos ordens = some d.nomeDepartamento ∧
        ∀ d1 ∈ departamentos.departamento,
          urgencia d1.idDepartamento ordens.ordem ≤ urgencia d.idDepartamento ordens.ordem) := by
  constructor
  · intro h0
    simp [departamentosMaisUrgentes, Ordens.contador, h0]
  · intro ho hd
    have hc : ¬ ordens.contador = 0 := by simpa [Ordens.contador] using ho
    obtain ⟨_, d, hget, hmax⟩ := departamentosMaisUrgentes_laco_spec ordens
      departamentos.departamento [] 0 0 (by simp) (Or.inl ⟨rfl, rfl⟩) (by simpa using hd)
    simp only [List.length_nil, Nat.cast_zero, List.nil_append] at hget hmax
    refine ⟨_, d, hget, ?_, hmax⟩
    simp only [departamentosMaisUrgentes, hc, if_false, hget]

/-- Witness of C15: department 4 has score 5 and department 3 has score 2, so
the name returned is that of department 4. -/
theorem departamentosMaisUrgentes_spec_witness :
    departamentosMaisUrgentes departamentosExemplo ⟨[], 0, 0⟩ = some (some "n/a") ∧
    departamentosMaisUrgentes departamentosExemplo ordensUrgencia = some (some "Informatica") ∧
    urgencia 3 ordensUrgencia.ordem = 2 ∧ urgencia 4 ordensUrgencia.ordem = 5 ∧
    ∃ (k : Nat) (d : Departamento), departamentosExemplo.departamento[k]? = some d ∧
      departamentosMaisUrgentes departamentosExemplo ordensUrgencia = some d.nomeDepartamento ∧
      ∀ d1 ∈ departamentosExemplo.departamento,
        urgencia d1.idDepartamento ordensUrgencia.ordem
          ≤ urgencia d.idDepartamento ordensUrgencia.ordem :=
  ⟨(departamentosMaisUrgentes_spec departamentosExemplo ⟨[], 0, 0⟩).1 rfl, by decide, by decide,
   by decide,
   (departamentosMaisUrgentes_spec departamentosExemplo ordensUrgencia).2 (by decide)
     (by decide)⟩

/-! ## Orders per location -/

theorem relatorioProblemasPorLocal_procurar_eq (local_ : String) (l : List (String × Int))
    (k : Int) :
    relatorioProblemasPorLocal_procurar local_ l k
      = indiceDesde (fun b => decide (b.1 = local_)) l k := by
  induction l generalizing k with
  | nil => rfl
  | cons b resto ih => simp [relatorioProblemasPorLocal_procurar, indiceDesde, ih]

theorem incidencias_append (local_ : String) (pre : List Ativo) (a : Ativo) (ordens : List Ordem) :
    incidencias local_ (pre ++ [a]) ordens
      = incidencias local_ pre ordens
        + (if localMapeado a = local_ then (ordensDoAtivo a.id ordens : Int) else 0) := by
  unfold incidencias
  by_cases h : localMapeado a = local_ <;> simp [List.filter_append, List.filter_cons, h]

/-- The count of a string that has no bucket yet is 0. -/
theorem incidencias_sem_balde (ordens : List Ordem) (pre : List Ativo)
    (baldes : List (String × Int)) (local_ : String)
    (h3 : ∀ a ∈ pre, 0 < ordensDoAtivo a.id ordens → localMapeado a ∈ baldes.map Prod.fst)
    (hk : local_ ∉ baldes.map Prod.fst) : incidencias local_ pre ordens = 0 := by
  unfold incidencias
  apply List.sum_eq_zero
  intro x hx
  simp only [List.mem_map, List.mem_filter, decide_eq_true_eq] at hx
  obtain ⟨a, ⟨ha, hloc⟩, rfl⟩ := hx
  by_contra hne
  have hpos : 0 < ordensDoAtivo a.id ordens := by omega
  exact hk (hloc ▸ h3 a ha hpos)

/-- The loop body keeps the buckets in agreement with the assets processed. -/
theorem relatorioProblemasPorLocal_corpo_inv (ordens : Ordens) (pre : List Ativo)
    (baldes : List (String × Int)) (a : Ativo)
    (hinv : baldesCoerentes ordens.ordem pre baldes) :
    baldesCoerentes ordens.ordem (pre ++ [a])
      (relatorioProblemasPorLocal_corpo ordens baldes a) := by
  obtain ⟨h1, h2, h3, h4⟩ := hinv
  have hloc : (match a.localizacao with
      | none => "(sem local)"
      | some s => if s = "" then "(sem local)" else s) = localMapeado a := rfl
  unfold relatorioProblemasPorLocal_corpo
  simp only [contagem_foldl, zero_add, hloc, relatorioProblemasPorLocal_procurar_eq]
  by_cases hc : ordensDoAtivo a.id ordens.ordem = 0
  · -- an asset without orders
    simp only [hc, Nat.cast_zero, if_true]
    refine ⟨h1, ?_, ?_, ?_⟩
    · intro j b hb
      obtain ⟨p1, p2⟩ := h2 j b hb
      refine ⟨p1, ?_⟩
      rw [incidencias_append, hc]
      simp [p2]
    · intro x hx hpos
      simp only [List.mem_append, List.mem_singleton] at hx
      rcases hx with hx | rfl
      · exact h3 x hx hpos
      · omega
    · intro b hb
      obtain ⟨x, hx, e1, e2⟩ := h4 b hb
      exact ⟨x, by simp [hx], e1, e2⟩
  · have hcz : ¬ ((ordensDoAtivo a.id ordens.ordem : Nat) : Int) = 0 := by omega
    have hpos : 0 < ordensDoAtivo a.id ordens.ordem := by omega
    simp only [hcz, if_false]
    by_cases hfind : indiceDesde (fun b => decide (b.1 = localMapeado a)) baldes 0 = -1
    · -- a new bucket
      simp only [hfind, if_true]
      have hmiss := (indiceDesde_eq_neg_one _ _ 0 le_rfl).mp hfind
      have hk : localMapeado a ∉ baldes.map Prod.fst := by
        intro hmem
        simp only [List.mem_map] at hmem
        obtain ⟨b, hb, hb1⟩ := hmem
        have := hmiss b hb
        simp [hb1] at this
      refine ⟨?_, ?_, ?_, ?_⟩
      · rw [List.map_append, List.nodup_append]
        refine ⟨h1, by simp, ?_⟩
        intro x hx1 hx2
        simp only [List.map_cons, List.map_nil, List.mem_singleton] at hx2
        exact hk (hx2 ▸ hx1)
      · intro j b hb
        rw [incidencias_append]
        by_cases hj : j < baldes.length
        · rw [List.getElem?_append_left hj] at hb
          obtain ⟨p1, p2⟩ := h2 j b hb
          have hne : ¬ localMapeado a = b.1 := by
            intro e
            exact hk (e ▸ List.mem_map_of_mem Prod.fst (List.getElem?_mem hb))
          simp only [hne, if_false, add_zero]
          exact ⟨p1, p2⟩
        · rw [List.getElem?_append_right (by omega)] at hb
          have hb' : b = (localMapeado a, (ordensDoAtivo a.id ordens.ordem : Int)) := by
            cases hjj : j - baldes.length with
            | zero => rw [hjj] at hb; simpa using hb.symm
            | succ n => rw [hjj] at hb; simp at hb
          subst hb'
          simp only [if_true]
          rw [incidencias_sem_balde ordens.ordem pre baldes _ h3 hk]
          exact ⟨by omega, by omega⟩
      · intro x hx hp
        simp only [List.mem_append, List.mem_singleton] at hx
        rw [List.map_append, List.mem_append]
        rcases hx with hx | rfl
        · left; exact h3 x hx hp
        · right; simp
      · intro b hb
        simp only [List.mem_append, List.mem_singleton] at hb
        rcases hb with hb | rfl
        · obtain ⟨x, hx, e1, e2⟩ := h4 b hb
          exact ⟨x, by simp [hx], e1, e2⟩
        · exact ⟨a, by simp, rfl, hpos⟩
    · -- an existing bucket
      simp only [hfind, if_false]
      obtain ⟨hr0, b0, hb0, hp0, _⟩ := indiceDesde_hit _ _ 0 le_rfl hfind
      simp only [sub_zero, decide_eq_true_eq] at hb0 hp0
      generalize indiceDesde (fun b => decide (b.1 = localMapeado a)) baldes 0 = r at hb0 hr0
      rw [alterar_some _ _ _ _ hb0]
      have hlt : r.toNat < baldes.length := by
        rcases List.getElem?_eq_some_iff.mp hb0 with ⟨hl, _⟩
        exact hl
      have hkeys : (baldes.set r.toNat (b0.1, b0.2 + (ordensDoAtivo a.id ordens.ordem : Int))).map
          Prod.fst = baldes.map Prod.fst := by
        rw [List.map_set]
        exact set_self _ _ _ (by simp [List.getElem?_map, hb0])
      refine ⟨by rw [hkeys]; exact h1, ?_, ?_, ?_⟩
      · intro j b hb
        rw [incidencias_append]
        by_cases hj : r.toNat = j
        · subst hj
          simp only [List.getElem?_set, hlt, if_true, Option.some.injEq] at hb
          subst hb
          obtain ⟨p1, p2⟩ := h2 _ b0 hb0
          simp only [hp0, if_true]
          rw [hp0] at p2
          exact ⟨by omega, by omega⟩
        · simp only [List.getElem?_set, hj, if_false] at hb
          obtain ⟨p1, p2⟩ := h2 j b hb
          have hne : ¬ localMapeado a = b.1 := by
            intro e
            have hjlt : j < (baldes.map Prod.fst).length := by
              rcases List.getElem?_eq_some_iff.mp hb with ⟨hl, _⟩
              simpa using hl
            have := List.getElem?_inj hjlt h1
              (by simp [List.getElem?_map, hb, hb0, hp0, e] :
                (baldes.map Prod.fst)[j]? = (baldes.map Prod.fst)[r.toNat]?)
            exact hj this.symm
          simp only [hne, if_false, add_zero]
          exact ⟨p1, p2⟩
      · intro x hx hp
        rw [hkeys]
        simp only [List.mem_append, List.mem_singleton] at hx
        rcases hx with hx | rfl
        · exact h3 x hx hp
        · rw [← hp0]
          exact List.mem_map_of_mem Prod.fst (List.getElem?_mem hb0)
      · intro b hb
        rcases List.mem_or_eq_of_mem_set hb with hb | rfl
        · obtain ⟨x, hx, e1, e2⟩ := h4 b hb
          exact ⟨x, by simp [hx], e1, e2⟩
        · exact ⟨a, by simp, hp0.symm, hpos⟩

theorem relatorioProblemasPorLocal_foldl_inv (ordens : Ordens) (resto pre : List Ativo)
    (baldes : List (String × Int)) (hinv : baldesCoerentes ordens.ordem pre baldes) :
    baldesCoerentes ordens.ordem (pre ++ resto)
      (resto.foldl (relatorioProblemasPorLocal_corpo ordens) baldes) := by
  induction resto generalizing pre baldes with
  | nil => simpa using hinv
  | cons a resto ih =>
    have := ih (pre ++ [a]) _ (relatorioProblemasPorLocal_corpo_inv ordens pre baldes a hinv)
    simpa using this

/-- The buckets printed agree with the whole asset store. -/
theorem relatorioProblemasPorLocal_coerente (ativos : Ativos) (ordens : Ordens) :
    baldesCoerentes ordens.ordem ativos.ativo (relatorioProblemasPorLocal ativos ordens) := by
  unfold relatorioProblemasPorLocal
  split
  · rename_i h0
    have : ativos.ativo = [] := by simpa [Ativos.contador] using h0
    simp [this, baldesCoerentes]
  · split
    · rename_i h0
      have : ordens.ordem = [] := by simpa [Ordens.contador] using h0
      simp [this, baldesCoerentes, ordensDoAtivo]
    · have := relatorioProblemasPorLocal_foldl_inv ordens ativos.ativo [] []
        (by simp [baldesCoerentes])
      simpa using this

/-- C17: the buckets that `relatorioProblemasPorLocal` prints have pairwise
distinct strings; an asset is counted under its location string, or under
`"(sem local)"` when the location is absent or empty; the count of each bucket
is positive and is the sum, over the assets counted under the bucket's string
(equality of strings), of the number of orders with the asset's identifier;
every bucket has an asset with at least one order, and every asset with at
least one order has its bucket. -/
theorem relatorioProblemasPorLocal_spec (ativos : Ativos) (ordens : Ordens) :
    ((relatorioProblemasPorLocal ativos ordens).map Prod.fst).Nodup ∧
    (∀ a : Ativo, (a.localizacao = none ∨ a.localizacao = some "") →
      localMapeado a = "(sem local)") ∧
    (∀ (a : Ativo) (s : String), a.localizacao = some s → s ≠ "" → localMapeado a = s) ∧
    (∀ b ∈ relatorioProblemasPorLocal ativos ordens,
      0 < b.2 ∧
      b.2 = ((ativos.ativo.filter (fun a => decide (localMapeado a = b.1))).map
        (fun a => (ordensDoAtivo a.id ordens.ordem : Int))).sum) ∧
    (∀ b ∈ relatorioProblemasPorLocal ativos ordens,
      ∃ a ∈ ativos.ativo, localMapeado a = b.1 ∧ 0 < ordensDoAtivo a.id ordens.ordem) ∧
    (∀ a ∈ ativos.ativo, 0 < ordensDoAtivo a.id ordens.ordem →
      ∃ c, (localMapeado a, c) ∈ relatorioProblemasPorLocal ativos ordens) := by
  obtain ⟨h1, h2, h3, h4⟩ := relatorioProblemasPorLocal_coerente ativos ordens
  refine ⟨h1, ?_, ?_, ?_, h4, ?_⟩
  · intro a ha
    rcases ha with ha | ha <;> simp [localMapeado, ha]
  · intro a s ha hs
    simp [localMapeado, ha, hs]
  · intro b hb
    obtain ⟨j, hj, hget⟩ := List.getElem_of_mem hb
    exact h2 j b (by rw [List.getElem?_eq_getElem hj, hget])
  · intro a ha hpos
    have := h3 a ha hpos
    simp only [List.mem_map] at this
    obtain ⟨b, hb, hb1⟩ := this
    exact ⟨b.2, by rw [← hb1]; exact hb⟩

/-- Witness of C17: with the orders of `ordensSistema` (six on asset 10, two on
asset 11) two buckets are printed, "Sala 1" with 12 and the placeholder with 4. -/
theorem relatorioProblemasPorLocal_spec_witness :
    relatorioProblemasPorLocal ativosLocais ordensSistema
      = [("Sala 1", 12), ("(sem local)", 4)] ∧
    (0 < (12 : Int) ∧
      (12 : Int) = ((ativosLocais.ativo.filter
          (fun a => decide (localMapeado a = "Sala 1"))).map
        (fun a => (ordensDoAtivo a.id ordensSistema.ordem : Int))).sum) ∧
    ∃ c, ("(sem local)", c) ∈ relatorioProblemasPorLocal ativosLocais ordensSistema :=
  ⟨by decide,
   (relatorioProblemasPorLocal_spec ativosLocais ordensSistema).2.2.2.1 ("Sala 1", 12)
     (by decide),
   (relatorioProblemasPorLocal_spec ativosLocais ordensSistema).2.2.2.2.2
     { ativoDe 11 EM_MANUTENCAO 4 with localizacao := none } (by decide) (by decide)⟩

/-- A run of `relatorioAtivosInstaveis`: with the orders of `ordensSistema` asset
10, which has six orders, is flagged under both of its records, and asset 11,
which has two, is not. -/
theorem relatorioAtivosInstaveis_exemplo :
    relatorioAtivosInstaveis ativosLocais ordensSistema
      = [("Portatil", 10, 6), ("Portatil", 10, 6)] := by
  decide

/-! ## Ranking of the technicians -/

/-- C16, evaluated on the code: with three technicians and two orders, both
concluded by the third technician, the sorting loops (bounded by the number of
orders, not of technicians) compare only the first two entries; the ranking
printed has the technician with two concluded orders last, so the counts are
not non-increasing.  With more orders than technicians the loops read beyond
the array. -/
theorem mostrarRankingDesempenho_por_ordenar :
    mostrarRankingDesempenho tecnicosExemplo ordensRanking
      = some [⟨10, "Ana", 0⟩, ⟨11, "Rui", 0⟩, ⟨12, "Eva", 2⟩] ∧
    ¬ List.Pairwise (fun a b : AuxRanking => a.totalConcluidas ≥ b.totalConcluidas)
        [⟨10, "Ana", 0⟩, ⟨11, "Rui", 0⟩, ⟨12, "Eva", 2⟩] ∧
    mostrarRankingDesempenho_ordenar tecnicosExemplo.tecnico.length
        [⟨10, "Ana", 0⟩, ⟨11, "Rui", 0⟩, ⟨12, "Eva", 2⟩]
      = some [⟨12, "Eva", 2⟩, ⟨10, "Ana", 0⟩, ⟨11, "Rui", 0⟩] ∧
    mostrarRankingDesempenho tecnicosExemplo ordensSistema = none := by
  refine ⟨by decide, by decide, by decide, by decide⟩

/-! ## Single precision arithmetic on small integers -/

theorem numBits_le (fuel n k : Nat) (h : n < 2 ^ k) : CFloat.numBits fuel n ≤ k := by
  induction fuel generalizing n k with
  | zero => simp [CFloat.numBits]
  | succ fuel ih =>
    unfold CFloat.numBits
    split
    · omega
    · rename_i hn
      cases k with
      | zero => simp at h; omega
      | succ k =>
        have : n / 2 < 2 ^ k := by
          rw [pow_succ] at h
          omega
        have := ih (n / 2) k this
        omega

theorem numBits_lt (fuel n : Nat) (h : n < 2 ^ fuel) : n < 2 ^ CFloat.numBits fuel n := by
  induction fuel generalizing n with
  | zero =>
    simp at h
    simp [CFloat.numBits, h]
  | succ fuel ih =>
    unfold CFloat.numBits
    split
    · rename_i hn
      simp [hn]
    · have h2 : n / 2 < 2 ^ fuel := by
        rw [pow_succ] at h
        omega
      have := ih (n / 2) h2
      rw [pow_succ]
      omega

theorem numBits_ge (fuel n : Nat) (hn : n ≠ 0) : 2 ^ (CFloat.numBits fuel n - 1) ≤ n := by
  induction fuel generalizing n with
  | zero =>
    simp [CFloat.numBits]
    omega
  | succ fuel ih =>
    unfold CFloat.numBits
    rw [if_neg hn]
    simp only [Nat.add_sub_cancel]
    by_cases h2 : n / 2 = 0
    · have : CFloat.numBits fuel (n / 2) = 0 := by
        rw [h2]
        cases fuel <;> simp [CFloat.numBits]
      rw [this]
      simp
      omega
    · have := ih (n / 2) h2
      have h3 : 1 ≤ CFloat.numBits fuel (n / 2) ∨ CFloat.numBits fuel (n / 2) = 0 := by omega
      rcases h3 with h3 | h3
      · have e : CFloat.numBits fuel (n / 2) = (CFloat.numBits fuel (n / 2) - 1) + 1 := by omega
        rw [e, pow_succ]
        omega
      · rw [h3]
        simp
        omega

theorem self_lt_two_pow_succ (n : Nat) : n < 2 ^ (n + 1) := by
  have := Nat.lt_two_pow n
  rw [pow_succ]
  omega

theorem reduzir_mant_neg (fuel : Nat) (m e : Int) :
    (CFloat.reduzir fuel m e).mant < 0 ↔ m < 0 := by
  induction fuel generalizing m e with
  | zero => simp [CFloat.reduzir]
  | succ fuel ih =>
    unfold CFloat.reduzir
    split
    · rename_i h0
      simp [h0]
    · split
      · rw [ih]
        omega
      · rfl

theorem arredondar_mant_neg (m e : Int) : (CFloat.arredondar m e).mant < 0 ↔ m < 0 := by
  unfold CFloat.arredondar
  simp only
  split
  · exact reduzir_mant_neg _ _ _
  · rename_i hb
    rw [reduzir_mant_neg]
    have hm : m.natAbs ≠ 0 := by
      intro h0
      rw [h0] at hb
      simp [CFloat.numBits] at hb
    have hge := numBits_ge (m.natAbs + 1) m.natAbs hm
    have hq : 1 ≤ m.natAbs / 2 ^ (CFloat.numBits (m.natAbs + 1) m.natAbs - 24) := by
      rw [Nat.one_le_div_iff (by positivity)]
      refine le_trans (Nat.pow_le_pow_right (by decide) ?_) hge
      omega
    constructor
    · intro h
      by_contra hc
      rw [if_neg hc] at h
      exact absurd h (not_lt.mpr (Int.ofNat_nonneg _))
    · intro h
      rw [if_pos h]
      split <;> omega

theorem ofInt_negativo (d : Int) : (CFloat.ofInt d).negativo = decide (d < 0) := by
  unfold CFloat.negativo CFloat.ofInt
  simp only [arredondar_mant_neg]

/-! ## Resolution time -/

theorem tempoMedioResolucaoOrdens_laco_eq (mktime : Tm → Int) (l : List Ordem) (soma : CFloat)
    (total : Int) :
    tempoMedioResolucaoOrdens_laco mktime l soma total
      = ((((l.filter (contada mktime)).map
            (fun o => CFloat.ofInt (deltaSegundos mktime o))).foldl CFloat.add soma),
         total + ((l.filter (contada mktime)).length : Int)) := by
  induction l generalizing soma total with
  | nil => simp [tempoMedioResolucaoOrdens_laco]
  | cons o resto ih =>
    unfold tempoMedioResolucaoOrdens_laco
    by_cases h1 : o.estado = CONCLUIDA
    · rw [if_pos h1]
      by_cases h2 : o.anoInicio = 0 ∨ o.anoFim = 0
      · rw [if_pos h2, ih]
        have hc : contada mktime o = false := by
          simp only [contada, decide_eq_false_iff_not]
          rintro ⟨_, h3, h4, _⟩
          rcases h2 with h2 | h2
          · exact h3 h2
          · exact h4 h2
        simp [List.filter_cons, hc]
      · rw [if_neg h2]
        simp only
        by_cases h3 : mktime o.tmInicio = -1 ∨ mktime o.tmFim = -1
        · rw [if_pos h3, ih]
          have hc : contada mktime o = false := by
            simp only [contada, decide_eq_false_iff_not]
            rintro ⟨_, _, _, h4, h5, _⟩
            rcases h3 with h3 | h3
            · exact h4 h3
            · exact h5 h3
          simp [List.filter_cons, hc]
        · rw [if_neg h3, ofInt_negativo]
          by_cases h4 : mktime o.tmFim - mktime o.tmInicio < 0
          · rw [if_pos (by simpa using h4), ih]
            have hc : contada mktime o = false := by
              simp only [contada, decide_eq_false_iff_not, deltaSegundos]
              rintro ⟨_, _, _, _, _, h5⟩
              omega
            simp [List.filter_cons, hc]
          · rw [if_neg (by simpa using h4), ih]
            have hc : contada mktime o = true := by
              simp only [contada, decide_eq_true_eq, deltaSegundos]
              push_neg at h2 h3
              exact ⟨h1, h2.1, h2.2, h3.1, h3.2, by omega⟩
            simp [List.filter_cons, hc, deltaSegundos]
            omega
    · rw [if_neg h1, ih]
      have hc : contada mktime o = false := by
        simp only [contada, decide_eq_false_iff_not]
        rintro ⟨h2, _⟩
        exact h1 h2
      simp [List.filter_cons, hc]

theorem reduzir_zero (fuel : Nat) (e : Int) (h : 1 ≤ fuel) :
    CFloat.reduzir fuel 0 e = ⟨0, 0⟩ := by
  cases fuel with
  | zero => omega
  | succ fuel => simp [CFloat.reduzir]

theorem reduzir_fuel (f g : Nat) (m e : Int) (hf : m.natAbs < 2 ^ f) (hg : m.natAbs < 2 ^ g)
    (h1 : 1 ≤ f) (h2 : 1 ≤ g) : CFloat.reduzir f m e = CFloat.reduzir g m e := by
  induction f generalizing g m e with
  | zero => omega
  | succ f ih =>
    cases g with
    | zero => omega
    | succ g =>
      unfold CFloat.reduzir
      by_cases h0 : m = 0
      · simp [h0]
      · rw [if_neg h0, if_neg h0]
        by_cases hp : m % 2 = 0
        · rw [if_pos hp, if_pos hp]
          have hm : 2 ≤ m.natAbs := by omega
          have hf1 : 1 ≤ f := by
            by_contra hc
            have : f = 0 := by omega
            subst this
            simp at hf
            omega
          have hg1 : 1 ≤ g := by
            by_contra hc
            have : g = 0 := by omega
            subst this
            simp at hg
            omega
          have hd : (m / 2).natAbs = m.natAbs / 2 := by omega
          apply ih
          · rw [hd]
            rw [pow_succ] at hf
            omega
          · rw [hd]
            rw [pow_succ] at hg
            omega
          · exact hf1
          · exact hg1
        · rw [if_neg hp, if_neg hp]

theorem reduzir_succ (fuel : Nat) (m e : Int) :
    CFloat.reduzir (fuel + 1) m e
      = if m = 0 then ⟨0, 0⟩
        else if m % 2 = 0 then CFloat.reduzir fuel (m / 2) (e + 1) else ⟨m, e⟩ := rfl

theorem reduzir_shift (j f : Nat) (m e : Int) (h1 : 1 ≤ f) :
    CFloat.reduzir (f + j) (m * 2 ^ j) e = CFloat.reduzir f m (e + j) := by
  induction j generalizing e with
  | zero => simp
  | succ j ih =>
    have hfj : f + (j + 1) = (f + j) + 1 := by omega
    rw [hfj, reduzir_succ]
    by_cases h0 : m = 0
    · subst h0
      simp [reduzir_zero f _ h1]
    · have hne : m * 2 ^ (j + 1) ≠ 0 := by positivity
      rw [if_neg hne]
      have hev : m * 2 ^ (j + 1) % 2 = 0 := by
        rw [pow_succ, ← mul_assoc]
        exact Int.mul_emod_left _ _
      rw [if_pos hev]
      have hdiv : m * 2 ^ (j + 1) / 2 = m * 2 ^ j := by
        rw [pow_succ, ← mul_assoc]
        exact Int.mul_ediv_cancel _ (by decide)
      rw [hdiv, ih]
      congr 1
      push_cast
      ring

theorem reduzir_decomp (f : Nat) (n e : Int) (he : 0 ≤ e) :
    0 ≤ (CFloat.reduzir f n e).expo ∧
    (CFloat.reduzir f n e).mant * 2 ^ (CFloat.reduzir f n e).expo.toNat = n * 2 ^ e.toNat := by
  induction f generalizing n e with
  | zero => simp [CFloat.reduzir, he]
  | succ f ih =>
    unfold CFloat.reduzir
    by_cases h0 : n = 0
    · simp [h0]
    · rw [if_neg h0]
      by_cases hp : n % 2 = 0
      · rw [if_pos hp]
        obtain ⟨i1, i2⟩ := ih (n / 2) (e + 1) (by omega)
        refine ⟨i1, ?_⟩
        rw [i2]
        have : (e + 1).toNat = e.toNat + 1 := by omega
        rw [this, pow_succ]
        have hn : n = n / 2 * 2 := by omega
        nth_rewrite 2 [hn]
        ring
      · rw [if_neg hp]
        exact ⟨he, rfl⟩

theorem arredondar_pequeno (m e : Int) (h : m.natAbs < 2 ^ 24) :
    CFloat.arredondar m e = CFloat.reduzir 25 m e := by
  unfold CFloat.arredondar
  simp only
  have hb := numBits_le (m.natAbs + 1) m.natAbs 24 h
  rw [if_pos hb]
  have hlt := numBits_lt (m.natAbs + 1) m.natAbs (self_lt_two_pow_succ _)
  apply reduzir_fuel
  · rw [pow_succ]
    omega
  · calc m.natAbs < 2 ^ 24 := h
      _ ≤ 2 ^ 25 := by norm_num
  · omega
  · omega

theorem ofInt_pequeno (a : Int) (h : a.natAbs < 2 ^ 24) :
    CFloat.ofInt a = CFloat.reduzir 25 a 0 :=
  arredondar_pequeno a 0 h

theorem natAbs_le_of_mul_pow (m s : Int) (j : Nat) (h : m * 2 ^ j = s) :
    m.natAbs ≤ s.natAbs := by
  have hp : 1 ≤ (2 : Nat) ^ j := Nat.one_le_two_pow
  have : s.natAbs = m.natAbs * 2 ^ j := by
    rw [← h, Int.natAbs_mul, Int.natAbs_pow]
    rfl
  rw [this]
  exact Nat.le_mul_of_pos_right _ hp

theorem reduzir_valor (m s e : Int) (he : 0 ≤ e) (h : m * 2 ^ e.toNat = s)
    (hs : s.natAbs < 2 ^ 24) : CFloat.reduzir 25 m e = CFloat.reduzir 25 s 0 := by
  have hm : m.natAbs < 2 ^ 25 := by
    have := natAbs_le_of_mul_pow m s e.toNat h
    have : (2 : Nat) ^ 24 ≤ 2 ^ 25 := by norm_num
    omega
  have h1 := reduzir_shift e.toNat 25 m 0 (by decide)
  rw [h] at h1
  have h2 : (0 : Int) + (e.toNat : Int) = e := by omega
  rw [h2] at h1
  rw [← h1]
  apply reduzir_fuel
  · calc s.natAbs < 2 ^ 24 := hs
      _ ≤ 2 ^ (25 + e.toNat) := Nat.pow_le_pow_right (by decide) (by omega)
  · calc s.natAbs < 2 ^ 24 := hs
      _ ≤ 2 ^ 25 := by norm_num
  · omega
  · decide

/-- Single precision addition is exact on integers below `2 ^ 24`. -/
theorem add_ofInt (a b : Int) (ha : a.natAbs < 2 ^ 24) (hb : b.natAbs < 2 ^ 24)
    (hab : (a + b).natAbs < 2 ^ 24) :
    CFloat.add (CFloat.ofInt a) (CFloat.ofInt b) = CFloat.ofInt (a + b) := by
  rw [ofInt_pequeno a ha, ofInt_pequeno b hb, ofInt_pequeno (a + b) hab]
  obtain ⟨a1, a2⟩ := reduzir_decomp 25 a 0 (le_refl _)
  obtain ⟨b1, b2⟩ := reduzir_decomp 25 b 0 (le_refl _)
  simp only [Int.toNat_zero, pow_zero, mul_one] at a2 b2
  generalize CFloat.reduzir 25 a 0 = A at a1 a2 ⊢
  generalize CFloat.reduzir 25 b 0 = B at b1 b2 ⊢
  unfold CFloat.add
  simp only
  have he : 0 ≤ min A.expo B.expo := le_min a1 b1
  have hval : (A.mant * 2 ^ (A.expo - min A.expo B.expo).toNat
        + B.mant * 2 ^ (B.expo - min A.expo B.expo).toNat) * 2 ^ (min A.expo B.expo).toNat
      = a + b := by
    rw [add_mul, mul_assoc, mul_assoc, ← pow_add, ← pow_add, ← a2, ← b2]
    have e1 : (A.expo - min A.expo B.expo).toNat + (min A.expo B.expo).toNat = A.expo.toNat := by
      have := min_le_left A.expo B.expo
      omega
    have e2 : (B.expo - min A.expo B.expo).toNat + (min A.expo B.expo).toNat = B.expo.toNat := by
      have := min_le_right A.expo B.expo
      omega
    rw [e1, e2]
  have hm := natAbs_le_of_mul_pow _ _ _ hval
  rw [arredondar_pequeno _ _ (lt_of_le_of_lt hm hab)]
  exact reduzir_valor _ _ _ he hval hab

theorem foldl_add_ofInt (ds : List Int) (acc : Int) (hds : ∀ d ∈ ds, 0 ≤ d) (hacc : 0 ≤ acc)
    (h : acc + ds.sum < 2 ^ 24) :
    (ds.map CFloat.ofInt).foldl CFloat.add (CFloat.ofInt acc) = CFloat.ofInt (acc + ds.sum) := by
  induction ds generalizing acc with
  | nil => simp
  | cons d resto ih =>
    have hd : 0 ≤ d := hds d (List.mem_cons_self _ _)
    have hr : ∀ x ∈ resto, 0 ≤ x := fun x hx => hds x (List.mem_cons_of_mem _ hx)
    have hsum : 0 ≤ resto.sum := List.sum_nonneg hr
    simp only [List.sum_cons] at h
    simp only [List.map_cons, List.foldl_cons, List.sum_cons]
    rw [add_ofInt acc d (by omega) (by omega) (by omega), ih (acc + d) hr (by omega) (by omega)]
    congr 1
    ring

theorem tempoMedioResolucaoOrdens_eq (mktime : Tm → Int) (ordens : Ordens) :
    tempoMedioResolucaoOrdens mktime (some ordens)
      = if (ordens.ordem.filter (contada mktime)).length = 0 then CFloat.zero
        else CFloat.div
          (((ordens.ordem.filter (contada mktime)).map
            (fun o => CFloat.ofInt (deltaSegundos mktime o))).foldl CFloat.add CFloat.zero)
          (CFloat.ofInt ((ordens.ordem.filter (contada mktime)).length : Int)) := by
  unfold tempoMedioResolucaoOrdens
  simp only [tempoMedioResolucaoOrdens_laco_eq, zero_add]
  by_cases h0 : ordens.contador = 0
  · have : ordens.ordem = [] := by
      simpa [Ordens.contador] using h0
    simp [this, Ordens.contador]
  · rw [if_neg h0]
    by_cases h1 : (ordens.ordem.filter (contada mktime)).length = 0
    · rw [if_pos h1, if_pos (by exact_mod_cast h1)]
    · rw [if_neg h1, if_neg (by exact_mod_cast h1)]

theorem contada_sem_menos_um (mktime : Tm → Int) (l : List Ordem)
    (h : ∀ o ∈ l, contadaEspecificada mktime o = true →
      mktime o.tmInicio ≠ -1 ∧ mktime o.tmFim ≠ -1) :
    l.filter (contada mktime) = l.filter (contadaEspecificada mktime) := by
  apply List.filter_congr
  intro o ho
  have := h o ho
  simp only [contada, contadaEspecificada, decide_eq_true_eq] at this ⊢
  by_cases hc : o.estado = CONCLUIDA ∧ o.anoInicio ≠ 0 ∧ o.anoFim ≠ 0 ∧ 0 ≤ deltaSegundos mktime o
  · have h2 := this hc
    simp [hc, h2]
  · have : ¬ (o.estado = CONCLUIDA ∧ o.anoInicio ≠ 0 ∧ o.anoFim ≠ 0 ∧
        mktime o.tmInicio ≠ -1 ∧ mktime o.tmFim ≠ -1 ∧ 0 ≤ deltaSegundos mktime o) := by
      rintro ⟨a, b, c, _, _, d⟩
      exact hc ⟨a, b, c, d⟩
    simp [hc, this]

/-- C11, counterexample: for the single Concluded order started at
1969-12-31 23:59:59 and ended at 1970-01-01 00:00:09 (UTC), both years are
non-zero and the delta is 10 seconds, so the stated mean is 10; `mktime` returns
`-1` for the start, the order is skipped and the function returns 0. -/
theorem tempoMedioResolucaoOrdens_menos_um :
    mktimeUTC ⟨31, 11, 69, 23, 59, 59⟩ = -1 ∧
    mktimeUTC ⟨1, 0, 70, 0, 0, 9⟩ = 9 ∧
    tempoMedioEspecificado mktimeUTC ordensVespera = 10 ∧
    tempoMedioResolucaoOrdens mktimeUTC (some ordensVespera) = CFloat.zero ∧
    CFloat.valor (tempoMedioResolucaoOrdens mktimeUTC (some ordensVespera))
      ≠ tempoMedioEspecificado mktimeUTC ordensVespera := by
  have h1 : ordensVespera.ordem.filter (contadaEspecificada mktimeUTC) = ordensVespera.ordem := by
    decide
  have h2 : (ordensVespera.ordem.map (deltaSegundos mktimeUTC)).sum = 10 := by decide
  have h3 : ordensVespera.ordem.length = 1 := rfl
  have h4 : tempoMedioEspecificado mktimeUTC ordensVespera = 10 := by
    unfold tempoMedioEspecificado
    simp only [h1, h2, h3]
    norm_num
  have h5 : tempoMedioResolucaoOrdens mktimeUTC (some ordensVespera) = CFloat.zero := by decide
  refine ⟨by decide, by decide, h4, h5, ?_⟩
  rw [h4, h5]
  norm_num [CFloat.valor, CFloat.zero]

/-- C11, amended: `tempoMedioResolucaoOrdens` returns 0 for `NULL`; otherwise it
counts exactly the Concluded orders whose start year and end year are both
non-zero, for which `mktime` returns a value other than `-1` for both
timestamps, and whose end−start delta in seconds is non-negative; it returns 0
when no order is counted and otherwise the single precision quotient of the
single precision sum of the deltas by the count.  The sum is the exact sum of
the deltas when that is below `2 ^ 24`.  Where `mktime` returns `-1` for no
timestamp of an order with non-zero years and non-negative delta, the counted
orders are those of the original statement.  An order missing either year can
be removed from the store without changing the result.  A single Concluded
order with start 2024-01-01T10:00:00 and end 2024-01-01T10:05:30 yields 330
when `mktime` returns values 330 apart, neither of them `-1`. -/
theorem tempoMedioResolucaoOrdens_spec (mktime : Tm → Int) (ordens : Ordens) :
    tempoMedioResolucaoOrdens mktime none = CFloat.zero ∧
    (tempoMedioResolucaoOrdens mktime (some ordens)
      = if (ordens.ordem.filter (contada mktime)).length = 0 then CFloat.zero
        else CFloat.div
          (((ordens.ordem.filter (contada mktime)).map
            (fun o => CFloat.ofInt (deltaSegundos mktime o))).foldl CFloat.add CFloat.zero)
          (CFloat.ofInt ((ordens.ordem.filter (contada mktime)).length : Int))) ∧
    (((ordens.ordem.filter (contada mktime)).map (deltaSegundos mktime)).sum < 2 ^ 24 →
      ((ordens.ordem.filter (contada mktime)).map
          (fun o => CFloat.ofInt (deltaSegundos mktime o))).foldl CFloat.add CFloat.zero
        = CFloat.ofInt ((ordens.ordem.filter (contada mktime)).map (deltaSegundos mktime)).sum) ∧
    ((∀ o ∈ ordens.ordem, contadaEspecificada mktime o = true →
        mktime o.tmInicio ≠ -1 ∧ mktime o.tmFim ≠ -1) →
      ordens.ordem.filter (contada mktime)
        = ordens.ordem.filter (contadaEspecificada mktime)) ∧
    (∀ (antes depois : List Ordem) (o : Ordem), ordens.ordem = antes ++ o :: depois →
      o.anoInicio = 0 ∨ o.anoFim = 0 →
      tempoMedioResolucaoOrdens mktime (some ordens)
        = tempoMedioResolucaoOrdens mktime
            (some ⟨antes ++ depois, ordens.ordensAtivas, ordens.capacidade⟩)) ∧
    (∀ idOrdem idAtivo idDepartamento idTecnico prioridade tipo ordensAtivas capacidade : Int,
      mktime ⟨1, 0, 124, 10, 0, 0⟩ ≠ -1 → mktime ⟨1, 0, 124, 10, 5, 30⟩ ≠ -1 →
      mktime ⟨1, 0, 124, 10, 5, 30⟩ - mktime ⟨1, 0, 124, 10, 0, 0⟩ = 330 →
      tempoMedioResolucaoOrdens mktime
          (some ⟨[⟨idOrdem, idAtivo, idDepartamento, idTecnico, CONCLUIDA, prioridade, tipo,
                  1, 1, 2024, 10, 0, 0, 1, 1, 2024, 10, 5, 30⟩], ordensAtivas, capacidade⟩)
        = CFloat.ofInt 330) := by
  refine ⟨rfl, tempoMedioResolucaoOrdens_eq mktime ordens, ?_, contada_sem_menos_um mktime _, ?_, ?_⟩
  · intro h
    have hz : CFloat.zero = CFloat.ofInt 0 := by decide
    have hm : (ordens.ordem.filter (contada mktime)).map
          (fun o => CFloat.ofInt (deltaSegundos mktime o))
        = ((ordens.ordem.filter (contada mktime)).map (deltaSegundos mktime)).map CFloat.ofInt := by
      simp [List.map_map, Function.comp_def]
    rw [hz, hm, foldl_add_ofInt _ 0 _ (le_refl _) (by simpa using h), zero_add]
    intro d hd
    obtain ⟨o, ho, rfl⟩ := List.mem_map.mp hd
    have hc := (List.mem_filter.mp ho).2
    simp only [contada, decide_eq_true_eq] at hc
    exact hc.2.2.2.2.2
  · intro antes depois o hl hano
    have hc : contada mktime o = false := by
      simp only [contada, decide_eq_false_iff_not]
      rintro ⟨_, h3, h4, _⟩
      rcases hano with h | h
      · exact h3 h
      · exact h4 h
    rw [tempoMedioResolucaoOrdens_eq, tempoMedioResolucaoOrdens_eq, hl]
    simp [List.filter_append, List.filter_cons, hc]
  · intro idOrdem idAtivo idDepartamento idTecnico prioridade tipo ordensAtivas capacidade
      h1 h2 h3
    rw [tempoMedioResolucaoOrdens_eq]
    have hc : contada mktime ⟨idOrdem, idAtivo, idDepartamento, idTecnico, CONCLUIDA,
        prioridade, tipo, 1, 1, 2024, 10, 0, 0, 1, 1, 2024, 10, 5, 30⟩ = true := by
      simp only [contada, decide_eq_true_eq, deltaSegundos, Ordem.tmInicio, Ordem.tmFim]
      norm_num
      exact ⟨h1, h2, by omega⟩
    simp only [List.filter_cons, hc, if_true, List.filter_nil, List.length_singleton,
      List.map_cons, List.map_nil, List.foldl_cons, List.foldl_nil, deltaSegundos,
      Ordem.tmInicio, Ordem.tmFim]
    norm_num
    rw [h3]
    decide

/-- Witness of C11 (amended): under `mktimeUTC` the example order yields 330, and
an order without a start year placed before it changes nothing. -/
theorem tempoMedioResolucaoOrdens_spec_witness :
    tempoMedioResolucaoOrdens mktimeUTC (some ordensCincoMinutos) = CFloat.ofInt 330 ∧
    tempoMedioResolucaoOrdens mktimeUTC
        (some ⟨{ ordemZero with estado := CONCLUIDA } :: ordensCincoMinutos.ordem, 0, 5⟩)
      = tempoMedioResolucaoOrdens mktimeUTC (some ordensCincoMinutos) :=
  ⟨(tempoMedioResolucaoOrdens_spec mktimeUTC ordensCincoMinutos).2.2.2.2.2
      20 10 1 10 MEDIA CORRETIVA 0 5 (by decide) (by decide) (by decide),
   (tempoMedioResolucaoOrdens_spec mktimeUTC
      ⟨{ ordemZero with estado := CONCLUIDA } :: ordensCincoMinutos.ordem, 0, 5⟩).2.2.2.2.1
      [] ordensCincoMinutos.ordem { ordemZero with estado := CONCLUIDA } rfl
      (Or.inl (by decide))⟩

/-! ## Persistence -/

theorem lerInt_escreverInt (x : Int) (resto : List Nat) (h1 : -2147483648 ≤ x)
    (h2 : x < 2147483648) : lerInt (escreverInt x ++ resto) = (some x, resto) := by
  simp only [escreverInt, lerInt, lerBits, List.cons_append, List.nil_append, intDeBits]
  have hu : (((x % 4294967296).toNat : Nat) : Int) = x % 4294967296 :=
    Int.toNat_of_nonneg (Int.emod_nonneg _ (by decide))
  have hlt : (x % 4294967296).toNat < 4294967296 := by omega
  generalize (x % 4294967296).toNat = u at hu hlt
  have hb : u % 256 + 256 * (u / 256 % 256) + 65536 * (u / 65536 % 256)
      + 16777216 * (u / 16777216 % 256) = u := by omega
  rw [hb]
  congr 2
  split <;> omega

theorem lerCampo_escreverInt (anterior x : Int) (resto : List Nat) (h1 : -2147483648 ≤ x)
    (h2 : x < 2147483648) : lerCampo anterior (escreverInt x ++ resto) = (x, resto) := by
  simp only [lerCampo, lerInt_escreverInt x resto h1 h2]


/-- C19, evaluated on the code: the order (id 15, asset 11, department 4,
technician 12, corrective) saved by `guardarOrdens` and read back by
`carregarOrdens` has maintenance type 12, technician 15, id 4, department 11
and asset 2; state, priority and timestamps are those saved. -/
theorem carregarOrdens_campos_trocados (residuo : Nat → Ordem) (anterior : Ordens) :
    (guardarOrdens true ordensGravadas).isSome = true ∧
    carregarOrdens residuo true anterior (guardarOrdens true ordensGravadas)
      = some ⟨[⟨4, 2, 11, 15, EXECUCAO, ALTA, 12, 3, 5, 2024, 9, 30, 0, 0, 0, 0, 0, 0, 0⟩], 1, 1⟩ ∧
    carregarOrdens residuo true anterior (guardarOrdens true ordensGravadas)
      ≠ some ⟨ordensGravadas.ordem, ordensGravadas.ordensAtivas, 1⟩ := by
  have h : carregarOrdens residuo true anterior (guardarOrdens true ordensGravadas)
      = some ⟨[⟨4, 2, 11, 15, EXECUCAO, ALTA, 12, 3, 5, 2024, 9, 30, 0, 0, 0, 0, 0, 0, 0⟩],
          1, 1⟩ := by
    rfl
  refine ⟨rfl, h, ?_⟩
  rw [h]
  decide

/-- C20, evaluated on the code: the material ("cabo", quantity 3, unit cost
10.0, order 15) saved by `guardarMateriais` and read back by `carregarMateriais`
has quantity 1092616192, the bit pattern of 10.0, and unit cost `3 * 2 ^ (-149)`,
the `float` with the bit pattern of 3; name and order are those saved. -/
theorem carregarMateriais_campos_trocados (residuo : Nat → Material) (anterior : Materiais) :
    guardarMateriais true materiaisGravados
      = some [1, 0, 0, 0, 3, 0, 0, 0, 0, 0, 32, 65, 15, 0, 0, 0, 5, 0, 0, 0, 99, 97, 98, 111, 0] ∧
    carregarMateriais residuo [] anterior (guardarMateriais true materiaisGravados)
      = some ⟨[⟨some "cabo", 1092616192, ⟨3, -149⟩, 15⟩], 1⟩ ∧
    carregarMateriais residuo [] anterior (guardarMateriais true materiaisGravados)
      ≠ some ⟨materiaisGravados.material, 1⟩ := by
  have h : carregarMateriais residuo [] anterior (guardarMateriais true materiaisGravados)
      = some ⟨[⟨some "cabo", 1092616192, ⟨3, -149⟩, 15⟩], 1⟩ := by
    rfl
  refine ⟨by decide, h, ?_⟩
  rw [h]
  decide

/-! ## Decommissioning an asset -/

theorem abater_ativo_sem_resolucao (tmLocal : Option Tm) (ativos : Ativos)
    (entrada e1 : List Linha) (idProcurado : Int)
    (h1 : obterIntPositivo entrada = some (idProcurado, e1))
    (h2 : procurar_ativo_id ativos idProcurado = -1) :
    abater_ativo tmLocal ativos entrada = Saida.foraDoArray (-1) := by
  simp [abater_ativo, h1, h2]

theorem procurar_ativo_id_desde_abatidos (idProcurado : Int) (l : List Ativo) (i : Int)
    (h : ∀ a ∈ l, a.estado ≠ OPERACIONAL) :
    procurar_ativo_id_desde idProcurado l i = -1 ∨
    ∃ a, l[(procurar_ativo_id_desde idProcurado l i - i).toNat]? = some a ∧
      a.estado ≠ OPERACIONAL ∧ i ≤ procurar_ativo_id_desde idProcurado l i := by
  induction l generalizing i with
  | nil => left; rfl
  | cons x xs ih =>
    unfold procurar_ativo_id_desde
    split
    · right
      exact ⟨x, by simp, h x (List.mem_cons_self _ _), le_refl _⟩
    · rcases ih (i + 1) (fun a ha => h a (List.mem_cons_of_mem _ ha)) with h1 | ⟨a, h1, h2, h3⟩
      · left; exact h1
      · right
        refine ⟨a, ?_, h2, by omega⟩
        have e : (procurar_ativo_id_desde idProcurado xs (i + 1) - i).toNat
            = (procurar_ativo_id_desde idProcurado xs (i + 1) - (i + 1)).toNat + 1 := by omega
        rw [e, List.getElem?_cons_succ]
        exact h1

/-- With no operational asset the prompt of `criar_ordem` accepts no identifier:
the loop never ends. -/
theorem criar_ordem_laco_sem_operacional (ativos : Ativos)
    (h : ∀ a ∈ ativos.ativo, a.estado ≠ OPERACIONAL) (fuel : Nat) (entrada : List Linha) :
    criar_ordem_laco ativos fuel entrada = none := by
  induction fuel generalizing entrada with
  | zero => rfl
  | succ fuel ih =>
    unfold criar_ordem_laco
    cases hq : obterIntIntervalado 0 999999 entrada with
    | none => rfl
    | some r =>
      obtain ⟨idProcurado, resto⟩ := r
      simp only
      rcases procurar_ativo_id_desde_abatidos idProcurado ativos.ativo 0 h with h1 | ⟨a, h1, h2, _⟩
      · have : procurar_ativo_id ativos idProcurado = -1 := h1
        simp [this, ih]
      · have e : procurar_ativo_id ativos idProcurado
            = procurar_ativo_id_desde idProcurado ativos.ativo 0 := rfl
        rw [sub_zero] at h1
        rw [e]
        split
        · exact ih _
        · rw [h1]
          simp [h2, ih]

/-- C27, evaluated on the code: in the store with asset 10 in maintenance, asset 11
operational and asset 12 decommissioned, the identifiers 99 (no asset) and 12
(decommissioned) make `procurar_ativo_id` return `-1`, and `abater_ativo` reads
`ativo[-1]`, outside the array.  For asset 10, in maintenance, the call returns
with the store as it was. -/
theorem abater_ativo_fora_do_array (tmLocal : Option Tm) (resto : List Linha) :
    procurar_ativo_id ativosExemplo 99 = -1 ∧
    abater_ativo tmLocal ativosExemplo (Linha.inteiro 99 :: resto) = Saida.foraDoArray (-1) ∧
    procurar_ativo_id ativosExemplo 12 = -1 ∧
    abater_ativo tmLocal ativosExemplo (Linha.inteiro 12 :: resto) = Saida.foraDoArray (-1) ∧
    abater_ativo tmLocal ativosExemplo (Linha.inteiro 10 :: resto)
      = Saida.devolve (ativosExemplo, resto) :=
  ⟨by decide, rfl, by decide, rfl, rfl⟩

/-- C24, evaluated on the code: from the empty asset store, `criar_ativo` creates
asset 10 (operational, counter 1) and `abater_ativo` decommissions it without
touching the counter.  The store reached has counter 1 and no operational
asset, so the guard of `criar_ordem` passes while its prompt can accept no
identifier. -/
theorem abater_ativo_nao_desconta :
    criar_ativo residuoAtivo (some tmExemplo) ⟨[], 0, 0⟩ departamentosExemplo
        ⟨entradaCriarAtivo, []⟩
      = some (⟨[ativoCriado], 1, 5⟩, ⟨[], []⟩) ∧
    abater_ativo (some tmExemplo) ⟨[ativoCriado], 1, 5⟩ [Linha.inteiro 10]
      = Saida.devolve
          (⟨[{ ativoCriado with estado := ABATIDO, diaAbate := 5, mesAbate := 3,
                                anoAbate := 2024 }], 1, 5⟩, []) ∧
    ([{ ativoCriado with estado := ABATIDO, diaAbate := 5, mesAbate := 3,
                         anoAbate := 2024 }].countP
        (fun a : Ativo => decide (a.estado = OPERACIONAL))) = 0 ∧
    (∀ (fuel : Nat) (entrada : List Linha),
      criar_ordem_laco
        ⟨[{ ativoCriado with estado := ABATIDO, diaAbate := 5, mesAbate := 3,
                             anoAbate := 2024 }], 1, 5⟩ fuel entrada = none) := by
  refine ⟨by decide, by decide, by decide, ?_⟩
  intro fuel entrada
  apply criar_ordem_laco_sem_operacional
  decide

/-- C21, evaluated on the code: `guardarAtivos` does not write the decommission
date nor the corrective-maintenance count, and `carregarAtivos` does not assign
them.  The asset decommissioned on 5/3/2024 after two corrective maintenances
comes back with those four fields as `malloc` left them in the new array; with
zeroed memory the record read differs from the record saved.  The other fields
and the availability counter are those saved. -/
theorem carregarAtivos_campos_por_gravar (residuo : Nat → Ativo) (anterior : Ativos) :
    carregarAtivos residuo [] anterior (guardarAtivos true ativosGravados)
      = some ⟨[{ ativoCriado with
                 estado := ABATIDO
                 diaAbate := (residuo 0).diaAbate
                 mesAbate := (residuo 0).mesAbate
                 anoAbate := (residuo 0).anoAbate
                 contagemManutencoesCorretivas := (residuo 0).contagemManutencoesCorretivas }],
              0, 1⟩ ∧
    carregarAtivos (fun _ => residuoAtivo) [] anterior (guardarAtivos true ativosGravados)
      = some ⟨[{ ativoCriado with estado := ABATIDO }], 0, 1⟩ ∧
    carregarAtivos (fun _ => residuoAtivo) [] anterior (guardarAtivos true ativosGravados)
      ≠ some ⟨ativosGravados.ativo, ativosGravados.ativosDisponiveis, 1⟩ := by
  have h : carregarAtivos (fun _ => residuoAtivo) [] anterior (guardarAtivos true ativosGravados)
      = some ⟨[{ ativoCriado with estado := ABATIDO }], 0, 1⟩ := by
    rfl
  refine ⟨rfl, h, ?_⟩
  rw [h]
  decide

theorem guardarTecnicos_laco_fora (contador : Int) (h : contador ≠ 0) (l : List Tecnico)
    (i : Int) (escrito : List Nat) :
    guardarTecnicos_laco contador l i escrito = Saida.foraDoArray (i + l.length) := by
  induction l generalizing i escrito with
  | nil => simp [guardarTecnicos_laco, h]
  | cons t resto ih =>
    unfold guardarTecnicos_laco
    rw [if_pos h, ih]
    congr 1
    simp only [List.length_cons]
    push_cast
    ring

/-- C25, evaluated on the code: for every technician store with at least one
record the loop of `guardarTecnicos`, whose condition is `tecnicos->contador`
and not `i < tecnicos->contador`, does not stop after the last record: it goes
on to read `tecnico[contador]`, outside the array.  Only for the empty store
does the call return, with the two counters written. -/
theorem guardarTecnicos_nao_para (t : Tecnico) (resto : List Tecnico)
    (tecnicosAtivos capacidade : Int) :
    guardarTecnicos true ⟨t :: resto, tecnicosAtivos, capacidade⟩
      = Saida.foraDoArray ((t :: resto).length : Int) ∧
    guardarTecnicos true tecnicosExemplo = Saida.foraDoArray 3 ∧
    guardarTecnicos true ⟨[], tecnicosAtivos, capacidade⟩
      = Saida.devolve (some (escreverInt 0 ++ escreverInt tecnicosAtivos)) := by
  have h : (Tecnicos.contador ⟨t :: resto, tecnicosAtivos, capacidade⟩) ≠ 0 := by
    simp only [Tecnicos.contador, List.length_cons]
    omega
  refine ⟨?_, ?_, rfl⟩
  · unfold guardarTecnicos
    rw [if_pos rfl, guardarTecnicos_laco_fora _ h]
    simp
  · unfold guardarTecnicos
    rw [if_pos rfl, guardarTecnicos_laco_fora _ (by decide)]
    rfl

/-! ## Round trip of the departments -/

theorem takeWhile_ate_zero (l r : List Nat) (h : ∀ x ∈ l, x ≠ 0) :
    (l ++ 0 :: r).takeWhile (fun c => decide (c ≠ 0)) = l := by
  induction l with
  | nil => simp
  | cons x xs ih =>
    have hx : x ≠ 0 := h x (List.mem_cons_self _ _)
    have ih1 := ih (fun y hy => h y (List.mem_cons_of_mem _ hy))
    simp only [List.cons_append, List.takeWhile_cons, hx, ne_eq, not_false_eq_true,
      decide_True, if_true]
    simp only [ne_eq] at ih1
    rw [ih1]

theorem lerStringBinario_null (heap : List Bool) (resto : List Nat) :
    lerStringBinario heap (escreverStringBinario none ++ resto) = some (none, heap, resto) := by
  unfold lerStringBinario escreverStringBinario
  rw [lerInt_escreverInt 0 resto (by decide) (by decide)]
  simp

theorem lerStringBinario_nucleo (s : String) (resto : List Nat) (cauda : List Bool)
    (hs : textoC (some s)) :
    (if (s.toList.map Char.toNat ++ ([0] ++ resto)).length < ((s.length : Int) + 1).toNat
      then none
      else if 0 ∈ (s.toList.map Char.toNat ++ ([0] ++ resto)).take ((s.length : Int) + 1).toNat
      then some (some (String.mk
            ((((s.toList.map Char.toNat ++ ([0] ++ resto)).take
                ((s.length : Int) + 1).toNat).takeWhile (fun c => decide (c ≠ 0))).map
              Char.ofNat)),
          cauda, (s.toList.map Char.toNat ++ ([0] ++ resto)).drop
            ((s.length : Int) + 1).toNat)
      else none : Option (Option String × List Bool × List Nat))
      = some (some s, cauda, resto) := by
  obtain ⟨hnul, _⟩ := hs
  have hl : s.length = s.toList.length := rfl
  have htam : ((s.length : Int) + 1).toNat = (s.toList.map Char.toNat).length + 1 := by
    rw [List.length_map, ← hl]
    omega
  have htake : (s.toList.map Char.toNat ++ ([0] ++ resto)).take ((s.length : Int) + 1).toNat
      = s.toList.map Char.toNat ++ [0] := by
    rw [htam, ← List.append_assoc]
    apply List.take_left'
    simp
  have hdrop : (s.toList.map Char.toNat ++ ([0] ++ resto)).drop ((s.length : Int) + 1).toNat
      = resto := by
    rw [htam, ← List.append_assoc]
    apply List.drop_left'
    simp
  have hlenf : ¬ (s.toList.map Char.toNat ++ ([0] ++ resto)).length
      < ((s.length : Int) + 1).toNat := by
    rw [htam]
    simp
  have hnz : ∀ x ∈ s.toList.map Char.toNat, x ≠ 0 := by
    intro x hx
    obtain ⟨c, hc, rfl⟩ := List.mem_map.mp hx
    exact hnul c hc
  have htw : (s.toList.map Char.toNat ++ [0]).takeWhile (fun c => decide (c ≠ 0))
      = s.toList.map Char.toNat := takeWhile_ate_zero _ [] hnz
  have hback : String.mk ((s.toList.map Char.toNat).map Char.ofNat) = s := by
    rw [List.map_map]
    have : (Char.ofNat ∘ Char.toNat) = id := by
      funext c
      simp
    rw [this, List.map_id]
    rfl
  rw [if_neg hlenf, htake, hdrop, htw, hback, if_pos (by simp)]

theorem lerStringBinario_escreverStringBinario (heap : List Bool) (s : String)
    (resto : List Nat) (hheap : ∀ b ∈ heap, b = true) (hs : textoC (some s)) :
    lerStringBinario heap (escreverStringBinario (some s) ++ resto)
      = some (some s, heap.tail, resto) := by
  have hlen := hs.2
  have hcore := lerStringBinario_nucleo s resto heap.tail hs
  cases heap with
  | nil =>
    unfold lerStringBinario escreverStringBinario
    simp only [List.append_assoc]
    rw [lerInt_escreverInt _ _ (by omega) hlen]
    simp only
    rw [if_neg (by omega), if_neg (by omega)]
    exact hcore
  | cons b hp =>
    have hb : b = true := hheap b (List.mem_cons_self _ _)
    subst hb
    unfold lerStringBinario escreverStringBinario
    simp only [List.append_assoc]
    rw [lerInt_escreverInt _ _ (by omega) hlen]
    simp only
    rw [if_neg (by omega), if_neg (by omega)]
    exact hcore

theorem lerStringBinario_ida_e_volta (heap : List Bool) (str : Option String)
    (resto : List Nat) (hheap : ∀ b ∈ heap, b = true) (hs : textoC str) :
    ∃ heap1, (∀ b ∈ heap1, b = true) ∧
      lerStringBinario heap (escreverStringBinario str ++ resto) = some (str, heap1, resto) := by
  cases str with
  | none => exact ⟨heap, hheap, lerStringBinario_null heap resto⟩
  | some s =>
    refine ⟨heap.tail, ?_, lerStringBinario_escreverStringBinario heap s resto hheap hs⟩
    intro b hb
    exact hheap b (List.mem_of_mem_tail hb)

theorem carregarDepartamentos_registo_ida_e_volta (residuo d : Departamento)
    (heap : List Bool) (resto : List Nat) (hheap : ∀ b ∈ heap, b = true)
    (hd : d.representavel) :
    ∃ heap1, (∀ b ∈ heap1, b = true) ∧
      carregarDepartamentos_registo residuo heap (guardarDepartamentos_registo d ++ resto)
        = some (d, heap1, resto) := by
  obtain ⟨h1, h2, h3, h4, h5⟩ := hd
  obtain ⟨p1, q1, r1⟩ := lerStringBinario_ida_e_volta heap d.nomeDepartamento
    (escreverStringBinario d.responsavel ++ (escreverStringBinario d.contacto ++ resto)) hheap h3
  obtain ⟨p2, q2, r2⟩ := lerStringBinario_ida_e_volta p1 d.responsavel
    (escreverStringBinario d.contacto ++ resto) q1 h4
  obtain ⟨p3, q3, r3⟩ := lerStringBinario_ida_e_volta p2 d.contacto resto q2 h5
  refine ⟨p3, q3, ?_⟩
  unfold carregarDepartamentos_registo guardarDepartamentos_registo
  simp only [List.append_assoc]
  rw [lerCampo_escreverInt _ _ _ h1.1 h1.2]
  simp only
  rw [lerCampo_escreverInt _ _ _ h2.1 h2.2]
  simp only
  rw [r1]
  simp only
  rw [r2]
  simp only
  rw [r3]

theorem carregarDepartamentos_laco_ida_e_volta (residuo : Nat → Departamento)
    (l : List Departamento) (i : Nat) (heap : List Bool) (resto : List Nat)
    (hheap : ∀ b ∈ heap, b = true) (hl : ∀ d ∈ l, d.representavel) :
    carregarDepartamentos_laco residuo l.length i heap
        ((l.map guardarDepartamentos_registo).flatten ++ resto) = some l := by
  induction l generalizing i heap with
  | nil => rfl
  | cons d ds ih =>
    obtain ⟨heap1, q1, r1⟩ := carregarDepartamentos_registo_ida_e_volta (residuo i) d heap
      ((ds.map guardarDepartamentos_registo).flatten ++ resto) hheap
      (hl d (List.mem_cons_self _ _))
    simp only [List.length_cons, List.map_cons, List.flatten_cons, List.append_assoc]
    unfold carregarDepartamentos_laco
    rw [r1]
    simp only
    rw [ih (i + 1) heap1 q1 (fun x hx => hl x (List.mem_cons_of_mem _ hx))]

theorem carregarDepartamentos_guardarDepartamentos (residuo : Nat → Departamento)
    (heap : List Bool) (anterior departamentos : Departamentos)
    (hheap : ∀ b ∈ heap, b = true) (hn : departamentos.contador < 2147483648)
    (hl : ∀ d ∈ departamentos.departamento, d.representavel) :
    carregarDepartamentos residuo heap anterior (guardarDepartamentos true departamentos)
      = some ⟨departamentos.departamento, anterior.departamentosAtivos,
              departamentos.contador⟩ := by
  have h0 : (0 : Int) ≤ departamentos.contador := by
    simp only [Departamentos.contador]
    omega
  have hlaco := carregarDepartamentos_laco_ida_e_volta residuo departamentos.departamento 0
    heap.tail [] (fun b hb => hheap b (List.mem_of_mem_tail hb)) hl
  rw [List.append_nil] at hlaco
  have hnat : departamentos.contador.toNat = departamentos.departamento.length := by
    simp [Departamentos.contador]
  unfold carregarDepartamentos guardarDepartamentos
  rw [if_pos rfl]
  simp only
  rw [lerCampo_escreverInt _ _ _ (by omega) hn]
  simp only
  rw [if_neg (by omega), hnat]
  cases heap with
  | nil =>
    simp only
    rw [hlaco]
  | cons b hp =>
    have hb : b = true := hheap b (List.mem_cons_self _ _)
    subst hb
    simp only
    rw [hlaco]

/-- C22: for every department store whose records a C program can hold
(identifier and activity within `int`, texts that are `NULL` or C strings, a
count within `int`), when `fopen` and every `malloc` succeed,
`carregarDepartamentos` on the bytes written by `guardarDepartamentos` yields
the same records in the same order: identifier, activity, name, responsible and
contact are equal.  An absent text is written as the length 0 and read back as
absent; a present text, the empty string included, is read back present with the
same characters. -/
theorem carregarDepartamentos_spec (residuo : Nat → Departamento) (heap : List Bool)
    (anterior departamentos : Departamentos) :
    ((∀ b ∈ heap, b = true) → departamentos.contador < 2147483648 →
      (∀ d ∈ departamentos.departamento, d.representavel) →
      ∃ carregado,
        carregarDepartamentos residuo heap anterior (guardarDepartamentos true departamentos)
          = some carregado ∧
        carregado.contador = departamentos.contador ∧
        carregado.departamento = departamentos.departamento) ∧
    (escreverStringBinario none = escreverInt 0 ∧
      ∀ resto : List Nat,
        lerStringBinario heap (escreverStringBinario none ++ resto) = some (none, heap, resto)) ∧
    (∀ (s : String) (resto : List Nat), (∀ b ∈ heap, b = true) → textoC (some s) →
      lerStringBinario heap (escreverStringBinario (some s) ++ resto)
        = some (some s, heap.tail, resto)) ∧
    (escreverStringBinario (some "") = [1, 0, 0, 0, 0] ∧
      ∀ resto : List Nat, (∀ b ∈ heap, b = true) →
        lerStringBinario heap (escreverStringBinario (some "") ++ resto)
          = some (some "", heap.tail, resto)) := by
  refine ⟨?_, ⟨rfl, fun resto => lerStringBinario_null heap resto⟩, ?_, by decide, ?_⟩
  · intro hheap hn hl
    exact ⟨_, carregarDepartamentos_guardarDepartamentos residuo heap anterior departamentos
      hheap hn hl, rfl, rfl⟩
  · intro s resto hheap hs
    exact lerStringBinario_escreverStringBinario heap s resto hheap hs
  · intro resto hheap
    exact lerStringBinario_escreverStringBinario heap "" resto hheap (by decide)

/-- Witness of C22: two departments, one with an empty responsible name and no
contact, come back as they were saved. -/
theorem carregarDepartamentos_spec_witness :
    (∃ carregado,
      carregarDepartamentos (fun _ => residuoDepartamento) [true, true] ⟨[], 0, 0⟩
          (guardarDepartamentos true departamentosGravados) = some carregado ∧
      carregado.contador = departamentosGravados.contador ∧
      carregado.departamento = departamentosGravados.departamento) ∧
    lerStringBinario [true] (escreverStringBinario (some "Obras") ++ [7])
      = some (some "Obras", [], [7]) :=
  ⟨(carregarDepartamentos_spec (fun _ => residuoDepartamento) [true, true] ⟨[], 0, 0⟩
      departamentosGravados).1 (by decide) (by decide) (by decide),
   (carregarDepartamentos_spec (fun _ => residuoDepartamento) [true] ⟨[], 0, 0⟩
      departamentosGravados).2.2.1 "Obras" [7] (by decide) (by decide)⟩

/-! ## Departments: identifiers, names, active counter -/

/-- C26, evaluated on the code: `criarDepartamento` increments the count before
it calls `gerarProximoID`, so for the empty store the test `contador == 0`
fails and the scan covers the new slot, whose identifier is what `realloc` left
there.  The first department gets that value plus 1 (or 1 when it is not
positive): 1 with zeroed memory, not 10. -/
theorem criarDepartamento_primeiro_id (residuo : Departamento) :
    criarDepartamento residuo ⟨[], 0, 0⟩ ⟨entradaCriarDepartamento, []⟩
      = some (⟨[⟨(if residuo.idDepartamento > 0 then residuo.idDepartamento else 0) + 1,
                 some "Obras", some "Ana Sousa", some "912345678", ATIVO⟩], 1, 5⟩,
              ⟨[], []⟩) ∧
    criarDepartamento residuoDepartamento ⟨[], 0, 0⟩ ⟨entradaCriarDepartamento, []⟩
      = some (⟨[⟨1, some "Obras", some "Ana Sousa", some "912345678", ATIVO⟩], 1, 5⟩,
              ⟨[], []⟩) ∧
    Departamentos.gerarProximoID ⟨[], 0, 0⟩ = 10 :=
  ⟨rfl, rfl, rfl⟩

/-- C28, evaluated on the code: the name loop of `atualizar_departamento` calls
`validar_nome_departamento`, which examines the last record of the store.  With
departments 10 ("Obras") and 11 ("Cultura"), the new name "ab" for department 10
is accepted, because "Cultura" has 7 characters; the same name for department
11, the last one, is refused. -/
theorem atualizar_departamento_nome_curto :
    atualizar_departamento departamentosGravados ⟨entradaNomeCurto, []⟩
      = some (⟨[⟨10, some "ab", some "", none, ATIVO⟩,
                ⟨11, some "Cultura", some "Rui Lopes", some "rui@cm.pt", INATIVO⟩], 1, 5⟩,
              ⟨[], []⟩) ∧
    atualizar_departamento departamentosGravados ⟨entradaNomeUltimo, []⟩
      = some (⟨[⟨10, some "Obras", some "", none, ATIVO⟩,
                ⟨11, some "Turismo", some "Rui Lopes", some "rui@cm.pt", INATIVO⟩], 1, 5⟩,
              ⟨[], []⟩) :=
  ⟨by decide, by decide⟩

/-- C30, evaluated on the code: `guardarDepartamentos` does not write
`departamentosAtivos` and `carregarDepartamentos` does not assign it.  Saved
from a store with one active department and loaded into the store that `main`
initialises, the records come back with the counter 0, and `criar_ativo` then
refuses to create an asset for want of an active department. -/
theorem carregarDepartamentos_perde_contador (residuo : Nat → Departamento)
    (residuoA : Ativo) (tmLocal : Option Tm) (ativos : Ativos) (entrada : List Linha) :
    departamentosGravados.departamento.countP (fun d => decide (d.atividade = ATIVO)) = 1 ∧
    departamentosGravados.departamentosAtivos = 1 ∧
    carregarDepartamentos residuo [] ⟨[], 0, 0⟩ (guardarDepartamentos true departamentosGravados)
      = some ⟨departamentosGravados.departamento, 0, 2⟩ ∧
    criar_ativo residuoA tmLocal ativos ⟨departamentosGravados.departamento, 0, 2⟩
        ⟨Linha.palavras "" :: entrada, []⟩
      = some (ativos, ⟨entrada, []⟩) :=
  ⟨by decide, rfl, rfl, rfl⟩

/-! ## The material loop and the technician state -/

/-- C23, evaluated on the code: the material loop is `while (sair == 2)` and the
prompt reads "(1) Sim (2) Não".  When the caller answers 1 (yes) after the first
material, the loop ends with one material appended, and the line meant for the
second material is consumed by `pausar_ecra`.  When the caller answers 2 (no),
a second material is asked for and appended. -/
theorem gerir_ordem_materiais_resposta_trocada :
    (gerir_ordem (some tmExemplo) sistemaExemplo ⟨entradaSimNao, []⟩).map
        (fun r => (r.1.materiais.material, r.2.entrada))
      = some ([⟨some "Cabo", 2, CFloat.decimal 55 10, 15⟩],
              [Linha.real (CFloat.decimal 25 10) "2.5", Linha.inteiro 1, Linha.inteiro 2,
               Linha.palavras ""]) ∧
    (gerir_ordem (some tmExemplo) sistemaExemplo ⟨entradaNaoSim, []⟩).map
        (fun r => (r.1.materiais.material, r.2.entrada))
      = some ([⟨some "Cabo", 2, CFloat.decimal 55 10, 15⟩,
               ⟨some "Fita", 1, CFloat.decimal 25 10, 15⟩], []) :=
  ⟨by decide, by decide⟩

/-- C29, evaluated on the code: technician 12 is inactive and holds order 16, in
execution.  When the caller concludes order 16, `gerir_ordem` assigns `ATIVO1`
to the technician of the order without looking at the state: technician 12 is
active after the call. -/
theorem gerir_ordem_reativa_tecnico :
    sistemaInativo.tecnicos.tecnico[2]? = some ⟨12, some "Eva", 3, INATIVO1, 16⟩ ∧
    (gerir_ordem (some tmExemplo) sistemaInativo ⟨entradaConcluir, []⟩).map
        (fun r => r.1.tecnicos.tecnico)
      = some [tecnicoDez, ⟨11, some "Rui", 2, INATIVO1, 0⟩, ⟨12, some "Eva", 3, ATIVO1, 16⟩] :=
  ⟨by decide, by decide⟩

/-- C29, amended: the record of a technician, inactive or not, is unchanged
after a `gerir_ordem` step that returns, unless the step concludes an order in
execution whose technician identifier is the technician's and resolves
(`procurar_tecnico_id`, first record with that identifier) to that record; in
that case the record differs only in its state, which is `ATIVO1`.  So an
inactive technician stays inactive exactly when the step does not conclude an
order that resolves to him. -/
theorem gerir_ordem_inativos_spec (tmLocal : Option Tm) (s s1 : Sistema) (w w1 : Mundo)
    (h : gerir_ordem tmLocal s w = some (s1, w1)) (i : Nat) (t : Tecnico)
    (ht : s.tecnicos.tecnico[i]? = some t) :
    s1.tecnicos.tecnico[i]? = some t ∨
    (s1.tecnicos.tecnico[i]? = some { t with estado_tecnico := ATIVO1 } ∧
     ∃ idProcurado e1 atual,
       obterIntIntervalado 0 (obterMaiorIDOrdens s.ordens) w.entrada = some (idProcurado, e1) ∧
       s.ordens.ordem[(procurar_ordens_id s.ordens idProcurado).toNat]? = some atual ∧
       atual.estado = EXECUCAO ∧ atual.idTecnico = t.idTecnico ∧
       procurar_tecnico_id s.tecnicos atual.idTecnico = (i : Int) ∧
       s1.ordens.ordem[(procurar_ordens_id s.ordens idProcurado).toNat]?
         = some (({ atual with estado := CONCLUIDA }).comFim (carimbo tmLocal))) := by
  obtain ⟨idProcurado, e1, hler, hcasos⟩ := gerir_ordem_casos tmLocal s s1 w w1 h
  rcases hcasos with ⟨_, rfl⟩ | ⟨atual, hne, hat, _, hc⟩
  · left; exact ht
  · rcases hc with ⟨_, _, _, _, _, _, _, _, _, _, _, rfl⟩ | ⟨_, rfl⟩ | ⟨hexec, rfl⟩
    · left; exact ht
    · left; exact ht
    · by_cases hidx : procurar_tecnico_id s.tecnicos atual.idTecnico ≠ -1
      · obtain ⟨h0, t1, ht1, hid1⟩ := procurar_tecnico_id_hit s.tecnicos atual.idTecnico hidx
        simp only [if_pos hidx]
        rw [alterar_getElem?]
        by_cases hi : i = (procurar_tecnico_id s.tecnicos atual.idTecnico).toNat
        · right
          rw [if_pos hi, ht]
          refine ⟨rfl, idProcurado, e1, atual, hler, hat, hexec, ?_, ?_, ?_⟩
          · rw [hi, ht1] at ht
            have : t1 = t := by simpa using ht
            rw [← this, hid1]
          · omega
          · have hlt : (procurar_ordens_id s.ordens idProcurado).toNat < s.ordens.ordem.length := by
              rcases List.getElem?_eq_some_iff.mp hat with ⟨hl, _⟩
              exact hl
            simp [hlt]
        · left
          rw [if_neg hi]
          exact ht
      · left
        simp only [if_neg hidx]
        exact ht

/-- Witness of C29 (amended): concluding order 16 activates technician 12, who
holds it, and leaves the inactive technician 11 as he was. -/
theorem gerir_ordem_inativos_spec_witness :
    (sistemaReativado.tecnicos.tecnico[1]? = some ⟨11, some "Rui", 2, INATIVO1, 0⟩ ∨
     (sistemaReativado.tecnicos.tecnico[1]? = some ⟨11, some "Rui", 2, ATIVO1, 0⟩ ∧
      ∃ idProcurado e1 atual,
        obterIntIntervalado 0 (obterMaiorIDOrdens sistemaInativo.ordens) entradaConcluir
          = some (idProcurado, e1) ∧
        sistemaInativo.ordens.ordem[(procurar_ordens_id sistemaInativo.ordens idProcurado).toNat]?
          = some atual ∧
        atual.estado = EXECUCAO ∧ atual.idTecnico = 11 ∧
        procurar_tecnico_id sistemaInativo.tecnicos atual.idTecnico = ((1 : Nat) : Int) ∧
        sistemaReativado.ordens.ordem[
            (procurar_ordens_id sistemaInativo.ordens idProcurado).toNat]?
          = some (({ atual with estado := CONCLUIDA }).comFim (carimbo (some tmExemplo))))) ∧
    sistemaReativado.tecnicos.tecnico[2]? = some ⟨12, some "Eva", 3, ATIVO1, 16⟩ :=
  ⟨gerir_ordem_inativos_spec (some tmExemplo) sistemaInativo sistemaReativado
      ⟨entradaConcluir, []⟩ ⟨[], []⟩ (by decide) 1 ⟨11, some "Rui", 2, INATIVO1, 0⟩
      (by decide),
   by decide⟩

end GestaoAtivos

